import Mathlib

/-!
# s2sGeoAdapter: shared-memory transport and fusion filter

A shallow embedding of the parts of the repository that the claims are about.

Conventions of the embedding:
* C++ `double` values are rationals (`ℚ`).  The fusion filter is computed in
  exact arithmetic.  Where the outcome of a comparison or of a conversion to
  `int` hangs on the rounding of a double operation (context cache, context
  hash), the operation is rounded to binary64 (`roundToDouble`).  The filter
  is embedded a second time over the values of IEEE 754 binary64 with
  infinities and NaN (`KalmanFilterIEEE`), for inputs that overflow.
* `uint32_t` / `uint64_t` values are natural numbers, the wrap-around of every
  arithmetic operation is written out as `% 2 ^ 32` / `% 2 ^ 64`.
* `int64_t` time stamps are integers.
* `char[N]` arrays are the list of their bytes.
* A C++ pointer that is either null or points to an object is an `Option`
  holding the pointed-to object.
-/

namespace s2sgeo

/-! ## include/SharedMemoryStructs.hpp -/

/-- Raw sensor data from GPS and IMU (`struct LocationFix`). -/
structure LocationFix where
  latitude : ℚ
  longitude : ℚ
  altitude : ℚ
  accuracy : ℚ
  speed : ℚ
  heading : ℚ
  timestamp_ms : Int
  accel_x : ℚ
  accel_y : ℚ
  accel_z : ℚ
  gyro_x : ℚ
  gyro_y : ℚ
  gyro_z : ℚ
deriving DecidableEq

/-- The three-argument constructor `LocationFix(lat, lon, ts)`: accuracy 10,
everything else 0. -/
def LocationFix.mk3 (lat lon : ℚ) (ts : Int) : LocationFix :=
  { latitude := lat, longitude := lon, altitude := 0, accuracy := 10,
    speed := 0, heading := 0, timestamp_ms := ts,
    accel_x := 0, accel_y := 0, accel_z := 0,
    gyro_x := 0, gyro_y := 0, gyro_z := 0 }

/-- Authoritative, smoothed location state (`struct WorldState`). -/
structure WorldState where
  smoothed_lat : ℚ
  smoothed_lon : ℚ
  smoothed_altitude : ℚ
  s2_cell_id : Nat
  s2_cell_level : Int
  context_json : List Nat
  last_update_ms : Int
  update_sequence : Nat
  is_moving : Bool
  step_count : Nat
  estimated_distance_m : ℚ
deriving DecidableEq

/-- Environmental data to inject into the AI session (`struct ContextFrame`). -/
structure ContextFrame where
  road_name : List Nat
  road_type : List Nat
  traffic_level : List Nat
  current_speed : ℚ
  speed_limit : ℚ
  elevation_gain_m : ℚ
  gradient_percent : ℚ
  hazards : List Nat
  timestamp_ms : Int
deriving DecidableEq

/-- Single entry in the ring buffer (`struct RingBufferEntry`). -/
structure RingBufferEntry where
  sequence : Nat
  state : WorldState
  context : ContextFrame
deriving DecidableEq

/-- The all-zero `WorldState` (value-initialised storage). -/
def WorldState.zero : WorldState :=
  { smoothed_lat := 0, smoothed_lon := 0, smoothed_altitude := 0,
    s2_cell_id := 0, s2_cell_level := 0, context_json := List.replicate 1024 0,
    last_update_ms := 0, update_sequence := 0, is_moving := false,
    step_count := 0, estimated_distance_m := 0 }

/-- The all-zero `ContextFrame` (value-initialised storage). -/
def ContextFrame.zero : ContextFrame :=
  { road_name := List.replicate 256 0, road_type := List.replicate 64 0,
    traffic_level := List.replicate 32 0, current_speed := 0, speed_limit := 0,
    elevation_gain_m := 0, gradient_percent := 0,
    hazards := List.replicate 512 0, timestamp_ms := 0 }

/-- The all-zero ring entry, as `construct<RingBufferEntry[]>(..)[N]()` leaves it. -/
def RingBufferEntry.zero : RingBufferEntry :=
  { sequence := 0, state := WorldState.zero, context := ContextFrame.zero }

/-- Control structure of the ring buffer (`struct SharedMemoryHeader`). -/
structure SharedMemoryHeader where
  write_index : Nat
  read_index : Nat
  global_sequence : Nat
  location_service_alive : Bool
  active_plugin : List Nat
  accuracy_level : ℚ
  total_updates : Nat
  total_context_updates : Nat
deriving DecidableEq

/-- `SharedMemoryHeader::RING_BUFFER_SIZE`. -/
def RING_BUFFER_SIZE : Nat := 1024

/-- The constructor `SharedMemoryHeader()`; `active_plugin` is not mentioned in
the initialiser list and keeps the zero bytes of the fresh segment. -/
def SharedMemoryHeader.init : SharedMemoryHeader :=
  { write_index := 0, read_index := 0, global_sequence := 0,
    location_service_alive := false, active_plugin := List.replicate 64 0,
    accuracy_level := 1, total_updates := 0, total_context_updates := 0 }

/-! ### Sizes from the declared field widths

`double`, `uint64_t`, `int64_t` are 8 bytes, `int`, `uint32_t` and
`std::atomic<uint32_t>` 4 bytes, `bool` and `std::atomic<bool>` 1 byte,
`char[N]` N bytes.  The sums below ignore alignment padding, which can only
make the actual `sizeof` larger. -/

/-- Sum of the field widths of `WorldState`. -/
def sizeof_WorldState : Nat := 8 + 8 + 8 + 8 + 4 + 1024 + 8 + 4 + 1 + 4 + 8

/-- Sum of the field widths of `ContextFrame`. -/
def sizeof_ContextFrame : Nat := 256 + 64 + 32 + 8 + 8 + 8 + 8 + 512 + 8

/-- Sum of the field widths of `RingBufferEntry`. -/
def sizeof_RingBufferEntry : Nat := 4 + sizeof_WorldState + sizeof_ContextFrame

/-- Sum of the field widths of `SharedMemoryHeader`. -/
def sizeof_SharedMemoryHeader : Nat := 4 + 4 + 4 + 1 + 64 + 8 + 8 + 8

/-! ## include/IPCManager.hpp, src/core/SharedMemoryManager.cpp -/

/-- `SharedMemoryManager::SHARED_MEMORY_SIZE` (1 MB). -/
def SHARED_MEMORY_SIZE : Nat := 1024 * 1024

/-- The members of `SharedMemoryManager`.  `segment_` records whether the
`unique_ptr` holds a mapping; `header_` and `ring_buffer_` are the two raw
pointers together with the objects they point to; slot `i` of the ring is
`ring_buffer_ i`. -/
structure SharedMemoryManager where
  segment_ : Bool
  header_ : Option SharedMemoryHeader
  ring_buffer_ : Option (Nat → RingBufferEntry)
  is_ready_ : Bool

/-- The default member initialisers: no segment, both pointers null, not ready. -/
def SharedMemoryManager.fresh : SharedMemoryManager :=
  { segment_ := false, header_ := none, ring_buffer_ := none, is_ready_ := false }

/-- `SharedMemoryManager::isReady`. -/
def SharedMemoryManager.isReady (m : SharedMemoryManager) : Bool := m.is_ready_

/-- `SharedMemoryManager::getHeader`. -/
def SharedMemoryManager.getHeader (m : SharedMemoryManager) : Option SharedMemoryHeader :=
  m.header_

/-- `SharedMemoryManager::getRingBuffer`. -/
def SharedMemoryManager.getRingBuffer (m : SharedMemoryManager) :
    Option (Nat → RingBufferEntry) :=
  m.ring_buffer_

/-- `SharedMemoryManager::initializeServer` for a segment of `segment_size`
bytes, returning the boolean result and the manager afterwards.

The Boost segment allocator is an external collaborator; it is modelled by its
contract: `construct` throws `bad_alloc` (an `interprocess_exception`, caught by
the `catch` clause, which returns `false`) when the object does not fit into
what is left of the segment.  The model charges no bookkeeping overhead, so a
failure here is a failure of the real allocator as well. The statements before
the throwing one have already taken effect when the handler runs. -/
def SharedMemoryManager.initializeServerSized (segment_size : Nat)
    (m : SharedMemoryManager) : Bool × SharedMemoryManager :=
  -- segment_ = std::make_unique<managed_shared_memory>(create_only, ...)
  let m1 := { m with segment_ := true }
  -- header_ = segment_->construct<SharedMemoryHeader>("header")()
  if segment_size < sizeof_SharedMemoryHeader then (false, m1)
  else
    let m2 := { m1 with header_ := some SharedMemoryHeader.init }
    -- ring_buffer_ = segment_->construct<RingBufferEntry[]>("ring_buffer")[N]()
    if segment_size - sizeof_SharedMemoryHeader < RING_BUFFER_SIZE * sizeof_RingBufferEntry then
      (false, m2)
    else
      let m3 := { m2 with ring_buffer_ := some (fun _ => RingBufferEntry.zero) }
      -- header_->location_service_alive = true; is_ready_ = true
      (true, { m3 with
                header_ := some { SharedMemoryHeader.init with location_service_alive := true },
                is_ready_ := true })

/-- `SharedMemoryManager::initializeServer`: the segment has `SHARED_MEMORY_SIZE`
bytes. -/
def SharedMemoryManager.initializeServer (m : SharedMemoryManager) :
    Bool × SharedMemoryManager :=
  m.initializeServerSized SHARED_MEMORY_SIZE

/-- `SharedMemoryManager::connectClient`.  What the operating system holds
under the segment name is the argument `found`: `none` when no segment can be
opened (the constructor throws, the handler returns `false`), otherwise the
results of the two `find` calls. -/
def SharedMemoryManager.connectClient
    (found : Option (Option SharedMemoryHeader × Option (Nat → RingBufferEntry)))
    (m : SharedMemoryManager) : Bool × SharedMemoryManager :=
  match found with
  | none => (false, m)
  | some (header, ring_buffer) =>
    let m1 := { m with segment_ := true, header_ := header, ring_buffer_ := ring_buffer }
    if header.isNone || ring_buffer.isNone then (false, m1)
    else (true, { m1 with is_ready_ := true })

/-- `SharedMemoryManager::cleanup`: clears the alive flag through `header_` when
that pointer is non-null, drops the segment, clears `is_ready_`.  Neither
`header_` nor `ring_buffer_` is reset by the source. -/
def SharedMemoryManager.cleanup (m : SharedMemoryManager) : SharedMemoryManager :=
  { m with
    header_ := m.header_.map (fun h => { h with location_service_alive := false }),
    segment_ := false,
    is_ready_ := false }

/-! ## src/core/IPCWriter.cpp -/

/-- `IPCWriter::writeState`. -/
def writeState (m : SharedMemoryManager) (state : WorldState) (context : ContextFrame) :
    SharedMemoryManager :=
  if !m.isReady then m
  else
    match m.getHeader, m.getRingBuffer with
    | some header, some buffer =>
      let write_idx := header.write_index
      let next_write := ((write_idx + 1) % 2 ^ 32) % RING_BUFFER_SIZE
      -- entry.sequence.store(header->global_sequence.load()); entry.state = state; ...
      let entry : RingBufferEntry :=
        { sequence := header.global_sequence, state := state, context := context }
      let buffer1 := Function.update buffer write_idx entry
      let header1 := { header with
        global_sequence := (header.global_sequence + 1) % 2 ^ 32,
        write_index := next_write,
        total_updates := (header.total_updates + 1) % 2 ^ 64 }
      { m with header_ := some header1, ring_buffer_ := some buffer1 }
    | _, _ => m

/-- `IPCWriter::updateLocation`. -/
def updateLocation (m : SharedMemoryManager) (lat lon alt : ℚ) (timestamp : Int) :
    SharedMemoryManager :=
  if !m.isReady then m
  else
    match m.getHeader, m.getRingBuffer with
    | some header, some buffer =>
      let write_idx := header.write_index
      let entry := buffer write_idx
      let entry1 : RingBufferEntry :=
        { entry with state := { entry.state with
            smoothed_lat := lat, smoothed_lon := lon,
            smoothed_altitude := alt, last_update_ms := timestamp } }
      let buffer1 := Function.update buffer write_idx entry1
      let next_write := ((write_idx + 1) % 2 ^ 32) % RING_BUFFER_SIZE
      let header1 := { header with
        write_index := next_write,
        global_sequence := (header.global_sequence + 1) % 2 ^ 32 }
      { m with header_ := some header1, ring_buffer_ := some buffer1 }
    | _, _ => m

/-- `IPCWriter::signalAlive`. -/
def signalAlive (m : SharedMemoryManager) : SharedMemoryManager :=
  if !m.isReady then m
  else
    match m.getHeader with
    | some header => { m with header_ := some { header with location_service_alive := true } }
    | none => m

/-! ## src/core/IPCReader.cpp -/

/-- `IPCReader::readLatestState`.  The two reference parameters are passed in
with their current contents and handed back next to the boolean result. -/
def readLatestState (m : SharedMemoryManager) (state : WorldState) (context : ContextFrame) :
    Bool × WorldState × ContextFrame :=
  if !m.isReady then (false, state, context)
  else
    match m.getHeader, m.getRingBuffer with
    | some header, some buffer =>
      let write_idx := header.write_index
      -- uint32_t read_idx = (write_idx - 1) % RING_BUFFER_SIZE
      let read_idx := ((write_idx + 2 ^ 32 - 1) % 2 ^ 32) % RING_BUFFER_SIZE
      let read_idx := if write_idx = 0 then RING_BUFFER_SIZE - 1 else read_idx
      let entry := buffer read_idx
      (true, entry.state, entry.context)
    | _, _ => (false, state, context)

/-- `IPCReader::isLocationServiceAlive`. -/
def isLocationServiceAlive (m : SharedMemoryManager) : Bool :=
  if !m.isReady then false
  else
    match m.getHeader with
    | none => false
    | some header => header.location_service_alive

/-! ## Double arithmetic

The members and locals of type `double` hold rationals.  Where the outcome of
a comparison or of a conversion to `int` depends on the rounding of a double
operation, the operation is followed by `roundToDouble`, the rounding of
IEEE 754 binary64 (round to nearest, ties to even). -/

/-- Rounding to the nearest integer, halfway cases to the even neighbour. -/
def roundHalfEven (x : ℚ) : Int :=
  if x - ⌊x⌋ < 1 / 2 then ⌊x⌋
  else if 1 / 2 < x - ⌊x⌋ then ⌊x⌋ + 1
  else if ⌊x⌋ % 2 = 0 then ⌊x⌋ else ⌊x⌋ + 1

/-- The binary exponent of the binary64 values around the magnitude `x`: the
integer part of log2 `x`, and -1022 throughout the subnormal range. -/
def binade (x : ℚ) : Int := max (Int.log 2 x) (-1022)

/-- The spacing of the binary64 values around the magnitude `x` (53 significant
bits). -/
def ulp (x : ℚ) : ℚ := 2 ^ (binade x - 52)

/-- The binary64 value nearest to the magnitude `x`. -/
def roundMagnitude (x : ℚ) : ℚ := roundHalfEven (x / ulp x) * ulp x

/-- The binary64 value nearest to the exact result `x` of a double operation,
halfway cases to the value with even significand.  For magnitudes from
2^1024 - 2^970 on, the double result is an infinity, which the function does
not represent: it goes on with the same 53-bit grid. -/
def roundToDouble (x : ℚ) : ℚ := if 0 ≤ x then roundMagnitude x else -roundMagnitude (-x)

/-! ## include/KalmanFilter.hpp, src/core/KalmanFilter.cpp

Eigen's fixed-size objects are stored coefficient by coefficient; for the
arithmetic they are read as Mathlib matrices over `ℚ` (`coeff`), and the value
of an expression is written back into an object with `store`.  The arithmetic
of this section is exact: it gives the filter up to the rounding of the double
operations and as long as no intermediate result leaves the range of the
finite doubles.  The same functions with rounding, infinities and NaN follow
in the next section (`KalmanFilterIEEE`). -/

/-- `Eigen::Vector2d`. -/
structure Vector2d where
  c0 : ℚ
  c1 : ℚ
deriving DecidableEq

/-- `Eigen::Vector4d`. -/
structure Vector4d where
  c0 : ℚ
  c1 : ℚ
  c2 : ℚ
  c3 : ℚ
deriving DecidableEq

/-- `Eigen::Matrix2d`, by rows. -/
structure Matrix2d where
  r0 : Vector2d
  r1 : Vector2d
deriving DecidableEq

/-- `Eigen::Matrix<double, 2, 4>`, by rows. -/
structure Matrix24d where
  r0 : Vector4d
  r1 : Vector4d
deriving DecidableEq

/-- `Eigen::Matrix<double, 4, 2>`, by rows. -/
structure Matrix42d where
  r0 : Vector2d
  r1 : Vector2d
  r2 : Vector2d
  r3 : Vector2d
deriving DecidableEq

/-- `Eigen::Matrix4d`, by rows. -/
structure Matrix4d where
  r0 : Vector4d
  r1 : Vector4d
  r2 : Vector4d
  r3 : Vector4d
deriving DecidableEq

/-- Coefficient access `v(i)`. -/
def Vector2d.coeff (v : Vector2d) : Fin 2 → ℚ := ![v.c0, v.c1]

/-- Coefficient access `v(i)`. -/
def Vector4d.coeff (v : Vector4d) : Fin 4 → ℚ := ![v.c0, v.c1, v.c2, v.c3]

/-- Coefficient access `M(i, j)`. -/
def Matrix2d.coeff (M : Matrix2d) : Matrix (Fin 2) (Fin 2) ℚ :=
  Matrix.of ![M.r0.coeff, M.r1.coeff]

/-- Coefficient access `M(i, j)`. -/
def Matrix24d.coeff (M : Matrix24d) : Matrix (Fin 2) (Fin 4) ℚ :=
  Matrix.of ![M.r0.coeff, M.r1.coeff]

/-- Coefficient access `M(i, j)`. -/
def Matrix42d.coeff (M : Matrix42d) : Matrix (Fin 4) (Fin 2) ℚ :=
  Matrix.of ![M.r0.coeff, M.r1.coeff, M.r2.coeff, M.r3.coeff]

/-- Coefficient access `M(i, j)`. -/
def Matrix4d.coeff (M : Matrix4d) : Matrix (Fin 4) (Fin 4) ℚ :=
  Matrix.of ![M.r0.coeff, M.r1.coeff, M.r2.coeff, M.r3.coeff]

/-- Evaluation of an expression into a `Vector2d`. -/
def Vector2d.store (f : Fin 2 → ℚ) : Vector2d := ⟨f 0, f 1⟩

/-- Evaluation of an expression into a `Vector4d`. -/
def Vector4d.store (f : Fin 4 → ℚ) : Vector4d := ⟨f 0, f 1, f 2, f 3⟩

/-- Evaluation of an expression into a `Matrix2d`. -/
def Matrix2d.store (F : Matrix (Fin 2) (Fin 2) ℚ) : Matrix2d :=
  ⟨Vector2d.store (F 0), Vector2d.store (F 1)⟩

/-- Evaluation of an expression into a `Matrix<double, 2, 4>`. -/
def Matrix24d.store (F : Matrix (Fin 2) (Fin 4) ℚ) : Matrix24d :=
  ⟨Vector4d.store (F 0), Vector4d.store (F 1)⟩

/-- Evaluation of an expression into a `Matrix<double, 4, 2>`. -/
def Matrix42d.store (F : Matrix (Fin 4) (Fin 2) ℚ) : Matrix42d :=
  ⟨Vector2d.store (F 0), Vector2d.store (F 1), Vector2d.store (F 2), Vector2d.store (F 3)⟩

/-- Evaluation of an expression into a `Matrix4d`. -/
def Matrix4d.store (F : Matrix (Fin 4) (Fin 4) ℚ) : Matrix4d :=
  ⟨Vector4d.store (F 0), Vector4d.store (F 1), Vector4d.store (F 2), Vector4d.store (F 3)⟩

/-- Assignment to one coefficient, `M(i, j) = v`. -/
def Matrix4d.setCoeff (M : Matrix4d) (i j : Fin 4) (v : ℚ) : Matrix4d :=
  Matrix4d.store (fun a b => if a = i ∧ b = j then v else M.coeff a b)

/-- Eigen's `inverse()` of a fixed-size 2x2 matrix: the closed form
`adjugate * (1 / determinant)`.  Over `ℚ` a zero determinant gives the zero
matrix where doubles would give infinities or NaN; `DoubleMatrix.inverse` is
the same function on doubles. -/
def Matrix2d.inverse (S : Matrix2d) : Matrix2d :=
  let invdet : ℚ := 1 / (S.r0.c0 * S.r1.c1 - S.r1.c0 * S.r0.c1)
  ⟨⟨S.r1.c1 * invdet, -S.r0.c1 * invdet⟩, ⟨-S.r1.c0 * invdet, S.r0.c0 * invdet⟩⟩

/-- The members of `KalmanFilter`.  The header declares `H_` as
`Eigen::Matrix2d`, but the constructor fills it with the eight coefficients of
a 2x4 matrix and `correct` multiplies it with the 4-vector `x_` and the 4x4
matrix `P_`; `H_` is therefore the 2x4 matrix of the initialiser. -/
structure KalmanFilter where
  A_ : Matrix4d
  H_ : Matrix24d
  Q_ : Matrix4d
  R_ : Matrix2d
  x_ : Vector4d
  P_ : Matrix4d
  use_pdr_ : Bool
  last_accel_z_ : ℚ
  step_count_ : Int
  step_length_m_ : ℚ
  last_update_ms_ : Int
deriving DecidableEq

/-- The process noise that the constructor and `setProcessNoise` build:
`Identity * q`, then the two position diagonals multiplied by 0.001. -/
def processNoise (q : ℚ) : Matrix4d :=
  let Q0 := Matrix4d.store (q • (1 : Matrix (Fin 4) (Fin 4) ℚ))
  let Q1 := Q0.setCoeff 0 0 (Q0.coeff 0 0 * (1 / 1000))
  Q1.setCoeff 1 1 (Q1.coeff 1 1 * (1 / 1000))

/-- The constructor `KalmanFilter::KalmanFilter()` together with the default
member initialisers of the header. -/
def KalmanFilter.new : KalmanFilter :=
  let dt : ℚ := 1 / 10
  let q : ℚ := 1 / 10
  let r : ℚ := 100
  { A_ := ⟨⟨1, 0, dt, 0⟩, ⟨0, 1, 0, dt⟩, ⟨0, 0, 1, 0⟩, ⟨0, 0, 0, 1⟩⟩,
    H_ := ⟨⟨1, 0, 0, 0⟩, ⟨0, 1, 0, 0⟩⟩,
    Q_ := processNoise q,
    R_ := ⟨⟨r, 0⟩, ⟨0, r⟩⟩,
    x_ := ⟨0, 0, 0, 0⟩,
    P_ := Matrix4d.store ((1000000 : ℚ) • (1 : Matrix (Fin 4) (Fin 4) ℚ)),
    use_pdr_ := false,
    last_accel_z_ := 0,
    step_count_ := 0,
    step_length_m_ := 7 / 10,
    last_update_ms_ := 0 }

/-- `KalmanFilter::predict`. -/
def KalmanFilter.predict (kf : KalmanFilter) (dt : ℚ) : KalmanFilter :=
  let A := (kf.A_.setCoeff 0 2 dt).setCoeff 1 3 dt
  { kf with
    A_ := A,
    x_ := Vector4d.store (A.coeff.mulVec kf.x_.coeff),
    P_ := Matrix4d.store (A.coeff * kf.P_.coeff * A.coeff.transpose + kf.Q_.coeff) }

/-- `KalmanFilter::correct`. -/
def KalmanFilter.correct (kf : KalmanFilter) (z : Vector2d) : KalmanFilter :=
  let y := Vector2d.store (z.coeff - kf.H_.coeff.mulVec kf.x_.coeff)
  let S := Matrix2d.store (kf.H_.coeff * kf.P_.coeff * kf.H_.coeff.transpose + kf.R_.coeff)
  let K := Matrix42d.store (kf.P_.coeff * kf.H_.coeff.transpose * S.inverse.coeff)
  { kf with
    x_ := Vector4d.store (kf.x_.coeff + K.coeff.mulVec y.coeff),
    P_ := Matrix4d.store
      (((1 : Matrix (Fin 4) (Fin 4) ℚ) - K.coeff * kf.H_.coeff) * kf.P_.coeff) }

/-- `KalmanFilter::detectStep`: the result and the filter afterwards.  The
acceleration magnitude the source computes first is never used. -/
def KalmanFilter.detectStep (kf : KalmanFilter) (imu_data : LocationFix) :
    Bool × KalmanFilter :=
  let STEP_THRESHOLD : ℚ := 15
  let is_step := decide (kf.last_accel_z_ < STEP_THRESHOLD) &&
    decide (imu_data.accel_z ≥ STEP_THRESHOLD)
  (is_step, { kf with last_accel_z_ := imu_data.accel_z })

/-- The time step `KalmanFilter::update` hands to `predict`. -/
def KalmanFilter.timeStep (kf : KalmanFilter) (measurement : LocationFix) : ℚ :=
  let current_time_ms := measurement.timestamp_ms
  let dt_s : ℚ := if kf.last_update_ms_ > 0
    then ((current_time_ms - kf.last_update_ms_ : Int) : ℚ) / 1000 else 1 / 10
  let dt_s := if dt_s < 1 / 100 then 1 / 100 else dt_s
  if dt_s > 1 then 1 else dt_s

/-- `KalmanFilter::update`. -/
def KalmanFilter.update (kf : KalmanFilter) (measurement : LocationFix) : KalmanFilter :=
  let dt_s := kf.timeStep measurement
  let kf1 := { kf with last_update_ms_ := measurement.timestamp_ms }
  let r : ℚ := max 100 (measurement.accuracy * measurement.accuracy)
  let kf2 := { kf1 with R_ := ⟨⟨r, 0⟩, ⟨0, r⟩⟩ }
  let kf3 := kf2.predict dt_s
  let kf4 := kf3.correct ⟨measurement.latitude, measurement.longitude⟩
  -- if (use_pdr_ && detectStep(measurement)) step_count_++
  if kf4.use_pdr_ then
    let res := kf4.detectStep measurement
    if res.1 then { res.2 with step_count_ := res.2.step_count_ + 1 } else res.2
  else kf4

/-- `KalmanFilter::getSmoothedState`.  The local `WorldState state;` is
default-initialised, so the fields the function does not assign keep whatever
the storage held: that content is the argument `uninit`. -/
def KalmanFilter.getSmoothedState (kf : KalmanFilter) (uninit : WorldState) : WorldState :=
  { uninit with
    smoothed_lat := kf.x_.c0,
    smoothed_lon := kf.x_.c1,
    smoothed_altitude := 0,
    is_moving := decide (|kf.x_.c2| > 1 / 10) || decide (|kf.x_.c3| > 1 / 10),
    step_count := (kf.step_count_ % 2 ^ 32).toNat,
    last_update_ms := kf.last_update_ms_ }

/-- `KalmanFilter::reset`. -/
def KalmanFilter.reset (kf : KalmanFilter) : KalmanFilter :=
  { kf with
    x_ := ⟨0, 0, 0, 0⟩,
    P_ := Matrix4d.store ((1000000 : ℚ) • (1 : Matrix (Fin 4) (Fin 4) ℚ)),
    step_count_ := 0,
    last_update_ms_ := 0 }

/-- `KalmanFilter::setProcessNoise`. -/
def KalmanFilter.setProcessNoise (kf : KalmanFilter) (q : ℚ) : KalmanFilter :=
  { kf with Q_ := processNoise q }

/-- `KalmanFilter::setMeasurementNoise`. -/
def KalmanFilter.setMeasurementNoise (kf : KalmanFilter) (r : ℚ) : KalmanFilter :=
  { kf with R_ := ⟨⟨r, 0⟩, ⟨0, r⟩⟩ }

/-- `KalmanFilter::enablePDR`. -/
def KalmanFilter.enablePDR (kf : KalmanFilter) (enable : Bool) : KalmanFilter :=
  { kf with use_pdr_ := enable }

/-! ## src/core/KalmanFilter.cpp with the values of type `double`

The filter once more, now with the doubles as the values of IEEE 754
binary64: finite numbers, the two infinities and NaN, every arithmetic result
rounded to nearest.  Eigen does not fix the order in which the products of a
matrix coefficient are added up; they are added from left to right here. -/

/-- A value of type `double`.  The two zeros are not distinguished. -/
inductive Double where
  | finite (value : ℚ)
  | infinity (negative : Bool)
  | nan
deriving DecidableEq

/-- The largest finite double, (2 - 2^-52) * 2^1023. -/
def DBL_MAX : ℚ := 2 ^ 1024 - 2 ^ 971

/-- The double that an operation with exact result `x` delivers: the nearest
binary64 value, or an infinity when that lies beyond `DBL_MAX`. -/
def Double.round (x : ℚ) : Double :=
  if |roundToDouble x| ≤ DBL_MAX then Double.finite (roundToDouble x)
  else Double.infinity (decide (x < 0))

/-- Unary minus. -/
def Double.neg : Double → Double
  | Double.finite x => Double.finite (-x)
  | Double.infinity s => Double.infinity (!s)
  | Double.nan => Double.nan

/-- Addition: infinities of opposite sign give NaN. -/
def Double.add : Double → Double → Double
  | Double.finite x, Double.finite y => Double.round (x + y)
  | Double.finite _, Double.infinity s => Double.infinity s
  | Double.infinity s, Double.finite _ => Double.infinity s
  | Double.infinity s, Double.infinity t => if s = t then Double.infinity s else Double.nan
  | Double.nan, _ => Double.nan
  | _, Double.nan => Double.nan

/-- Subtraction. -/
def Double.sub (a b : Double) : Double := a.add b.neg

/-- Multiplication: zero times an infinity gives NaN. -/
def Double.mul : Double → Double → Double
  | Double.finite x, Double.finite y => Double.round (x * y)
  | Double.finite x, Double.infinity s =>
    if x = 0 then Double.nan else Double.infinity (xor s (decide (x < 0)))
  | Double.infinity s, Double.finite y =>
    if y = 0 then Double.nan else Double.infinity (xor s (decide (y < 0)))
  | Double.infinity s, Double.infinity t => Double.infinity (xor s t)
  | Double.nan, _ => Double.nan
  | _, Double.nan => Double.nan

/-- Division: zero by zero and infinity by infinity give NaN, a finite value
by an infinity gives zero; a zero divisor counts as positive. -/
def Double.div : Double → Double → Double
  | Double.finite x, Double.finite y =>
    if y = 0 then (if x = 0 then Double.nan else Double.infinity (decide (x < 0)))
    else Double.round (x / y)
  | Double.finite _, Double.infinity _ => Double.finite 0
  | Double.infinity s, Double.finite y => Double.infinity (xor s (decide (y < 0)))
  | Double.infinity _, Double.infinity _ => Double.nan
  | Double.nan, _ => Double.nan
  | _, Double.nan => Double.nan

/-- The comparison `a < b`, false when an operand is NaN. -/
def Double.lt : Double → Double → Bool
  | Double.finite x, Double.finite y => decide (x < y)
  | Double.finite _, Double.infinity s => !s
  | Double.infinity s, Double.finite _ => s
  | Double.infinity s, Double.infinity t => s && !t
  | Double.nan, _ => false
  | _, Double.nan => false

/-- `std::max(a, b)`, which is `(a < b) ? b : a`. -/
def Double.max (a b : Double) : Double := if a.lt b then b else a

/-- The sum of the terms, accumulated from left to right. -/
def Double.sum : List Double → Double
  | [] => Double.finite 0
  | a :: rest => rest.foldl Double.add a

/-- A fixed-size Eigen object over doubles, by row and column; vectors have
one column. -/
abbrev DoubleMatrix (rows cols : Nat) : Type := Fin rows → Fin cols → Double

/-- The matrix product; each coefficient is the sum of the products along the
row and the column. -/
def DoubleMatrix.mul {l m n : Nat} (M : DoubleMatrix l m) (N : DoubleMatrix m n) :
    DoubleMatrix l n :=
  fun i j => Double.sum ((List.finRange m).map (fun k => (M i k).mul (N k j)))

/-- The coefficient-wise sum. -/
def DoubleMatrix.add {m n : Nat} (M N : DoubleMatrix m n) : DoubleMatrix m n :=
  fun i j => (M i j).add (N i j)

/-- The coefficient-wise difference. -/
def DoubleMatrix.sub {m n : Nat} (M N : DoubleMatrix m n) : DoubleMatrix m n :=
  fun i j => (M i j).sub (N i j)

/-- The transposed matrix. -/
def DoubleMatrix.transpose {m n : Nat} (M : DoubleMatrix m n) : DoubleMatrix n m :=
  fun i j => M j i

/-- `Identity() * s`. -/
def DoubleMatrix.scaledIdentity (n : Nat) (s : Double) : DoubleMatrix n n :=
  fun i j => (if i = j then Double.finite 1 else Double.finite 0).mul s

/-- `Identity()`. -/
def DoubleMatrix.identity (n : Nat) : DoubleMatrix n n :=
  fun i j => if i = j then Double.finite 1 else Double.finite 0

/-- Assignment to one coefficient, `M(i, j) = v`. -/
def DoubleMatrix.setCoeff {m n : Nat} (M : DoubleMatrix m n) (i : Fin m) (j : Fin n)
    (v : Double) : DoubleMatrix m n :=
  fun a b => if a = i ∧ b = j then v else M a b

/-- Eigen's `inverse()` of a fixed-size 2x2 matrix: the reciprocal of the
determinant, multiplied into the adjugate coefficient by coefficient. -/
def DoubleMatrix.inverse (S : DoubleMatrix 2 2) : DoubleMatrix 2 2 :=
  let invdet := (Double.finite 1).div (((S 0 0).mul (S 1 1)).sub ((S 1 0).mul (S 0 1)))
  fun i j =>
    if i = 0 ∧ j = 0 then (S 1 1).mul invdet
    else if i = 1 ∧ j = 0 then (S 1 0).neg.mul invdet
    else if i = 0 ∧ j = 1 then (S 0 1).neg.mul invdet
    else (S 0 0).mul invdet

/-- The members of `KalmanFilter` as doubles. -/
structure KalmanFilterIEEE where
  A_ : DoubleMatrix 4 4
  H_ : DoubleMatrix 2 4
  Q_ : DoubleMatrix 4 4
  R_ : DoubleMatrix 2 2
  x_ : DoubleMatrix 4 1
  P_ : DoubleMatrix 4 4
  use_pdr_ : Bool
  last_accel_z_ : Double
  step_count_ : Int
  step_length_m_ : Double
  last_update_ms_ : Int

/-- The constructor `KalmanFilter::KalmanFilter()` in double arithmetic. -/
def KalmanFilterIEEE.new : KalmanFilterIEEE :=
  let dt := Double.round (1 / 10)
  let q := Double.round (1 / 10)
  let r := Double.finite 100
  let o := Double.finite 0
  let i := Double.finite 1
  let Q0 := DoubleMatrix.scaledIdentity 4 q
  let Q1 := Q0.setCoeff 0 0 ((Q0 0 0).mul (Double.round (1 / 1000)))
  { A_ := ![![i, o, dt, o], ![o, i, o, dt], ![o, o, i, o], ![o, o, o, i]],
    H_ := ![![i, o, o, o], ![o, i, o, o]],
    Q_ := Q1.setCoeff 1 1 ((Q1 1 1).mul (Double.round (1 / 1000))),
    R_ := ![![r, o], ![o, r]],
    x_ := fun _ _ => o,
    P_ := DoubleMatrix.scaledIdentity 4 (Double.finite 1000000),
    use_pdr_ := false,
    last_accel_z_ := o,
    step_count_ := 0,
    step_length_m_ := Double.round (7 / 10),
    last_update_ms_ := 0 }

/-- `KalmanFilter::predict` in double arithmetic. -/
def KalmanFilterIEEE.predict (kf : KalmanFilterIEEE) (dt : Double) : KalmanFilterIEEE :=
  let A := (kf.A_.setCoeff 0 2 dt).setCoeff 1 3 dt
  { kf with
    A_ := A,
    x_ := A.mul kf.x_,
    P_ := ((A.mul kf.P_).mul A.transpose).add kf.Q_ }

/-- `KalmanFilter::correct` in double arithmetic. -/
def KalmanFilterIEEE.correct (kf : KalmanFilterIEEE) (z : DoubleMatrix 2 1) :
    KalmanFilterIEEE :=
  let y := z.sub (kf.H_.mul kf.x_)
  let S := ((kf.H_.mul kf.P_).mul kf.H_.transpose).add kf.R_
  let K := (kf.P_.mul kf.H_.transpose).mul S.inverse
  { kf with
    x_ := kf.x_.add (K.mul y),
    P_ := ((DoubleMatrix.identity 4).sub (K.mul kf.H_)).mul kf.P_ }

/-- `KalmanFilter::detectStep` in double arithmetic. -/
def KalmanFilterIEEE.detectStep (kf : KalmanFilterIEEE) (imu_data : LocationFix) :
    Bool × KalmanFilterIEEE :=
  let STEP_THRESHOLD := Double.finite 15
  let is_step := kf.last_accel_z_.lt STEP_THRESHOLD &&
    !(Double.finite imu_data.accel_z).lt STEP_THRESHOLD
  (is_step, { kf with last_accel_z_ := Double.finite imu_data.accel_z })

/-- The time step `KalmanFilter::update` hands to `predict`, in double
arithmetic: the difference of the time stamps converted to double and divided
by 1000.0, or 0.1, clamped to [0.01, 1.0]. -/
def KalmanFilterIEEE.timeStep (kf : KalmanFilterIEEE) (measurement : LocationFix) : Double :=
  let current_time_ms := measurement.timestamp_ms
  let dt_s : Double := if kf.last_update_ms_ > 0
    then (Double.round ((current_time_ms - kf.last_update_ms_ : Int) : ℚ)).div
      (Double.finite 1000)
    else Double.round (1 / 10)
  let dt_s := if dt_s.lt (Double.round (1 / 100)) then Double.round (1 / 100) else dt_s
  if (Double.finite 1).lt dt_s then Double.finite 1 else dt_s

/-- `KalmanFilter::update` in double arithmetic.  The fields of the fix are
finite doubles. -/
def KalmanFilterIEEE.update (kf : KalmanFilterIEEE) (measurement : LocationFix) :
    KalmanFilterIEEE :=
  let dt_s := kf.timeStep measurement
  let kf1 := { kf with last_update_ms_ := measurement.timestamp_ms }
  let r := Double.max (Double.finite 100)
    ((Double.finite measurement.accuracy).mul (Double.finite measurement.accuracy))
  let kf2 := { kf1 with R_ := ![![r, Double.finite 0], ![Double.finite 0, r]] }
  let kf3 := kf2.predict dt_s
  let kf4 := kf3.correct
    ![![Double.finite measurement.latitude], ![Double.finite measurement.longitude]]
  -- if (use_pdr_ && detectStep(measurement)) step_count_++
  if kf4.use_pdr_ then
    let res := kf4.detectStep measurement
    if res.1 then { res.2 with step_count_ := res.2.step_count_ + 1 } else res.2
  else kf4

/-! ## Strings

`std::string` values and the contents of `char` arrays are lists of byte
values; `str` gives the bytes of an ASCII literal. -/

/-- The bytes of an ASCII string literal. -/
def str (s : String) : List Nat := s.toList.map Char.toNat

/-- `strncpy(dst, src, n)` on a `char` array `dst` for a source without
embedded NUL: the first `n` bytes of `dst` become the bytes of `src` (at most
`n` of them) padded with NULs, the bytes from `n` on keep their contents. -/
def strncpy (dst src : List Nat) (n : Nat) : List Nat :=
  src.take n ++ List.replicate (n - src.length) 0 ++ dst.drop n

/-! ## include/CyclingContextProvider.hpp, src/core/CyclingContextProvider.cpp

The system clock is an input `now` (milliseconds since the epoch) of
`getContext`; the contents of a default-initialised local `ContextFrame ctx;`
are an input `uninit`. -/

/-- The members of `CyclingContextProvider`. -/
structure CyclingContextProvider where
  google_maps_api_key_ : List Nat
  osm_api_endpoint_ : List Nat
  cached_context_ : ContextFrame
  cached_lat_ : ℚ
  cached_lon_ : ℚ
  cached_timestamp_ms_ : Int
deriving DecidableEq

/-- `CyclingContextProvider::CACHE_TTL_MS`. -/
def CACHE_TTL_MS : Int := 5000

/-- The constructor: the four `char` arrays of the cached frame are zeroed, its
other fields keep what the storage held (`uninit`); the default member
initialisers set the cached position and time stamp to 0. -/
def CyclingContextProvider.new (uninit : ContextFrame) : CyclingContextProvider :=
  { google_maps_api_key_ := [],
    osm_api_endpoint_ := [],
    cached_context_ := { uninit with
      road_name := List.replicate 256 0, road_type := List.replicate 64 0,
      traffic_level := List.replicate 32 0, hazards := List.replicate 512 0 },
    cached_lat_ := 0,
    cached_lon_ := 0,
    cached_timestamp_ms_ := 0 }

/-- `CyclingContextProvider::fetchElevation` (a mock in the source: the
position is not used). -/
def CyclingContextProvider.fetchElevation (uninit : ContextFrame) (_lat _lon : ℚ) :
    ContextFrame :=
  { uninit with
    road_name := strncpy uninit.road_name (str "Main Street") 255,
    road_type := strncpy uninit.road_type (str "asphalt") 63,
    traffic_level := strncpy uninit.traffic_level (str "light") 31,
    elevation_gain_m := 45,
    gradient_percent := 11 / 2,
    current_speed := 18,
    speed_limit := 50 }

/-- `CyclingContextProvider::fetchTraffic` (a mock in the source).  The hazards
text is the compact dump of the JSON array built in the source, whose object
keys the JSON library keeps in sorted order. -/
def CyclingContextProvider.fetchTraffic (_lat _lon : ℚ) (ctx : ContextFrame) : ContextFrame :=
  { ctx with
    traffic_level := strncpy ctx.traffic_level (str "moderate") 31,
    hazards := strncpy ctx.hazards
      (str "[\x7b\"severity\":\"low\",\"type\":\"congestion\"\x7d]") 511 }

/-- `CyclingContextProvider::fetchSurface` (a mock in the source). -/
def CyclingContextProvider.fetchSurface (_lat _lon : ℚ) (ctx : ContextFrame) : ContextFrame :=
  { ctx with road_type := strncpy ctx.road_type (str "asphalt") 63 }

/-- The cache test of `getContext` (lines 41-43).  The two differences are
double subtractions and `0.001` is the double nearest to 1/1000; `std::abs` and
the comparison are exact.  (A difference beyond the finite doubles is an
infinity and fails the test, as its value on the unbounded grid does.) -/
def CyclingContextProvider.cacheHit (p : CyclingContextProvider) (current_ms : Int)
    (lat lon : ℚ) : Bool :=
  decide (current_ms - p.cached_timestamp_ms_ < CACHE_TTL_MS) &&
  decide (|roundToDouble (lat - p.cached_lat_)| < roundToDouble (1 / 1000)) &&
  decide (|roundToDouble (lon - p.cached_lon_)| < roundToDouble (1 / 1000))

/-- The fetch branch of `getContext` up to the time stamp (lines 48-52). -/
def CyclingContextProvider.fetchFresh (uninit : ContextFrame) (current_ms : Int)
    (lat lon : ℚ) : ContextFrame :=
  let ctx := CyclingContextProvider.fetchElevation uninit lat lon
  let ctx := CyclingContextProvider.fetchTraffic lat lon ctx
  let ctx := CyclingContextProvider.fetchSurface lat lon ctx
  { ctx with timestamp_ms := current_ms }

/-- `CyclingContextProvider::getContext`: the returned frame and the provider
afterwards. -/
def CyclingContextProvider.getContext (p : CyclingContextProvider) (now : Int)
    (uninit : ContextFrame) (lat lon : ℚ) : ContextFrame × CyclingContextProvider :=
  let current_ms := now
  if p.cacheHit current_ms lat lon then (p.cached_context_, p)
  else
    let ctx := CyclingContextProvider.fetchFresh uninit current_ms lat lon
    (ctx, { p with
      cached_context_ := ctx,
      cached_lat_ := lat,
      cached_lon_ := lon,
      cached_timestamp_ms_ := current_ms })

/-! ## src/core/DatingContextProvider.cpp -/

/-- `DatingContextProvider::getContext` (a mock in the source); the class has
no member that the call reads or writes. -/
def DatingContextProvider.getContext (uninit : ContextFrame) (_lat _lon : ℚ) : ContextFrame :=
  { uninit with
    road_name := strncpy uninit.road_name (str "Central Park") 255,
    road_type := strncpy uninit.road_type (str "venue") 63,
    traffic_level := strncpy uninit.traffic_level (str "busy") 31,
    hazards := strncpy uninit.hazards
      (str ("[\x7b\"type\":\"user\",\"name\":\"Sarah\",\"distance\":50\x7d," ++
        "\x7b\"type\":\"venue\",\"name\":\"Coffee Shop\",\"distance\":200\x7d]")) 511 }

/-! ## include/IGeoProvider.hpp -/

/-- An object behind an `IContextProvider` pointer: one of the two
implementations of the repository. -/
inductive ContextProvider where
  | cycling (p : CyclingContextProvider)
  | dating
deriving DecidableEq

/-- The virtual call `getName()`. -/
def ContextProvider.getName : ContextProvider → List Nat
  | ContextProvider.cycling _ => str "cycling"
  | ContextProvider.dating => str "dating"

/-- The virtual call `getContext(lat, lon)`: the frame and the object
afterwards. -/
def ContextProvider.getContext (provider : ContextProvider) (now : Int)
    (uninit : ContextFrame) (lat lon : ℚ) : ContextFrame × ContextProvider :=
  match provider with
  | ContextProvider.cycling p =>
    ((p.getContext now uninit lat lon).1,
      ContextProvider.cycling (p.getContext now uninit lat lon).2)
  | ContextProvider.dating =>
    (DatingContextProvider.getContext uninit lat lon, ContextProvider.dating)

/-! ## include/S2GeometryWrapper.hpp, src/core/S2GeometryWrapper.cpp -/

/-- `S2GeometryIndex`.  The cell function of the S2 library
(`S2CellId(S2LatLng::FromDegrees(lat, lon)).parent(level).id()`) is an external
collaborator; it is the field `cell_of`. -/
structure S2GeometryIndex where
  cell_of : ℚ → ℚ → Int → Nat

/-- `S2GeometryIndex::latLonToCell`. -/
def S2GeometryIndex.latLonToCell (g : S2GeometryIndex) (lat lon : ℚ) (level : Int) : Nat :=
  g.cell_of lat lon level

/-- `S2GeometryIndex::crossedBoundary`. -/
def S2GeometryIndex.crossedBoundary (g : S2GeometryIndex) (lat1 lon1 lat2 lon2 : ℚ) : Bool :=
  let cell1 := g.latLonToCell lat1 lon1 16
  let cell2 := g.latLonToCell lat2 lon2 16
  decide (cell1 ≠ cell2)

/-! ## include/LocationService.hpp, src/daemon/LocationService.cpp -/

/-- The members of `LocationService` that the service loop uses.  The object
behind `context_provider_` is kept with the pointer (`none` is the null
pointer). -/
structure LocationService where
  kalman_filter_ : KalmanFilter
  geometry_index_ : S2GeometryIndex
  context_provider_ : Option ContextProvider
  last_s2_cell_ : Nat

/-- The constructor `LocationService::LocationService()` with the default
member initialisers. -/
def LocationService.new (geometry : S2GeometryIndex) : LocationService :=
  { kalman_filter_ := KalmanFilter.new.enablePDR true,
    geometry_index_ := geometry,
    context_provider_ := none,
    last_s2_cell_ := 0 }

/-- `LocationService::setContextProvider`. -/
def LocationService.setContextProvider (s : LocationService)
    (provider : Option ContextProvider) : LocationService :=
  { s with context_provider_ := provider }

/-- `LocationService::injectLocation`. -/
def LocationService.injectLocation (s : LocationService) (lat lon alt : ℚ)
    (timestamp : Int) : LocationService :=
  let fix := LocationFix.mk3 lat lon timestamp
  let fix := { fix with altitude := alt }
  { s with kalman_filter_ := s.kalman_filter_.update fix }

/-- What one iteration of `runServiceLoop` hands to `IPCWriter::writeState`,
and the service afterwards (steps 1 to 3 of the loop body).  `now` is the
clock the provider reads, `uninitState` and `uninitContext` are the contents of
the default-initialised locals of `getSmoothedState` and of the provider. -/
structure TickResult where
  service : LocationService
  state : WorldState
  context : ContextFrame

/-- Steps 1 to 3 of the body of `LocationService::runServiceLoop`. -/
def LocationService.tickPayload (s : LocationService) (now : Int)
    (uninitState : WorldState) (uninitContext : ContextFrame) : TickResult :=
  -- 1. Get smoothed state from Kalman filter
  let state := s.kalman_filter_.getSmoothedState uninitState
  -- 2. Detect S2 cell
  let current_s2 := s.geometry_index_.latLonToCell state.smoothed_lat state.smoothed_lon 16
  let state := { state with s2_cell_id := current_s2, s2_cell_level := 16 }
  -- 3. Check if we crossed a boundary; `ContextFrame context{}` is all zero
  match s.context_provider_ with
  | some provider =>
    if current_s2 ≠ s.last_s2_cell_ then
      let res := provider.getContext now uninitContext state.smoothed_lat state.smoothed_lon
      { service := { s with last_s2_cell_ := current_s2, context_provider_ := some res.2 },
        state := state, context := res.1 }
    else { service := s, state := state, context := ContextFrame.zero }
  | none => { service := s, state := state, context := ContextFrame.zero }

/-- One iteration of `LocationService::runServiceLoop`: steps 1 to 3, then
`IPCWriter::writeState(state, context)` and `IPCWriter::signalAlive()`. -/
def LocationService.tick (s : LocationService) (m : SharedMemoryManager) (now : Int)
    (uninitState : WorldState) (uninitContext : ContextFrame) :
    LocationService × SharedMemoryManager :=
  let r := s.tickPayload now uninitState uninitContext
  (r.service, signalAlive (writeState m r.state r.context))

/-! ## src/core/WorldState.cpp -/

/-- The members of `WorldStateImpl` (the mutex apart). -/
structure WorldStateImpl where
  current_state_ : WorldState
  update_count_ : Nat

/-- `WorldStateImpl::updatePosition`. -/
def WorldStateImpl.updatePosition (w : WorldStateImpl) (lat lon altitude : ℚ)
    (timestamp : Int) : WorldStateImpl :=
  let count := (w.update_count_ + 1) % 2 ^ 32
  { current_state_ := { w.current_state_ with
      smoothed_lat := lat, smoothed_lon := lon, smoothed_altitude := altitude,
      last_update_ms := timestamp, update_sequence := count },
    update_count_ := count }

/-! ## include/PluginRegistry.hpp, src/core/PluginRegistry.cpp -/

/-- `PluginRegistry::ProviderFactory`: a callable that returns a
`unique_ptr<IContextProvider>`, which may be null (`none`). -/
abbrev ProviderFactory := Unit → Option ContextProvider

/-- The members of `PluginRegistry`.  The two `std::map`s are functions from
the key to the optional entry; an entry of `instances_` is a `unique_ptr`,
null or owning an object.  A pointer to an instance is its key (entries are
never erased or replaced), `none` is the null pointer.  `factory_calls` is
not a member of the class: it records the name of every factory invocation
`it->second()`, latest first. -/
structure PluginRegistry where
  factories_ : List Nat → Option ProviderFactory
  instances_ : List Nat → Option (Option ContextProvider)
  active_provider_ : Option (List Nat)
  active_provider_name_ : List Nat
  factory_calls : List (List Nat)

/-- The registry as constructed: empty maps, no active provider. -/
def PluginRegistry.empty : PluginRegistry :=
  { factories_ := fun _ => none,
    instances_ := fun _ => none,
    active_provider_ := none,
    active_provider_name_ := [],
    factory_calls := [] }

/-- `PluginRegistry::registerProvider`. -/
def PluginRegistry.registerProvider (r : PluginRegistry) (name : List Nat)
    (factory : ProviderFactory) : PluginRegistry :=
  { r with factories_ := Function.update r.factories_ name (some factory) }

/-- The address `instances_[name].get()`: null when there is no entry or the
entry is a null `unique_ptr`. -/
def PluginRegistry.instancePointer (r : PluginRegistry) (name : List Nat) :
    Option (List Nat) :=
  match r.instances_ name with
  | some (some _) => some name
  | _ => none

/-- The object behind a provider pointer. -/
def PluginRegistry.deref (r : PluginRegistry) (pointer : Option (List Nat)) :
    Option ContextProvider :=
  match pointer with
  | some name => (r.instances_ name).join
  | none => none

/-- The shared part of `activateProvider` and `getProvider`: "create instance
if not exists" (lines 29-31 and 58-60). -/
def PluginRegistry.ensureInstance (r : PluginRegistry) (name : List Nat)
    (factory : ProviderFactory) : PluginRegistry :=
  match r.instances_ name with
  | some _ => r
  | none =>
    { r with
      instances_ := Function.update r.instances_ name (some (factory ())),
      factory_calls := name :: r.factory_calls }

/-- `PluginRegistry::activateProvider`. -/
def PluginRegistry.activateProvider (r : PluginRegistry) (name : List Nat) :
    Bool × PluginRegistry :=
  match r.factories_ name with
  | none => (false, r)
  | some factory =>
    let r1 := r.ensureInstance name factory
    (true, { r1 with
      active_provider_ := r1.instancePointer name,
      active_provider_name_ := name })

/-- `PluginRegistry::getActiveProvider`. -/
def PluginRegistry.getActiveProvider (r : PluginRegistry) : Option (List Nat) :=
  r.active_provider_

/-- `PluginRegistry::getProvider`. -/
def PluginRegistry.getProvider (r : PluginRegistry) (name : List Nat) :
    Option (List Nat) × PluginRegistry :=
  match r.factories_ name with
  | none => (none, r)
  | some factory =>
    let r1 := r.ensureInstance name factory
    (r1.instancePointer name, r1)

/-! ## include/CommandDispatcher.hpp, src/daemon/CommandDispatcher.cpp -/

/-- `std::tolower` on one byte in the "C" locale, which the program never
changes. -/
def tolower (c : Nat) : Nat := if 65 ≤ c ∧ c ≤ 90 then c + 32 else c

/-- The static function `toLower` of CommandDispatcher.cpp. -/
def toLower (s : List Nat) : List Nat := s.map tolower

/-- The test `haystack.find(needle) != std::string::npos`. -/
def found (haystack needle : List Nat) : Bool :=
  haystack.tails.any (fun t => needle.isPrefixOf t)

/-- `CommandDispatcher::setAccuracyLevel`. -/
def setAccuracyLevel (m : SharedMemoryManager) (level : ℚ) : SharedMemoryManager :=
  let level := max 0 (min 1 level)
  if m.isReady then
    match m.getHeader with
    | some header => { m with header_ := some { header with accuracy_level := level } }
    | none => m
  else m

/-- `CommandDispatcher::processCommand` on the two process-wide singletons: the
result, the registry and the shared-memory manager afterwards. -/
def processCommand (r : PluginRegistry) (m : SharedMemoryManager) (command : List Nat) :
    Bool × PluginRegistry × SharedMemoryManager :=
  let lower_cmd := toLower command
  if found lower_cmd (str "cycling") || found lower_cmd (str "bike") then
    ((r.activateProvider (str "cycling")).1, (r.activateProvider (str "cycling")).2, m)
  else if found lower_cmd (str "dating") || found lower_cmd (str "tinder") then
    ((r.activateProvider (str "dating")).1, (r.activateProvider (str "dating")).2, m)
  else if found lower_cmd (str "delivery") then
    ((r.activateProvider (str "delivery")).1, (r.activateProvider (str "delivery")).2, m)
  else if found lower_cmd (str "running") || found lower_cmd (str "walking") then
    let m1 := setAccuracyLevel m 1
    ((r.activateProvider (str "cycling")).1, (r.activateProvider (str "cycling")).2, m1)
  else if found lower_cmd (str "driving") || found lower_cmd (str "car") then
    let m1 := setAccuracyLevel m (1 / 2)
    ((r.activateProvider (str "cycling")).1, (r.activateProvider (str "cycling")).2, m1)
  else (false, r, m)

/-- `CommandDispatcher::getActivePlugin`. -/
def getActivePlugin (r : PluginRegistry) : List Nat :=
  match r.deref r.getActiveProvider with
  | some provider => provider.getName
  | none => []

/-- The registrations of the daemon's `main`: "cycling" and "dating", each
with a factory that constructs the provider. -/
def daemonRegistry (uninit : ContextFrame) : PluginRegistry :=
  (PluginRegistry.empty.registerProvider (str "cycling")
      (fun _ => some (ContextProvider.cycling (CyclingContextProvider.new uninit)))).registerProvider
    (str "dating") (fun _ => some ContextProvider.dating)

/-! ## src/core/IPCReader.cpp: header metadata -/

/-- The `std::string` built from a `char` array: the bytes before the first
NUL. -/
def cString (bytes : List Nat) : List Nat := bytes.takeWhile (fun c => c ≠ 0)

/-- `IPCReader::getActivePlugin`. -/
def IPCReader.getActivePlugin (m : SharedMemoryManager) : List Nat :=
  if !m.isReady then []
  else
    match m.getHeader with
    | some header => cString header.active_plugin
    | none => []

/-- `IPCReader::getAccuracyLevel`. -/
def IPCReader.getAccuracyLevel (m : SharedMemoryManager) : ℚ :=
  if !m.isReady then 1
  else
    match m.getHeader with
    | some header => header.accuracy_level
    | none => 1

/-! ## include/GeminiIntegration.hpp, src/adapter/GeminiIntegration.cpp -/

/-- The value of a `char` holding the byte `byte` in an arithmetic expression.
Plain `char` is taken as signed, as on x86-64; for bytes below 128, which
covers every string the providers write, signedness plays no role. -/
def charValue (byte : Nat) : Int := if byte < 128 then (byte : Int) else (byte : Int) - 256

/-- Rounding toward zero: the fractional part is dropped. -/
def towardZero (x : ℚ) : Int := if 0 ≤ x then ⌊x⌋ else ⌈x⌉

/-- `static_cast<int>(x)` for a double `x`: truncation toward zero when the
truncated value fits an `int`.  Otherwise the conversion is undefined in C++;
the value taken here is INT_MIN, which the conversion instruction of x86-64
delivers. -/
def truncToInt (x : ℚ) : Int :=
  if -(2 ^ 31) ≤ towardZero x ∧ towardZero x < 2 ^ 31 then towardZero x else -(2 ^ 31)

/-- The members of `GeminiIntegration` that the context loop reads and
writes.  The S2S client is an external collaborator. -/
structure GeminiIntegration where
  last_context_hash_ : Nat
deriving DecidableEq

/-- The default member initialiser `last_context_hash_ = 0`. -/
def GeminiIntegration.new : GeminiIntegration := { last_context_hash_ := 0 }

/-- `GeminiIntegration::hashContext`, in `uint64_t` arithmetic.  The product
`ctx.gradient_percent * 10` is a double multiplication; the `int` it is
converted to enters the 64-bit sum sign-extended. -/
def GeminiIntegration.hashContext (ctx : ContextFrame) : Nat :=
  -- for (int i = 0; i < 64 && ctx.road_type[i]; ++i) hash = hash * 31 + ctx.road_type[i]
  let hash := ((ctx.road_type.take 64).takeWhile (fun c => c ≠ 0)).foldl
    (fun (hash : Nat) c => (((hash : Int) * 31 + charValue c) % 2 ^ 64).toNat) 0
  let gradient_int := truncToInt (roundToDouble (ctx.gradient_percent * 10))
  (((hash : Int) * 31 + gradient_int) % 2 ^ 64).toNat

/-- One iteration of `GeminiIntegration::contextUpdateLoop`: the object
afterwards and what is forwarded through `sendContext`, if anything.  The
prompt text is built from the snapshot by string formatting; the model hands
back the snapshot it is built from.  `uninitState` and `uninitContext` are the
contents of the two default-initialised locals. -/
def GeminiIntegration.contextUpdateStep (g : GeminiIntegration) (m : SharedMemoryManager)
    (uninitState : WorldState) (uninitContext : ContextFrame) :
    GeminiIntegration × Option (WorldState × ContextFrame) :=
  let res := readLatestState m uninitState uninitContext
  if res.1 then
    let context_hash := GeminiIntegration.hashContext res.2.2
    if context_hash ≠ g.last_context_hash_ then
      ({ g with last_context_hash_ := context_hash }, some (res.2.1, res.2.2))
    else (g, none)
  else (g, none)

/-! ## src/core/S2GeometryWrapper.cpp: distance -/

/-- The functions and the constant of `<cmath>` that `distanceMeters` uses.
They are external to the repository and enter as parameters. -/
structure Libm (α : Type) where
  M_PI : α
  sin : α → α
  cos : α → α
  asin : α → α
  sqrt : α → α

/-- `S2GeometryIndex::distanceMeters` (a static member function). -/
def S2GeometryIndex.distanceMeters {α : Type} [Field α] (libm : Libm α)
    (lat1 lon1 lat2 lon2 : α) : α :=
  let R : α := 6371000
  let phi1 := lat1 * libm.M_PI / 180
  let phi2 := lat2 * libm.M_PI / 180
  let delta_phi := (lat2 - lat1) * libm.M_PI / 180
  let delta_lambda := (lon2 - lon1) * libm.M_PI / 180
  let a := libm.sin (delta_phi / 2) * libm.sin (delta_phi / 2) +
    libm.cos phi1 * libm.cos phi2 *
    libm.sin (delta_lambda / 2) * libm.sin (delta_lambda / 2)
  let c := 2 * libm.asin (libm.sqrt a)
  R * c

/-! ## src/core/StepDetector.cpp -/

/-- The members of `StepDetector`. -/
structure StepDetector where
  last_accel_z_ : ℚ
  last_step_time_s_ : ℚ
deriving DecidableEq

/-- The default member initialisers of `StepDetector`. -/
def StepDetector.new : StepDetector := { last_accel_z_ := 0, last_step_time_s_ := 0 }

/-- `StepDetector::detectStep` with `STEP_THRESHOLD` = 1.5 and
`STEP_MIN_INTERVAL` = 0.3: the result and the detector afterwards. -/
def StepDetector.detectStep (d : StepDetector) (accel_z current_time_s : ℚ) :
    Bool × StepDetector :=
  if current_time_s - d.last_step_time_s_ > 3 / 10 then
    if accel_z > 3 / 2 ∧ d.last_accel_z_ < 3 / 2 then
      (true, { d with last_step_time_s_ := current_time_s })
    else (false, { d with last_accel_z_ := accel_z })
  else (false, { d with last_accel_z_ := accel_z })

/-! ## Vocabulary of the statements -/

/-- The state in which the transport operates: `is_ready_` is set and both
pointers are non-null. -/
def SharedMemoryManager.Ready (m : SharedMemoryManager) : Prop :=
  m.is_ready_ = true ∧ m.header_.isSome = true ∧ m.ring_buffer_.isSome = true

instance (m : SharedMemoryManager) : Decidable m.Ready := by
  unfold SharedMemoryManager.Ready; infer_instance

/-- The header's `write_index` addresses a slot of the ring. -/
def SharedMemoryManager.IndexInRange (m : SharedMemoryManager) : Prop :=
  ∀ h, m.header_ = some h → h.write_index < RING_BUFFER_SIZE

/-- The ring entry at slot `i`, when the ring pointer is non-null. -/
def SharedMemoryManager.slot (m : SharedMemoryManager) (i : Nat) : Option RingBufferEntry :=
  m.ring_buffer_.map (fun buffer => buffer i)

/-- The header's `global_sequence`, when the header pointer is non-null. -/
def SharedMemoryManager.globalSequence (m : SharedMemoryManager) : Option Nat :=
  m.header_.map (fun header => header.global_sequence)

/-- The header's `location_service_alive`, when the header pointer is non-null. -/
def SharedMemoryManager.aliveFlag (m : SharedMemoryManager) : Option Bool :=
  m.header_.map (fun header => header.location_service_alive)

/-- A sequence of `IPCWriter::writeState` calls, first pair first. -/
def writeAll (m : SharedMemoryManager) (ps : List (WorldState × ContextFrame)) :
    SharedMemoryManager :=
  ps.foldl (fun acc p => writeState acc p.1 p.2) m

/-- The manager after a successful `initializeServer` on a segment of 4 MiB, a
size that holds the header and the ring. -/
def readyManager : SharedMemoryManager :=
  (SharedMemoryManager.fresh.initializeServerSized (4 * 1024 * 1024)).2

/-- The index `IPCReader::readLatestState` computes from `write_index`. -/
def latestIndex (write_idx : Nat) : Nat :=
  if write_idx = 0 then RING_BUFFER_SIZE - 1
  else ((write_idx + 2 ^ 32 - 1) % 2 ^ 32) % RING_BUFFER_SIZE

/-- The transition matrix with time step `d` in the two velocity columns. -/
def transitionA (d : ℚ) : Matrix4d :=
  ⟨⟨1, 0, d, 0⟩, ⟨0, 1, 0, d⟩, ⟨0, 0, 1, 0⟩, ⟨0, 0, 0, 1⟩⟩

/-- The measurement matrix the constructor installs. -/
def measurementH : Matrix24d := ⟨⟨1, 0, 0, 0⟩, ⟨0, 1, 0, 0⟩⟩

/-- A covariance in which latitude and longitude are uncorrelated and carry the
same numbers: position variance `a`, position-velocity covariance `b`,
velocity variance `c`. -/
def blockP (a b c : ℚ) : Matrix4d :=
  ⟨⟨a, 0, b, 0⟩, ⟨0, a, 0, b⟩, ⟨b, 0, c, 0⟩, ⟨0, b, 0, c⟩⟩

/-- The diagonal coefficient of `Matrix2d.inverse` on the matrix `s * I`. -/
def invS (s : ℚ) : ℚ := s * (1 / (s * s))

/-- The filter seen along one axis: position `x`, velocity `v` and the three
covariance numbers of `blockP`. -/
structure AxisState where
  x : ℚ
  v : ℚ
  a : ℚ
  b : ℚ
  c : ℚ
deriving DecidableEq

/-- What one `update` (predict with `dt`, correct with measurement `z` and
measurement noise `r`, process noise `q`) does along one axis when the
covariance has the form `blockP`; `update_block` proves the correspondence. -/
def axisStep (dt q r z : ℚ) (st : AxisState) : AxisState :=
  let xp := st.x + dt * st.v
  let a1 := st.a + 2 * dt * st.b + dt * dt * st.c + q * (1 / 1000)
  let b1 := st.b + dt * st.c
  let c1 := st.c + q
  let w := invS (a1 + r)
  { x := xp + a1 * w * (z - xp),
    v := st.v + b1 * w * (z - xp),
    a := (1 - a1 * w) * a1,
    b := (1 - a1 * w) * b1,
    c := c1 - b1 * w * b1 }

/-- The axis view of a freshly constructed (or reset) filter. -/
def AxisState.init : AxisState := ⟨0, 0, 1000000, 0, 1000000⟩

/-- The filter has the matrices of the constructor (with process noise `q`), a
covariance of the form `blockP`, and the two axes `lat` and `lon`. -/
def KalmanFilter.InBlockForm (kf : KalmanFilter) (q : ℚ) (lat lon : AxisState) : Prop :=
  (∃ d, kf.A_ = transitionA d) ∧ kf.H_ = measurementH ∧ kf.Q_ = processNoise q ∧
  kf.P_ = blockP lat.a lat.b lat.c ∧
  lon.a = lat.a ∧ lon.b = lat.b ∧ lon.c = lat.c ∧
  kf.x_ = ⟨lat.x, lon.x, lat.v, lon.v⟩

/-- The measurement noise `update` computes from a sample. -/
def measurementNoise (measurement : LocationFix) : ℚ :=
  max 100 (measurement.accuracy * measurement.accuracy)

/-! ## Interleaved executions of one writer and several readers

The statements of `IPCWriter::writeState` and `IPCReader::readLatestState` on a
ready segment, one statement per step, interleaved by a schedule.  Every step
is atomic and the steps take effect in schedule order. -/

/-- The shared segment of a ready transport: the header and the ring. -/
structure Segment where
  header : SharedMemoryHeader
  buffer : Nat → RingBufferEntry

/-- The statement of `writeState` the writer executes next; `idle` is outside a
call.  A call starts by loading `write_index` and computing `next_write`
(lines 23-24); the other six are lines 28, 30, 31, 34, 35, 36. -/
inductive WriterPc where
  | idle
  | store_sequence
  | copy_state
  | copy_context
  | add_global_sequence
  | store_write_index
  | add_total_updates
deriving DecidableEq

/-- The writer thread: position, the two arguments of the running call and its
two locals. -/
structure WriterThread where
  pc : WriterPc
  state : WorldState
  context : ContextFrame
  write_idx : Nat
  next_write : Nat

/-- The statement of `readLatestState` a reader executes next; a call starts by
loading `write_index` and computing `read_idx` (lines 22-28), then copies the
state (line 31) and the context (line 32) and returns true. -/
inductive ReaderPc where
  | idle
  | copy_state
  | copy_context
deriving DecidableEq

/-- A reader thread: position, its local `read_idx`, its two output arguments,
and (for the statements only) how many `writeState` calls had been started when
it loaded `write_index`. -/
structure ReaderThread where
  pc : ReaderPc
  read_idx : Nat
  state : WorldState
  context : ContextFrame
  callsAtLoad : Nat

/-- What one completed `readLatestState` handed out, with the number of
`writeState` calls that were started between its load of `write_index` and its
return. -/
structure Snapshot where
  reader : Nat
  state : WorldState
  context : ContextFrame
  callsDuring : Nat
deriving DecidableEq

/-- One writer, readers numbered by `Nat`, the shared segment, the arguments of
all `writeState` calls started so far (latest first) and the snapshots handed
out so far (latest first). -/
structure System where
  shm : Segment
  writer : WriterThread
  readers : Nat → ReaderThread
  calls : List (WorldState × ContextFrame)
  returned : List Snapshot

/-- A scheduling decision: the producer enters `writeState(state, context)`, the
writer executes its next statement, or reader `i` executes its next statement
(entering `readLatestState` when it is outside a call). -/
inductive Action where
  | writeCall (state : WorldState) (context : ContextFrame)
  | writerStep
  | readerStep (i : Nat)

/-- The writer enters `writeState`: lines 23-24. -/
def WriterThread.enter (shm : Segment) (state : WorldState) (context : ContextFrame) :
    WriterThread :=
  { pc := WriterPc.store_sequence, state := state, context := context,
    write_idx := shm.header.write_index,
    next_write := ((shm.header.write_index + 1) % 2 ^ 32) % RING_BUFFER_SIZE }

/-- Assignment to the slot `i` of the ring. -/
def Segment.setSlot (shm : Segment) (i : Nat) (entry : RingBufferEntry) : Segment :=
  { shm with buffer := Function.update shm.buffer i entry }

/-- The writer executes its next statement. -/
def WriterThread.step (w : WriterThread) (shm : Segment) : Segment × WriterThread :=
  let entry := shm.buffer w.write_idx
  let header := shm.header
  match w.pc with
  | WriterPc.idle => (shm, w)
  | WriterPc.store_sequence =>
    (shm.setSlot w.write_idx { entry with sequence := header.global_sequence },
     { w with pc := WriterPc.copy_state })
  | WriterPc.copy_state =>
    (shm.setSlot w.write_idx { entry with state := w.state },
     { w with pc := WriterPc.copy_context })
  | WriterPc.copy_context =>
    (shm.setSlot w.write_idx { entry with context := w.context },
     { w with pc := WriterPc.add_global_sequence })
  | WriterPc.add_global_sequence =>
    ({ shm with header :=
        { header with global_sequence := (header.global_sequence + 1) % 2 ^ 32 } },
     { w with pc := WriterPc.store_write_index })
  | WriterPc.store_write_index =>
    ({ shm with header := { header with write_index := w.next_write } },
     { w with pc := WriterPc.add_total_updates })
  | WriterPc.add_total_updates =>
    ({ shm with header :=
        { header with total_updates := (header.total_updates + 1) % 2 ^ 64 } },
     { w with pc := WriterPc.idle })

/-- Assignment to reader `i`. -/
def System.setReader (sys : System) (i : Nat) (r : ReaderThread) : System :=
  { sys with readers := Function.update sys.readers i r }

/-- Reader `i` executes its next statement; a completed call is recorded. -/
def System.readerStep (sys : System) (i : Nat) : System :=
  let r := sys.readers i
  let entry := sys.shm.buffer r.read_idx
  match r.pc with
  | ReaderPc.idle =>
    sys.setReader i
      { r with pc := ReaderPc.copy_state,
               read_idx := latestIndex sys.shm.header.write_index,
               callsAtLoad := sys.calls.length }
  | ReaderPc.copy_state =>
    sys.setReader i { r with pc := ReaderPc.copy_context, state := entry.state }
  | ReaderPc.copy_context =>
    { sys.setReader i { r with pc := ReaderPc.idle, context := entry.context } with
      returned :=
        { reader := i, state := r.state, context := entry.context,
          callsDuring := sys.calls.length - r.callsAtLoad } :: sys.returned }

/-- One scheduling decision.  A `writeCall` while the writer is inside a call
and a `writerStep` while it is outside do nothing. -/
def System.step (sys : System) (a : Action) : System :=
  match a with
  | Action.writeCall state context =>
    if sys.writer.pc = WriterPc.idle then
      { sys with writer := WriterThread.enter sys.shm state context,
                 calls := (state, context) :: sys.calls }
    else sys
  | Action.writerStep =>
    { sys with shm := (sys.writer.step sys.shm).1, writer := (sys.writer.step sys.shm).2 }
  | Action.readerStep i => sys.readerStep i

/-- The system after a schedule. -/
def System.run (sys : System) (schedule : List Action) : System :=
  schedule.foldl System.step sys

/-- The freshly initialised segment with every thread outside a call. -/
def System.init : System :=
  { shm := { header := { SharedMemoryHeader.init with location_service_alive := true },
             buffer := fun _ => RingBufferEntry.zero },
    writer := { pc := WriterPc.idle, state := WorldState.zero, context := ContextFrame.zero,
                write_idx := 0, next_write := 0 },
    readers := fun _ =>
      { pc := ReaderPc.idle, read_idx := 0, state := WorldState.zero,
        context := ContextFrame.zero, callsAtLoad := 0 },
    calls := [],
    returned := [] }

/-- One complete `writeState(state, context)`: the call and its six statements. -/
def fullWrite (state : WorldState) (context : ContextFrame) : List Action :=
  Action.writeCall state context :: List.replicate 6 Action.writerStep

/-- One complete `readLatestState` of reader `i`: its three steps. -/
def fullRead (i : Nat) : List Action := List.replicate 3 (Action.readerStep i)

/-- Two payloads of the tearing schedule: step count 1 on "A", step count 2 on "B". -/
def payloadA : WorldState × ContextFrame :=
  ({ WorldState.zero with step_count := 1 }, { ContextFrame.zero with road_name := [65, 0] })

/-- The second payload of the tearing schedule. -/
def payloadB : WorldState × ContextFrame :=
  ({ WorldState.zero with step_count := 2 }, { ContextFrame.zero with road_name := [66, 0] })

/-- A schedule on which reader 0 is overtaken by the producer: one complete
write of `payloadA`; reader 0 loads `write_index`; 1023 more complete writes of
`payloadA` take the producer once around the ring; the producer enters the
write of `payloadB` and executes lines 28 and 30; reader 0 copies the state and
the context and returns. -/
def tornSchedule : List Action :=
  fullWrite payloadA.1 payloadA.2 ++ [Action.readerStep 0] ++
  (List.replicate 1023 (fullWrite payloadA.1 payloadA.2)).flatten ++
  [Action.writeCall payloadB.1 payloadB.2, Action.writerStep, Action.writerStep] ++
  [Action.readerStep 0, Action.readerStep 0]

/-- Publications so far: calls started, minus the running call while it has not
yet stored `write_index`. -/
def System.published (sys : System) : Nat :=
  match sys.writer.pc with
  | WriterPc.idle => sys.calls.length
  | WriterPc.add_total_updates => sys.calls.length
  | _ => sys.calls.length - 1

/-- A pair that some single `writeState` call among `calls` was given, or the
never-written all-zero content of a slot. -/
def Genuine (calls : List (WorldState × ContextFrame)) (p : WorldState × ContextFrame) :
    Prop :=
  p ∈ calls ∨ p = (WorldState.zero, ContextFrame.zero)

/-- The payload of a ring slot. -/
def Segment.payload (shm : Segment) (j : Nat) : WorldState × ContextFrame :=
  ((shm.buffer j).state, (shm.buffer j).context)

/-- What holds in every state an interleaved execution reaches from
`System.init`. -/
structure System.Inv (sys : System) : Prop where
  widx : sys.shm.header.write_index = sys.published % 1024
  inCall : sys.writer.pc ≠ WriterPc.idle →
    1 ≤ sys.calls.length ∧
    sys.writer.write_idx = (sys.calls.length - 1) % 1024 ∧
    sys.writer.next_write = sys.calls.length % 1024 ∧
    (sys.writer.state, sys.writer.context) ∈ sys.calls
  torn : sys.writer.pc = WriterPc.copy_context →
    (sys.shm.buffer sys.writer.write_idx).state = sys.writer.state
  slots : ∀ j, (sys.writer.pc = WriterPc.copy_context → j ≠ sys.writer.write_idx) →
    Genuine sys.calls (sys.shm.payload j)
  readers : ∀ i, (sys.readers i).pc ≠ ReaderPc.idle →
    ∃ (e : WorldState × ContextFrame) (pub0 : Nat),
      Genuine sys.calls e ∧ pub0 ≤ sys.published ∧
      pub0 ≤ (sys.readers i).callsAtLoad ∧ (sys.readers i).callsAtLoad ≤ pub0 + 1 ∧
      (sys.readers i).callsAtLoad ≤ sys.calls.length ∧
      (sys.readers i).read_idx = (pub0 + 1023) % 1024 ∧
      (sys.calls.length - (sys.readers i).callsAtLoad < 1023 →
        sys.shm.payload (sys.readers i).read_idx = e ∧
        ((sys.readers i).pc = ReaderPc.copy_context → (sys.readers i).state = e.1))
  returned : ∀ snap ∈ sys.returned, snap.callsDuring < 1023 →
    Genuine sys.calls (snap.state, snap.context)

/-- The fix of `KalmanFilterTest.SingleUpdateTest`:
`LocationFix fix(37.7749, -122.4194, 1000)` with altitude 50 and accuracy 10. -/
def singleUpdateFix : LocationFix :=
  { LocationFix.mk3 (377749 / 10000) (-1224194 / 10000) 1000 with
    altitude := 50, accuracy := 10 }

/-! ## Vocabulary for sequences of filter updates -/

/-- `KalmanFilter::update` called for each fix of a list in turn. -/
def KalmanFilter.updateAll (kf : KalmanFilter) (fixes : List LocationFix) : KalmanFilter :=
  fixes.foldl KalmanFilter.update kf

/-- Copies of one measurement that differ in their time stamps only, one copy
per time stamp of `ts`. -/
def copiesAt (z : LocationFix) (ts : List Int) : List LocationFix :=
  ts.map (fun t => { z with timestamp_ms := t })

/-- The predict half of `axisStep`. -/
def axisPredict (dt q : ℚ) (st : AxisState) : AxisState :=
  { x := st.x + dt * st.v,
    v := st.v,
    a := st.a + 2 * dt * st.b + dt * dt * st.c + q * (1 / 1000),
    b := st.b + dt * st.c,
    c := st.c + q }

/-- The correct half of `axisStep`. -/
def axisCorrect (r z : ℚ) (st : AxisState) : AxisState :=
  { x := st.x + st.a * invS (st.a + r) * (z - st.x),
    v := st.v + st.b * invS (st.a + r) * (z - st.x),
    a := (1 - st.a * invS (st.a + r)) * st.a,
    b := (1 - st.a * invS (st.a + r)) * st.b,
    c := st.c - st.b * invS (st.a + r) * st.b }

/-- The covariance of the axis is positive definite and the estimation error
against the constant truth `z` (position error `x - z`, velocity error `v`),
weighted by the inverse covariance, is at most `V`; written without
division. -/
def AxisState.Trusted (st : AxisState) (z V : ℚ) : Prop :=
  0 < st.a ∧ 0 < st.a * st.c - st.b * st.b ∧
  st.c * (st.x - z) ^ 2 - 2 * st.b * (st.x - z) * st.v + st.a * st.v ^ 2 ≤
    V * (st.a * st.c - st.b * st.b)

/-- The time step of `KalmanFilter::update` as a function of the stored
last-update time stamp and the time stamp of the sample. -/
def timeStepFrom (last_update_ms current_time_ms : Int) : ℚ :=
  let dt_s : ℚ := if last_update_ms > 0
    then ((current_time_ms - last_update_ms : Int) : ℚ) / 1000 else 1 / 10
  let dt_s := if dt_s < 1 / 100 then 1 / 100 else dt_s
  if dt_s > 1 then 1 else dt_s

/-- The axis view of `updateAll`: `axisStep` for each fix in turn, with the time
step taken from the previous time stamp, the measurement noise from the fix
and the measured coordinate `coord` of the fix. -/
def axisRun (q : ℚ) (coord : LocationFix → ℚ) :
    Int → List LocationFix → AxisState → AxisState
  | _, [], st => st
  | last, m :: ms, st =>
    axisRun q coord m.timestamp_ms ms
      (axisStep (timeStepFrom last m.timestamp_ms) q (measurementNoise m) (coord m) st)

/-- The fix `m` with its six inertial readings replaced. -/
def LocationFix.withImu (m : LocationFix) (ax ay az gx gy gz : ℚ) : LocationFix :=
  { m with accel_x := ax, accel_y := ay, accel_z := az,
           gyro_x := gx, gyro_y := gy, gyro_z := gz }

/-- The step count `getSmoothedState` reports for a filter. -/
def KalmanFilter.reportedSteps (kf : KalmanFilter) : Nat :=
  (kf.getSmoothedState WorldState.zero).step_count

/-- The fix of the C11 counterexample: (37.7749, -122.4194) with accuracy 10. -/
def repeatedFix : LocationFix := LocationFix.mk3 (377749 / 10000) (-1224194 / 10000) 0

/-! ## Vocabulary for the service loop, the registry and the dispatcher -/

/-- A stand-in for the S2 library in concrete evaluations: a grid in latitude
and longitude whose level-`L` cells are `180 / 2^L` degrees wide.  The
identifier is odd, hence never 0, as the identifiers of S2 cells are. -/
def quadGrid : S2GeometryIndex :=
  { cell_of := fun lat lon level =>
      2 * ((⌊(lat + 90) * 2 ^ level.toNat / 180⌋).toNat * 2 ^ (level.toNat + 1) +
        (⌊(lon + 180) * 2 ^ level.toNat / 180⌋).toNat) + 1 }

/-- The point for which the frame that `getContext(lat, lon)` returns was
fetched: the requested point, or on a cache hit of the cycling provider the
point kept with the cached frame (lines 55-58 of CyclingContextProvider.cpp
store the frame, its point and its time together). -/
def ContextProvider.computedFor (provider : ContextProvider) (now : Int) (lat lon : ℚ) :
    ℚ × ℚ :=
  match provider with
  | ContextProvider.cycling p =>
    if p.cacheHit now lat lon then (p.cached_lat_, p.cached_lon_) else (lat, lon)
  | ContextProvider.dating => (lat, lon)

/-- The cache of a provider is either still unused (time stamp 0, as
constructed) or holds a frame that is not empty.  The constructor establishes
this and `getContext` keeps it. -/
def ContextProvider.CacheFilled : ContextProvider → Prop
  | ContextProvider.cycling p =>
    p.cached_timestamp_ms_ = 0 ∨ p.cached_context_ ≠ ContextFrame.zero
  | ContextProvider.dating => True

/-- A service as the daemon sets it up, on the grid `quadGrid`: a fresh
filter with PDR enabled and a freshly constructed cycling provider. -/
def cyclingService : LocationService :=
  (LocationService.new quadGrid).setContextProvider
    (some (ContextProvider.cycling (CyclingContextProvider.new ContextFrame.zero)))

/-- The first tick of `cyclingService`, at clock 1700000000000 ms. -/
def firstTick : TickResult :=
  cyclingService.tickPayload 1700000000000 WorldState.zero ContextFrame.zero

/-- The tick 100 ms after `firstTick`, after `injectLocation(lat, lon, 0, ts)`
with `ts` = 1700000000050. -/
def secondTick (lat lon : ℚ) : TickResult :=
  (firstTick.service.injectLocation lat lon 0 1700000000050).tickPayload
    1700000000100 WorldState.zero ContextFrame.zero

/-- A call on the registry. -/
inductive RegistryCall where
  | registerProvider (name : List Nat) (factory : ProviderFactory)
  | activateProvider (name : List Nat)
  | getProvider (name : List Nat)

/-- The registry after one call. -/
def PluginRegistry.call (r : PluginRegistry) : RegistryCall → PluginRegistry
  | RegistryCall.registerProvider name factory => r.registerProvider name factory
  | RegistryCall.activateProvider name => (r.activateProvider name).2
  | RegistryCall.getProvider name => (r.getProvider name).2

/-- The registry after a sequence of calls, first call first. -/
def PluginRegistry.run (r : PluginRegistry) (calls : List RegistryCall) : PluginRegistry :=
  calls.foldl PluginRegistry.call r

/-- The record of factory invocations is consistent with the instance map: no
name occurs twice and every recorded name has an instance. -/
def PluginRegistry.Traced (r : PluginRegistry) : Prop :=
  r.factory_calls.Nodup ∧ ∀ name ∈ r.factory_calls, (r.instances_ name).isSome = true

/-- The lower-cased command contains the keyword as a contiguous substring. -/
def mentions (command : List Nat) (keyword : String) : Prop :=
  str keyword <:+: toLower command

instance (command : List Nat) (keyword : String) : Decidable (mentions command keyword) := by
  unfold mentions; infer_instance

/-! ## Vocabulary for the cache, the context hash, the distance and the filter -/

/-- An upstream fetch of the cycling provider. -/
inductive FetchCall where
  | fetchElevation (lat lon : ℚ)
  | fetchTraffic (lat lon : ℚ)
  | fetchSurface (lat lon : ℚ)
deriving DecidableEq

/-- The upstream fetches that `CyclingContextProvider::getContext` performs, in
order: none on the cache branch (line 44 returns), the three of lines 48-50
otherwise. -/
def CyclingContextProvider.fetches (p : CyclingContextProvider) (now : Int)
    (lat lon : ℚ) : List FetchCall :=
  if p.cacheHit now lat lon then []
  else [FetchCall.fetchElevation lat lon, FetchCall.fetchTraffic lat lon,
    FetchCall.fetchSurface lat lon]

/-- A cycling provider after its first use, at clock 1700000000000 ms for the
point (37.7749, -122.4194). -/
def warmProvider : CyclingContextProvider :=
  ((CyclingContextProvider.new ContextFrame.zero).getContext 1700000000000 ContextFrame.zero
    (377749 / 10000) (-1224194 / 10000)).2

/-- A cycling provider after its first use, at clock 1700000000000 ms for the
point (-0.0003, 0), the latitude being the double of the literal. -/
def edgeProvider : CyclingContextProvider :=
  ((CyclingContextProvider.new ContextFrame.zero).getContext 1700000000000 ContextFrame.zero
    (-5534023222112865 / 2 ^ 64) 0).2

/-- The haversine great-circle distance on a sphere of radius 6371000 m, for
two points given in radians. -/
def haversine {α : Type} [Field α] (libm : Libm α) (phi1 lambda1 phi2 lambda2 : α) : α :=
  6371000 * (2 * libm.asin (libm.sqrt
    (libm.sin ((phi2 - phi1) / 2) ^ 2 +
      libm.cos phi1 * libm.cos phi2 * libm.sin ((lambda2 - lambda1) / 2) ^ 2)))

/-- Degrees to radians. -/
def radians {α : Type} [Field α] (libm : Libm α) (degrees : α) : α :=
  degrees * libm.M_PI / 180

/-- The Kalman gain `K = P * H^T * S^-1` that `correct` computes (lines 61-64). -/
def KalmanFilter.gain (kf : KalmanFilter) : Matrix42d :=
  let S := Matrix2d.store (kf.H_.coeff * kf.P_.coeff * kf.H_.coeff.transpose + kf.R_.coeff)
  Matrix42d.store (kf.P_.coeff * kf.H_.coeff.transpose * S.inverse.coeff)

/-- The filter on which `update` calls `correct`: time stamp and measurement
noise stored, `predict` done (lines 74-92). -/
def KalmanFilter.predicted (kf : KalmanFilter) (measurement : LocationFix) : KalmanFilter :=
  KalmanFilter.predict
    { kf with
      last_update_ms_ := measurement.timestamp_ms,
      R_ := ⟨⟨measurementNoise measurement, 0⟩, ⟨0, measurementNoise measurement⟩⟩ }
    (kf.timeStep measurement)

/-- The fix `m` with another accuracy. -/
def LocationFix.withAccuracy (m : LocationFix) (accuracy : ℚ) : LocationFix :=
  { m with accuracy := accuracy }

/-- What no member function of `KalmanFilter` changes: the transition matrix
outside its two time-step coefficients, the measurement matrix and the step
length. -/
def KalmanFilter.WellFormed (kf : KalmanFilter) : Prop :=
  (∃ d, kf.A_ = transitionA d) ∧ kf.H_ = measurementH ∧ kf.step_length_m_ = 7 / 10

/-- A newly constructed filter in which the PDR flag, the process noise and
the last vertical acceleration have the given values. -/
def KalmanFilter.newWith (pdr : Bool) (Q : Matrix4d) (last_accel_z : ℚ) : KalmanFilter :=
  { KalmanFilter.new with use_pdr_ := pdr, Q_ := Q, last_accel_z_ := last_accel_z }

/-- A sample with vertical acceleration 20 m/s^2 at time stamp `ts`. -/
def strideFix (ts : Int) : LocationFix :=
  (LocationFix.mk3 (377749 / 10000) (-1224194 / 10000) ts).withImu 0 0 20 0 0 0

/-- The covariance of the axis is positive definite. -/
def AxisState.PosDef (st : AxisState) : Prop :=
  0 < st.a ∧ 0 < st.a * st.c - st.b * st.b

/-! ## Vocabulary for step detection, transitions, hashes and publication counts -/

/-- A run of `StepDetector::detectStep` over (acceleration, time) readings: the
results in order. -/
def StepDetector.results : StepDetector → List (ℚ × ℚ) → List Bool
  | _, [] => []
  | d, reading :: rest =>
    (d.detectStep reading.1 reading.2).1 ::
      StepDetector.results (d.detectStep reading.1 reading.2).2 rest

/-- A sample with vertical acceleration 0 at time stamp `ts`. -/
def restFix (ts : Int) : LocationFix :=
  LocationFix.mk3 (377749 / 10000) (-1224194 / 10000) ts

/-- `std::round`: the nearest integer, halfway cases away from zero. -/
def roundHalfAway (x : ℚ) : Int := if 0 ≤ x then ⌊x + 1 / 2⌋ else ⌈x - 1 / 2⌉

/-- The 64-bit polynomial hash in the words of the specification: fold
h := h * 31 + byte over the bytes of `road_type` up to the first NUL (at most
64), then h := h * 31 + quantise(gradient_percent * 10), all modulo 2^64. -/
def polynomialHash (quantise : ℚ → Int) (ctx : ContextFrame) : Nat :=
  let h := ((ctx.road_type.take 64).takeWhile (fun c => c ≠ 0)).foldl
    (fun h byte => (h * 31 + byte) % 2 ^ 64) 0
  ((((h * 31 : Nat) : Int) + quantise (ctx.gradient_percent * 10)) % 2 ^ 64).toNat

/-- The innovation covariance `S = H * P * H^T + R` that `correct` computes
(line 61). -/
def KalmanFilter.innovationCovariance (kf : KalmanFilter) : Matrix2d :=
  Matrix2d.store (kf.H_.coeff * kf.P_.coeff * kf.H_.coeff.transpose + kf.R_.coeff)

/-- A call of one of the two publishing functions of `IPCWriter`. -/
inductive WriterCall where
  | writeState (state : WorldState) (context : ContextFrame)
  | updateLocation (lat lon alt : ℚ) (timestamp : Int)

/-- The segment after one publishing call. -/
def SharedMemoryManager.publish (m : SharedMemoryManager) : WriterCall → SharedMemoryManager
  | WriterCall.writeState state context => writeState m state context
  | WriterCall.updateLocation lat lon alt timestamp => updateLocation m lat lon alt timestamp

/-- The segment after a sequence of publishing calls, first call first. -/
def SharedMemoryManager.publishAll (m : SharedMemoryManager) (calls : List WriterCall) :
    SharedMemoryManager :=
  calls.foldl SharedMemoryManager.publish m

/-- Successive iterations of `contextUpdateLoop`, each on the segment as it is
at that moment: the object afterwards and what each iteration forwarded. -/
def GeminiIntegration.contextUpdateRun :
    GeminiIntegration → List (SharedMemoryManager × WorldState × ContextFrame) →
      GeminiIntegration × List (Option (WorldState × ContextFrame))
  | g, [] => (g, [])
  | g, tick :: rest =>
    ((GeminiIntegration.contextUpdateRun (g.contextUpdateStep tick.1 tick.2.1 tick.2.2).1
        rest).1,
      (g.contextUpdateStep tick.1 tick.2.1 tick.2.2).2 ::
        (GeminiIntegration.contextUpdateRun (g.contextUpdateStep tick.1 tick.2.1 tick.2.2).1
          rest).2)

/-- A ready segment with `write_index` 5 whose latest slot, slot 4, carries the
odd sequence counter 7 and a state with step count 42. -/
def oddSlotManager : SharedMemoryManager :=
  { segment_ := true,
    header_ := some { SharedMemoryHeader.init with write_index := 5, global_sequence := 8 },
    ring_buffer_ := some (fun i =>
      if i = 4 then ⟨7, { WorldState.zero with step_count := 42 }, ContextFrame.zero⟩
      else RingBufferEntry.zero),
    is_ready_ := true }

theorem floor_le_roundHalfEven (x : ℚ) : ⌊x⌋ ≤ roundHalfEven x := by
  unfold roundHalfEven
  split_ifs <;> omega

theorem roundHalfEven_le_floor_add_one (x : ℚ) : roundHalfEven x ≤ ⌊x⌋ + 1 := by
  unfold roundHalfEven
  split_ifs <;> omega

theorem roundHalfEven_intCast (n : Int) : roundHalfEven (n : ℚ) = n := by
  simp [roundHalfEven]

theorem roundHalfEven_mono {x y : ℚ} (h : x ≤ y) : roundHalfEven x ≤ roundHalfEven y := by
  have hf : ⌊x⌋ ≤ ⌊y⌋ := Int.floor_mono h
  rcases lt_or_eq_of_le hf with hlt | heq
  · calc roundHalfEven x ≤ ⌊x⌋ + 1 := roundHalfEven_le_floor_add_one x
      _ ≤ ⌊y⌋ := by omega
      _ ≤ roundHalfEven y := floor_le_roundHalfEven y
  · unfold roundHalfEven
    rw [heq]
    split_ifs <;> first | omega | (exfalso; linarith)

theorem roundHalfEven_of_near (x : ℚ) (n : Int) (h1 : (n : ℚ) - 1 / 2 < x)
    (h2 : x < n + 1 / 2) : roundHalfEven x = n := by
  by_cases hx : (n : ℚ) ≤ x
  · have hf : ⌊x⌋ = n := by
      rw [Int.floor_eq_iff]
      exact ⟨hx, by linarith⟩
    unfold roundHalfEven
    rw [hf, if_pos (by linarith)]
  · have hf : ⌊x⌋ = n - 1 := by
      rw [Int.floor_eq_iff]
      push_cast
      exact ⟨by linarith, by linarith [not_le.mp hx]⟩
    unfold roundHalfEven
    rw [hf]
    push_cast
    rw [if_neg (by linarith), if_pos (by linarith)]
    omega

theorem roundHalfEven_tie (n : Int) (hn : n % 2 = 0) :
    roundHalfEven ((n : ℚ) + 1 / 2) = n ∧ roundHalfEven ((n : ℚ) - 1 / 2) = n := by
  constructor
  · have hf : ⌊(n : ℚ) + 1 / 2⌋ = n := by
      rw [Int.floor_eq_iff]
      exact ⟨by linarith, by linarith⟩
    unfold roundHalfEven
    rw [hf, if_neg (by linarith), if_neg (by linarith), if_pos hn]
  · have hf : ⌊(n : ℚ) - 1 / 2⌋ = n - 1 := by
      rw [Int.floor_eq_iff]
      push_cast
      exact ⟨by linarith, by linarith⟩
    unfold roundHalfEven
    rw [hf]
    push_cast
    rw [if_neg (by linarith), if_neg (by linarith), if_neg (by omega)]
    omega

theorem ulp_pos (x : ℚ) : 0 < ulp x := zpow_pos (by norm_num) _

theorem two_zpow_split (b : Int) (k : Int) :
    (2 : ℚ) ^ (b + k) = 2 ^ k * 2 ^ b := by
  rw [zpow_add₀ (by norm_num : (2 : ℚ) ≠ 0)]
  ring

theorem binade_lt (x : ℚ) : x < 2 ^ (binade x + 1) := by
  have h := Int.lt_zpow_succ_log_self (by norm_num : 1 < 2) x
  rw [Nat.cast_ofNat] at h
  refine lt_of_lt_of_le h (zpow_le_zpow_right₀ (by norm_num) ?_)
  unfold binade
  have := le_max_left (Int.log 2 x) (-1022)
  omega

theorem binade_le (x : ℚ) (hx : 0 < x) (hb : -1022 < binade x) : 2 ^ binade x ≤ x := by
  have e : binade x = Int.log 2 x := by
    unfold binade at hb ⊢
    rcases le_total (Int.log 2 x) (-1022) with h | h
    · rw [max_eq_right h] at hb
      omega
    · exact max_eq_left h
  rw [e]
  have h := Int.zpow_log_le_self (by norm_num : 1 < 2) hx
  rwa [Nat.cast_ofNat] at h

theorem binade_mono {x y : ℚ} (hx : 0 < x) (h : x ≤ y) : binade x ≤ binade y :=
  max_le_max (Int.log_mono_right hx h) le_rfl

theorem binade_eq (x : ℚ) (e : Int) (he : -1022 ≤ e) (h1 : 2 ^ e ≤ x) (h2 : x < 2 ^ (e + 1)) :
    binade x = e := by
  have hx : 0 < x := lt_of_lt_of_le (zpow_pos (by norm_num) _) h1
  have a : e ≤ Int.log 2 x := by
    rw [← Int.zpow_le_iff_le_log (by norm_num : 1 < 2) hx, Nat.cast_ofNat]
    exact h1
  have b : Int.log 2 x < e + 1 := by
    rw [← Int.lt_zpow_iff_log_lt (by norm_num : 1 < 2) hx, Nat.cast_ofNat]
    exact h2
  unfold binade
  rw [max_eq_left (by omega)]
  omega

theorem roundMagnitude_zero : roundMagnitude 0 = 0 := by
  unfold roundMagnitude
  rw [zero_div]
  have := roundHalfEven_intCast 0
  rw [Int.cast_zero] at this
  rw [this, Int.cast_zero, zero_mul]

theorem roundMagnitude_nonneg (x : ℚ) (hx : 0 ≤ x) : 0 ≤ roundMagnitude x := by
  unfold roundMagnitude
  have h : roundHalfEven ((0 : Int) : ℚ) ≤ roundHalfEven (x / ulp x) :=
    roundHalfEven_mono (by rw [Int.cast_zero]; exact div_nonneg hx (le_of_lt (ulp_pos x)))
  rw [roundHalfEven_intCast] at h
  exact mul_nonneg (by exact_mod_cast h) (le_of_lt (ulp_pos x))

theorem roundMagnitude_le_pow (x : ℚ) : roundMagnitude x ≤ 2 ^ (binade x + 1) := by
  unfold roundMagnitude
  have hu := ulp_pos x
  have e : (2 : ℚ) ^ (binade x + 1) = ((2 ^ 53 : Int) : ℚ) * ulp x := by
    unfold ulp
    have : binade x + 1 = (binade x - 52) + 53 := by ring
    rw [this, two_zpow_split]
    norm_num
  rw [e]
  refine mul_le_mul_of_nonneg_right ?_ (le_of_lt hu)
  have h : roundHalfEven (x / ulp x) ≤ roundHalfEven (((2 ^ 53 : Int) : ℚ)) := by
    refine roundHalfEven_mono ?_
    rw [div_le_iff₀ hu, ← e]
    exact le_of_lt (binade_lt x)
  rw [roundHalfEven_intCast] at h
  exact_mod_cast h

theorem pow_le_roundMagnitude (x : ℚ) (h : 2 ^ binade x ≤ x) :
    2 ^ binade x ≤ roundMagnitude x := by
  unfold roundMagnitude
  have hu := ulp_pos x
  have e : (2 : ℚ) ^ binade x = ((2 ^ 52 : Int) : ℚ) * ulp x := by
    unfold ulp
    have : binade x = (binade x - 52) + 52 := by ring
    nth_rewrite 1 [this]
    rw [two_zpow_split]
    norm_num
  rw [e]
  refine mul_le_mul_of_nonneg_right ?_ (le_of_lt hu)
  have h : roundHalfEven (((2 ^ 52 : Int) : ℚ)) ≤ roundHalfEven (x / ulp x) := by
    refine roundHalfEven_mono ?_
    rw [le_div_iff₀ hu, ← e]
    exact h
  rw [roundHalfEven_intCast] at h
  exact_mod_cast h

theorem roundMagnitude_mono {x y : ℚ} (hx : 0 ≤ x) (h : x ≤ y) :
    roundMagnitude x ≤ roundMagnitude y := by
  rcases eq_or_lt_of_le hx with h0 | hpos
  · rw [← h0, roundMagnitude_zero]
    exact roundMagnitude_nonneg y (le_trans hx h)
  · rcases lt_or_eq_of_le (binade_mono hpos h) with hlt | heq
    · have hy : 2 ^ binade y ≤ y := binade_le y (lt_of_lt_of_le hpos h) (by
        have : -1022 ≤ binade x := le_max_right _ _
        omega)
      calc roundMagnitude x ≤ 2 ^ (binade x + 1) := roundMagnitude_le_pow x
        _ ≤ 2 ^ binade y := zpow_le_zpow_right₀ (by norm_num) (by omega)
        _ ≤ roundMagnitude y := pow_le_roundMagnitude y hy
    · have hu : ulp x = ulp y := by unfold ulp; rw [heq]
      unfold roundMagnitude
      rw [hu]
      refine mul_le_mul_of_nonneg_right ?_ (le_of_lt (ulp_pos y))
      exact_mod_cast roundHalfEven_mono (div_le_div_of_nonneg_right h (le_of_lt (ulp_pos y)))

theorem roundToDouble_of_nonneg (x : ℚ) (hx : 0 ≤ x) : roundToDouble x = roundMagnitude x := by
  simp [roundToDouble, hx]

theorem roundToDouble_zero : roundToDouble 0 = 0 := by
  rw [roundToDouble_of_nonneg 0 le_rfl, roundMagnitude_zero]

theorem roundToDouble_neg (x : ℚ) : roundToDouble (-x) = -roundToDouble x := by
  rcases lt_trichotomy x 0 with h | h | h
  · have h1 : ¬ (0 : ℚ) ≤ x := not_le.mpr h
    have h2 : (0 : ℚ) ≤ -x := by linarith
    simp [roundToDouble, h1, h2]
  · rw [h, neg_zero, roundToDouble_zero, neg_zero]
  · have h1 : (0 : ℚ) ≤ x := le_of_lt h
    have h2 : ¬ (0 : ℚ) ≤ -x := by linarith
    simp [roundToDouble, h1, h2]

theorem roundToDouble_nonneg (x : ℚ) (hx : 0 ≤ x) : 0 ≤ roundToDouble x := by
  rw [roundToDouble_of_nonneg x hx]
  exact roundMagnitude_nonneg x hx

theorem roundToDouble_abs (x : ℚ) : |roundToDouble x| = roundToDouble |x| := by
  rcases le_total 0 x with h | h
  · rw [abs_of_nonneg h, abs_of_nonneg (roundToDouble_nonneg x h)]
  · have h2 : (0 : ℚ) ≤ -x := by linarith
    have e : roundToDouble x = -roundToDouble (-x) := by rw [roundToDouble_neg, neg_neg]
    rw [abs_of_nonpos h, e, abs_neg, abs_of_nonneg (roundToDouble_nonneg _ h2)]

theorem roundToDouble_mono {x y : ℚ} (h : x ≤ y) : roundToDouble x ≤ roundToDouble y := by
  rcases le_total 0 x with hx | hx
  · rw [roundToDouble_of_nonneg x hx, roundToDouble_of_nonneg y (le_trans hx h)]
    exact roundMagnitude_mono hx h
  · rcases le_total 0 y with hy | hy
    · have e : roundToDouble x = -roundToDouble (-x) := by rw [roundToDouble_neg, neg_neg]
      have := roundToDouble_nonneg (-x) (by linarith)
      have := roundToDouble_nonneg y hy
      linarith
    · have e1 : roundToDouble x = -roundToDouble (-x) := by rw [roundToDouble_neg, neg_neg]
      have e2 : roundToDouble y = -roundToDouble (-y) := by rw [roundToDouble_neg, neg_neg]
      rw [e1, e2, roundToDouble_of_nonneg (-x) (by linarith),
        roundToDouble_of_nonneg (-y) (by linarith)]
      have := roundMagnitude_mono (by linarith : (0 : ℚ) ≤ -y) (by linarith : -y ≤ -x)
      linarith

theorem roundMagnitude_eval (x : ℚ) (e n : Int) (he : -1022 ≤ e) (h1 : 2 ^ e ≤ x)
    (h2 : x < 2 ^ (e + 1)) (hr : roundHalfEven (x / 2 ^ (e - 52)) = n) :
    roundMagnitude x = n * 2 ^ (e - 52) := by
  unfold roundMagnitude ulp
  rw [binade_eq x e he h1 h2, hr]

theorem roundMagnitude_grid (n : Nat) (j : Int) (hn : n < 2 ^ 53) (hj : -1074 ≤ j) :
    roundMagnitude ((n : ℚ) * 2 ^ j) = n * 2 ^ j := by
  rcases Nat.eq_zero_or_pos n with h0 | hpos
  · rw [h0, Nat.cast_zero, zero_mul, roundMagnitude_zero]
  · have hx : 0 < (n : ℚ) * (2 : ℚ) ^ j :=
      mul_pos (by exact_mod_cast hpos) (zpow_pos (by norm_num) _)
    have hlt : (n : ℚ) * (2 : ℚ) ^ j < 2 ^ (j + 53) := by
      rw [two_zpow_split]
      refine mul_lt_mul_of_pos_right ?_ (zpow_pos (by norm_num) _)
      have : (n : ℚ) < ((2 ^ 53 : Nat) : ℚ) := by exact_mod_cast hn
      calc (n : ℚ) < ((2 ^ 53 : Nat) : ℚ) := this
        _ = 2 ^ (53 : Int) := by norm_num
    have hlog : Int.log 2 ((n : ℚ) * (2 : ℚ) ^ j) < j + 53 := by
      rw [← Int.lt_zpow_iff_log_lt (by norm_num : 1 < 2) hx, Nat.cast_ofNat]
      exact hlt
    have hb : binade ((n : ℚ) * (2 : ℚ) ^ j) ≤ j + 52 := by
      unfold binade
      exact max_le (by omega) (by omega)
    have hn : roundMagnitude ((n : ℚ) * (2 : ℚ) ^ j) =
        roundHalfEven ((n : ℚ) * (2 : ℚ) ^ j / 2 ^ (binade ((n : ℚ) * (2 : ℚ) ^ j) - 52)) *
          2 ^ (binade ((n : ℚ) * (2 : ℚ) ^ j) - 52) := rfl
    rw [hn]
    generalize binade ((n : ℚ) * (2 : ℚ) ^ j) = b at hb
    have hk : j = (b - 52) + ((j + 52 - b).toNat : Int) := by
      rw [Int.toNat_of_nonneg (by omega)]
      ring
    have e : (n : ℚ) * (2 : ℚ) ^ j / 2 ^ (b - 52) =
        (((n : Int) * 2 ^ (j + 52 - b).toNat : Int) : ℚ) := by
      rw [div_eq_iff (ne_of_gt (zpow_pos (by norm_num) _))]
      nth_rewrite 1 [hk]
      rw [zpow_add₀ (by norm_num : (2 : ℚ) ≠ 0), zpow_natCast]
      push_cast
      ring
    rw [e, roundHalfEven_intCast]
    nth_rewrite 2 [hk]
    rw [zpow_add₀ (by norm_num : (2 : ℚ) ≠ 0), zpow_natCast]
    push_cast
    ring

theorem roundToDouble_grid (n j : Int) (hn : n.natAbs < 2 ^ 53) (hj : -1074 ≤ j) :
    roundToDouble ((n : ℚ) * 2 ^ j) = n * 2 ^ j := by
  have key : ∀ m : Int, 0 ≤ m → m.natAbs < 2 ^ 53 →
      roundToDouble ((m : ℚ) * 2 ^ j) = m * 2 ^ j := by
    intro m hm hlt
    have e : (m : ℚ) = ((m.natAbs : Nat) : ℚ) := by
      rw [← Int.cast_natCast, Int.natAbs_of_nonneg hm]
    rw [roundToDouble_of_nonneg _ (mul_nonneg (by exact_mod_cast hm)
      (le_of_lt (zpow_pos (by norm_num) _))), e]
    exact roundMagnitude_grid _ j hlt hj
  rcases le_total 0 n with h | h
  · exact key n h hn
  · have h2 := key (-n) (by omega) (by rwa [Int.natAbs_neg])
    have e : (n : ℚ) * 2 ^ j = -(((-n : Int) : ℚ) * 2 ^ j) := by push_cast; ring
    rw [e, roundToDouble_neg, h2]

theorem roundToDouble_intCast (n : Int) (hn : n.natAbs < 2 ^ 53) :
    roundToDouble (n : ℚ) = n := by
  have h := roundToDouble_grid n 0 hn (by norm_num)
  rwa [zpow_zero, mul_one] at h

theorem roundToDouble_half (n : Int) (hn : n.natAbs < 2 ^ 52) :
    roundToDouble ((n : ℚ) + 1 / 2) = n + 1 / 2 := by
  have h := roundToDouble_grid (2 * n + 1) (-1) (by omega) (by norm_num)
  have e : (((2 * n + 1 : Int) : ℚ)) * 2 ^ (-1 : Int) = (n : ℚ) + 1 / 2 := by
    push_cast
    rw [zpow_neg_one]
    ring
  rwa [e] at h

theorem roundToDouble_eval (x : ℚ) (e n : Int) (he : -1022 ≤ e) (h1 : 2 ^ e ≤ x)
    (h2 : x < 2 ^ (e + 1)) (h3 : (n : ℚ) - 1 / 2 < x / 2 ^ (e - 52))
    (h4 : x / 2 ^ (e - 52) < n + 1 / 2) :
    roundToDouble x = n * 2 ^ (e - 52) := by
  have hx : 0 ≤ x := le_trans (le_of_lt (zpow_pos (by norm_num) _)) h1
  rw [roundToDouble_of_nonneg x hx]
  exact roundMagnitude_eval x e n he h1 h2 (roundHalfEven_of_near _ n h3 h4)

/-- The double that the literal `0.001` denotes. -/
theorem roundToDouble_milli :
    roundToDouble (1 / 1000) = 4611686018427388 / 2 ^ 62 := by
  have h := roundToDouble_eval (1 / 1000) (-10) 4611686018427388 (by norm_num)
    (by norm_num) (by norm_num) (by norm_num) (by norm_num)
  rw [h]
  norm_num

theorem lt_milli_of_rounded (d : ℚ) (h : |roundToDouble d| < roundToDouble (1 / 1000)) :
    |d| < 1 / 1000 := by
  by_contra hn
  have := roundToDouble_mono (not_lt.mp hn)
  rw [← roundToDouble_abs] at this
  exact absurd h (not_lt.mpr this)

theorem rounded_lt_milli (d : ℚ) (h : |d| ≤ 1 / 1000 - 2 / 10 ^ 19) :
    |roundToDouble d| < roundToDouble (1 / 1000) := by
  have g : roundToDouble (4611686018427387 / 2 ^ 62) = 4611686018427387 / 2 ^ 62 := by
    have := roundToDouble_grid 4611686018427387 (-62) (by decide) (by norm_num)
    rw [zpow_neg, zpow_ofNat, Int.cast_ofNat] at this
    exact this
  have hm : roundToDouble |d| ≤ roundToDouble (4611686018427387 / 2 ^ 62) :=
    roundToDouble_mono (le_trans h (by norm_num))
  rw [roundToDouble_abs, roundToDouble_milli]
  rw [g] at hm
  exact lt_of_le_of_lt hm (by norm_num)

theorem rounded_zero_lt_milli : |roundToDouble 0| < roundToDouble (1 / 1000) :=
  rounded_lt_milli 0 (by norm_num)

/-! ## Shared-memory transport -/

theorem ready_cases {m : SharedMemoryManager} (hr : m.Ready) :
    ∃ seg h b, m = ⟨seg, some h, some b, true⟩ := by
  obtain ⟨seg, hd, rb, rdy⟩ := m
  obtain ⟨h1, h2, h3⟩ := hr
  cases hd <;> cases rb <;> simp_all

theorem readyManager_eq :
    readyManager = ⟨true, some { SharedMemoryHeader.init with location_service_alive := true },
      some (fun _ => RingBufferEntry.zero), true⟩ := by
  simp [readyManager, SharedMemoryManager.initializeServerSized, SharedMemoryManager.fresh,
    sizeof_SharedMemoryHeader, sizeof_RingBufferEntry, sizeof_WorldState, sizeof_ContextFrame,
    RING_BUFFER_SIZE]

theorem readyManager_ready : readyManager.Ready := by
  rw [readyManager_eq]; decide

theorem readyManager_indexInRange : readyManager.IndexInRange := by
  rw [readyManager_eq]
  intro h hh
  simp only [Option.some.injEq] at hh
  subst hh
  simp [SharedMemoryHeader.init, RING_BUFFER_SIZE]

theorem latestIndex_next (w : Nat) (hw : w < RING_BUFFER_SIZE) :
    latestIndex (((w + 1) % 2 ^ 32) % RING_BUFFER_SIZE) = w := by
  unfold latestIndex RING_BUFFER_SIZE at *
  split_ifs with h0 <;> omega

theorem readLatestState_ready (seg : Bool) (h : SharedMemoryHeader)
    (b : Nat → RingBufferEntry) (s0 : WorldState) (c0 : ContextFrame) :
    readLatestState ⟨seg, some h, some b, true⟩ s0 c0 =
      (true, (b (latestIndex h.write_index)).state, (b (latestIndex h.write_index)).context) := by
  simp [readLatestState, SharedMemoryManager.isReady, SharedMemoryManager.getHeader,
    SharedMemoryManager.getRingBuffer, latestIndex]

theorem writeState_ready (seg : Bool) (h : SharedMemoryHeader)
    (b : Nat → RingBufferEntry) (s : WorldState) (c : ContextFrame) :
    writeState ⟨seg, some h, some b, true⟩ s c =
      ⟨seg,
        some { h with
          global_sequence := (h.global_sequence + 1) % 2 ^ 32,
          write_index := ((h.write_index + 1) % 2 ^ 32) % RING_BUFFER_SIZE,
          total_updates := (h.total_updates + 1) % 2 ^ 64 },
        some (Function.update b h.write_index ⟨h.global_sequence, s, c⟩), true⟩ := by
  simp [writeState, SharedMemoryManager.isReady, SharedMemoryManager.getHeader,
    SharedMemoryManager.getRingBuffer]

theorem writeState_keeps_ready (m : SharedMemoryManager) (s : WorldState) (c : ContextFrame)
    (hr : m.Ready) : (writeState m s c).Ready ∧ (writeState m s c).IndexInRange := by
  obtain ⟨seg, h, b, rfl⟩ := ready_cases hr
  rw [writeState_ready]
  refine ⟨by simp [SharedMemoryManager.Ready], ?_⟩
  intro h1 hh
  simp only [Option.some.injEq] at hh
  subst hh
  exact Nat.mod_lt _ (by decide)

theorem writeAll_keeps_ready (ps : List (WorldState × ContextFrame)) :
    ∀ m : SharedMemoryManager, m.Ready → m.IndexInRange →
      (writeAll m ps).Ready ∧ (writeAll m ps).IndexInRange := by
  induction ps with
  | nil => intro m hr hi; exact ⟨hr, hi⟩
  | cons p ps ih =>
    intro m hr hi
    have hk := writeState_keeps_ready m p.1 p.2 hr
    exact ih (writeState m p.1 p.2) hk.1 hk.2

theorem round_trip (m : SharedMemoryManager) (hr : m.Ready) (hi : m.IndexInRange)
    (s : WorldState) (c : ContextFrame) (s0 : WorldState) (c0 : ContextFrame) :
    readLatestState (writeState m s c) s0 c0 = (true, s, c) := by
  obtain ⟨seg, h, b, rfl⟩ := ready_cases hr
  have hw : h.write_index < RING_BUFFER_SIZE := hi h rfl
  rw [writeState_ready, readLatestState_ready]
  dsimp only
  rw [latestIndex_next _ hw]
  simp

/-- C1: on a ready segment whose `write_index` lies in [0, 1024), a
`writeState(s, c)` followed by `readLatestState` returns true with exactly
`(s, c)`; and after any sequence of `writeState` calls that ends with the call
for `(s, c)`, however long (the ring may wrap any number of times), the reader
returns `(s, c)`. -/
theorem writeState_readLatestState_round_trip (m : SharedMemoryManager)
    (hr : m.Ready) (hi : m.IndexInRange) :
    (∀ (s : WorldState) (c : ContextFrame) (s0 : WorldState) (c0 : ContextFrame),
      readLatestState (writeState m s c) s0 c0 = (true, s, c)) ∧
    (∀ (ps : List (WorldState × ContextFrame)) (s : WorldState) (c : ContextFrame)
        (s0 : WorldState) (c0 : ContextFrame),
      readLatestState (writeAll m (ps ++ [(s, c)])) s0 c0 = (true, s, c)) := by
  refine ⟨fun s c s0 c0 => round_trip m hr hi s c s0 c0, ?_⟩
  intro ps s c s0 c0
  have hk := writeAll_keeps_ready ps m hr hi
  have : writeAll m (ps ++ [(s, c)]) = writeState (writeAll m ps) s c := by
    simp [writeAll, List.foldl_append]
  rw [this]
  exact round_trip _ hk.1 hk.2 s c s0 c0

theorem writeState_readLatestState_round_trip_witness :
    readyManager.Ready ∧ readyManager.IndexInRange ∧
    readLatestState
        (writeState readyManager
          { WorldState.zero with
            smoothed_lat := 377749 / 10000, smoothed_lon := -1224194 / 10000,
            is_moving := true, step_count := 42 }
          { ContextFrame.zero with road_name := [77, 97, 105, 110, 32, 83, 116, 0] })
        WorldState.zero ContextFrame.zero =
      (true,
        { WorldState.zero with
            smoothed_lat := 377749 / 10000, smoothed_lon := -1224194 / 10000,
            is_moving := true, step_count := 42 },
        { ContextFrame.zero with road_name := [77, 97, 105, 110, 32, 83, 116, 0] }) :=
  ⟨readyManager_ready, readyManager_indexInRange,
    (writeState_readLatestState_round_trip readyManager readyManager_ready
      readyManager_indexInRange).1 _ _ _ _⟩

/-! ### Interleaved executions -/

theorem Genuine.mono {calls : List (WorldState × ContextFrame)} {p q : WorldState × ContextFrame}
    (h : Genuine calls p) : Genuine (q :: calls) p := by
  rcases h with h | h
  · exact Or.inl (List.mem_cons_of_mem _ h)
  · exact Or.inr h

theorem inv_init : System.init.Inv := by
  refine ⟨rfl, ?_, ?_, ?_, ?_, ?_⟩
  · intro h; exact absurd rfl h
  · intro h; cases h
  · intro j _; exact Or.inr rfl
  · intro i h; exact absurd rfl h
  · intro snap h; cases h

theorem inv_writeCall (sys : System) (h : sys.Inv) (s : WorldState) (c : ContextFrame) :
    (sys.step (Action.writeCall s c)).Inv := by
  obtain ⟨shm, ⟨pc, st, ctx, widx, nw⟩, rs, calls, ret⟩ := sys
  obtain ⟨h1, h2, h3, h4, h5, h6⟩ := h
  simp only [System.step]
  split_ifs with hpc
  swap
  · exact ⟨h1, h2, h3, h4, h5, h6⟩
  simp only at hpc
  subst hpc
  simp only [System.published] at h1 h5
  refine ⟨?_, ?_, ?_, ?_, ?_, ?_⟩
  · simp [System.published, WriterThread.enter, h1]
  · intro _
    simp only [WriterThread.enter, List.length_cons, RING_BUFFER_SIZE]
    refine ⟨by omega, ?_, ?_, List.mem_cons_self _ _⟩
    · simp [h1]
    · rw [h1]; omega
  · intro hh; simp [WriterThread.enter] at hh
  · intro j _
    exact Genuine.mono (h4 j (by intro hh; cases hh))
  · intro i hi
    obtain ⟨e, pub0, g1, g2, g3, g4, g5, g6, g7⟩ := h5 i hi
    refine ⟨e, pub0, Genuine.mono g1, ?_, g3, g4, ?_, g6, ?_⟩
    · simpa [System.published, WriterThread.enter] using g2
    · simp only [List.length_cons]; omega
    · intro hlt
      simp only [List.length_cons] at hlt
      exact g7 (by omega)
  · intro snap hs hlt
    exact Genuine.mono (h6 snap hs hlt)

theorem payload_setSlot_ne (shm : Segment) (i j : Nat) (entry : RingBufferEntry)
    (h : j ≠ i) : (shm.setSlot i entry).payload j = shm.payload j := by
  simp [Segment.setSlot, Segment.payload, Function.update_noteq h]

theorem payload_setSlot_same (shm : Segment) (i : Nat) (entry : RingBufferEntry) :
    (shm.setSlot i entry).payload i = (entry.state, entry.context) := by
  simp [Segment.setSlot, Segment.payload]

theorem inv_writerStep (sys : System) (h : sys.Inv) : (sys.step Action.writerStep).Inv := by
  obtain ⟨shm, ⟨pc, st, ctx, widx, nw⟩, rs, calls, ret⟩ := sys
  obtain ⟨h1, h2, h3, h4, h5, h6⟩ := h
  cases pc
  case idle => exact ⟨h1, h2, h3, h4, h5, h6⟩
  case store_sequence =>
    have hp : ∀ j, (shm.setSlot widx
        { shm.buffer widx with sequence := shm.header.global_sequence }).payload j =
        shm.payload j := by
      intro j
      by_cases hj : j = widx
      · subst hj; rw [payload_setSlot_same]; rfl
      · exact payload_setSlot_ne _ _ _ _ hj
    refine ⟨h1, fun _ => h2 (by intro hh; cases hh), ?_, ?_, ?_, h6⟩
    · intro hh; cases hh
    · intro j _
      simp only [System.step, WriterThread.step]
      rw [hp]
      exact h4 j (by intro hh; cases hh)
    · intro i hi
      obtain ⟨e, pub0, g1, g2, g3, g4, g5, g6, g7⟩ := h5 i hi
      refine ⟨e, pub0, g1, g2, g3, g4, g5, g6, ?_⟩
      intro hlt
      simp only [System.step, WriterThread.step]
      rw [hp]
      exact g7 hlt
  case copy_state =>
    obtain ⟨c1, c2, c3, c4⟩ := h2 (by intro hh; cases hh)
    simp only at c1 c2 c3 c4
    refine ⟨h1, fun _ => ⟨c1, c2, c3, c4⟩, ?_, ?_, ?_, h6⟩
    · intro _
      simp [System.step, WriterThread.step, Segment.setSlot]
    · intro j hj
      have hne : j ≠ widx := hj rfl
      simp only [System.step, WriterThread.step]
      rw [payload_setSlot_ne _ _ _ _ hne]
      exact h4 j (by intro hh; cases hh)
    · intro i hi
      obtain ⟨e, pub0, g1, g2, g3, g4, g5, g6, g7⟩ := h5 i hi
      refine ⟨e, pub0, g1, g2, g3, g4, g5, g6, ?_⟩
      intro hlt
      simp only [System.published] at g2 g3 g4 g5 g6 g7
      simp only [System.step, WriterThread.step] at hlt ⊢
      have hne : (rs i).read_idx ≠ widx := by rw [g6, c2]; omega
      rw [payload_setSlot_ne _ _ _ _ hne]
      exact g7 hlt
  case copy_context =>
    obtain ⟨c1, c2, c3, c4⟩ := h2 (by intro hh; cases hh)
    simp only at c1 c2 c3 c4
    have ht := h3 rfl
    simp only at ht
    refine ⟨h1, fun _ => ⟨c1, c2, c3, c4⟩, ?_, ?_, ?_, h6⟩
    · intro hh; cases hh
    · intro j _
      simp only [System.step, WriterThread.step]
      by_cases hj : j = widx
      · subst hj
        rw [payload_setSlot_same]
        simp only [ht]
        exact Or.inl c4
      · rw [payload_setSlot_ne _ _ _ _ hj]
        exact h4 j (fun _ => hj)
    · intro i hi
      obtain ⟨e, pub0, g1, g2, g3, g4, g5, g6, g7⟩ := h5 i hi
      refine ⟨e, pub0, g1, g2, g3, g4, g5, g6, ?_⟩
      intro hlt
      simp only [System.published] at g2 g3 g4 g5 g6 g7
      simp only [System.step, WriterThread.step] at hlt ⊢
      have hne : (rs i).read_idx ≠ widx := by rw [g6, c2]; omega
      rw [payload_setSlot_ne _ _ _ _ hne]
      exact g7 hlt
  case add_global_sequence =>
    refine ⟨h1, fun _ => h2 (by intro hh; cases hh), ?_, ?_, h5, h6⟩
    · intro hh; cases hh
    · intro j _
      exact h4 j (by intro hh; cases hh)
  case store_write_index =>
    obtain ⟨c1, c2, c3, c4⟩ := h2 (by intro hh; cases hh)
    simp only at c1 c2 c3 c4
    refine ⟨?_, ?_, ?_, ?_, ?_, h6⟩
    · simp [System.step, WriterThread.step, System.published, c3]
    · intro _; exact ⟨c1, c2, c3, c4⟩
    · intro hh; cases hh
    · intro j _
      exact h4 j (by intro hh; cases hh)
    · intro i hi
      obtain ⟨e, pub0, g1, g2, g3, g4, g5, g6, g7⟩ := h5 i hi
      refine ⟨e, pub0, g1, ?_, g3, g4, g5, g6, g7⟩
      simp only [System.published] at g2
      simp only [System.step, WriterThread.step, System.published]
      omega
  case add_total_updates =>
    refine ⟨h1, ?_, ?_, ?_, h5, h6⟩
    · intro hh; exact absurd rfl hh
    · intro hh; cases hh
    · intro j _
      exact h4 j (by intro hh; cases hh)

theorem latestIndex_of_published (n : Nat) :
    latestIndex (n % 1024) = (n + 1023) % 1024 := by
  unfold latestIndex RING_BUFFER_SIZE
  split_ifs with h0 <;> omega

theorem published_bounds (sys : System) (h : sys.Inv) :
    sys.published ≤ sys.calls.length ∧ sys.calls.length ≤ sys.published + 1 ∧
    (sys.writer.pc = WriterPc.copy_context →
      sys.writer.write_idx = sys.published % 1024) := by
  obtain ⟨shm, ⟨pc, st, ctx, widx, nw⟩, rs, calls, ret⟩ := sys
  have h2 := h.inCall
  cases pc
  case copy_context =>
    have h3 := h2 (by intro hh; cases hh)
    simp only [System.published] at h3 ⊢
    exact ⟨by omega, by omega, fun _ => h3.2.1⟩
  all_goals
    simp only [System.published]
    exact ⟨by omega, by omega, fun hh => by cases hh⟩

theorem inv_readerStep (sys : System) (h : sys.Inv) (i : Nat) :
    (sys.step (Action.readerStep i)).Inv := by
  have hb := published_bounds sys h
  obtain ⟨h1, h2, h3, h4, h5, h6⟩ := h
  obtain ⟨shm, w, rs, calls, ret⟩ := sys
  simp only [System.step, System.readerStep]
  have hother : ∀ (r : ReaderThread) (k : Nat), k ≠ i →
      (Function.update rs i r k) = rs k := fun r k hk => Function.update_noteq hk _ _
  cases hpc : (rs i).pc
  case idle =>
    simp only [System.setReader]
    refine ⟨h1, h2, h3, h4, ?_, h6⟩
    intro k hk
    by_cases hki : k = i
    · subst hki
      simp only [Function.update_same] at hk ⊢
      simp only at h1
      refine ⟨shm.payload (latestIndex shm.header.write_index), _, ?_, le_refl _,
        hb.1, hb.2.1, le_refl _, ?_, ?_⟩
      · apply h4
        intro hcc
        have := hb.2.2 hcc
        simp only at this
        rw [this, h1, latestIndex_of_published]
        omega
      · rw [h1]; exact latestIndex_of_published _
      · intro _
        exact ⟨rfl, fun hh => by cases hh⟩
    · simp only [hother _ k hki] at hk ⊢
      exact h5 k hk
  case copy_state =>
    simp only [System.setReader]
    refine ⟨h1, h2, h3, h4, ?_, h6⟩
    intro k hk
    by_cases hki : k = i
    · subst hki
      simp only [Function.update_same] at hk ⊢
      obtain ⟨e, pub0, g1, g2, g3, g4, g5, g6, g7⟩ := h5 k (by rw [hpc]; intro hh; cases hh)
      refine ⟨e, pub0, g1, g2, g3, g4, g5, g6, ?_⟩
      intro hlt
      obtain ⟨g8, _⟩ := g7 hlt
      refine ⟨g8, fun _ => ?_⟩
      rw [← g8]
      rfl
    · simp only [hother _ k hki] at hk ⊢
      exact h5 k hk
  case copy_context =>
    simp only [System.setReader]
    refine ⟨h1, h2, h3, h4, ?_, ?_⟩
    · intro k hk
      by_cases hki : k = i
      · subst hki
        simp only [Function.update_same] at hk
        exact absurd rfl hk
      · simp only [hother _ k hki] at hk ⊢
        exact h5 k hk
    · intro snap hs hlt
      rcases List.mem_cons.mp hs with rfl | hs
      · obtain ⟨e, pub0, g1, g2, g3, g4, g5, g6, g7⟩ := h5 i (by rw [hpc]; intro hh; cases hh)
        obtain ⟨g8, g9⟩ := g7 hlt
        have g10 := g9 hpc
        simp only at g8 g10 ⊢
        have : ((rs i).state, (shm.buffer (rs i).read_idx).context) = e := by
          rw [g10, ← g8]
          rfl
        rw [this]
        exact g1
      · exact h6 snap hs hlt

theorem inv_step (sys : System) (h : sys.Inv) (a : Action) : (sys.step a).Inv := by
  cases a with
  | writeCall s c => exact inv_writeCall sys h s c
  | writerStep => exact inv_writerStep sys h
  | readerStep i => exact inv_readerStep sys h i

theorem inv_run (schedule : List Action) :
    ∀ sys : System, sys.Inv → (sys.run schedule).Inv := by
  induction schedule with
  | nil => intro sys h; exact h
  | cons a rest ih => intro sys h; exact ih (sys.step a) (inv_step sys h a)

theorem run_append (sys : System) (l1 l2 : List Action) :
    sys.run (l1 ++ l2) = (sys.run l1).run l2 := by
  simp [System.run, List.foldl_append]

theorem run_fullWrite (shm : Segment) (w : WriterThread) (rs : Nat → ReaderThread)
    (calls : List (WorldState × ContextFrame)) (ret : List Snapshot)
    (hidle : w.pc = WriterPc.idle) (s : WorldState) (c : ContextFrame) :
    System.run ⟨shm, w, rs, calls, ret⟩ (fullWrite s c) =
      ⟨⟨{ shm.header with
            global_sequence := (shm.header.global_sequence + 1) % 2 ^ 32,
            write_index := ((shm.header.write_index + 1) % 2 ^ 32) % RING_BUFFER_SIZE,
            total_updates := (shm.header.total_updates + 1) % 2 ^ 64 },
         Function.update shm.buffer shm.header.write_index
           ⟨shm.header.global_sequence, s, c⟩⟩,
       ⟨WriterPc.idle, s, c, shm.header.write_index,
         ((shm.header.write_index + 1) % 2 ^ 32) % RING_BUFFER_SIZE⟩,
       rs, (s, c) :: calls, ret⟩ := by
  obtain ⟨pc, st, ctx, widx, nw⟩ := w
  simp only at hidle
  subst hidle
  simp [System.run, fullWrite, List.replicate, System.step, WriterThread.step,
    WriterThread.enter, Segment.setSlot]

theorem fullWrite_writeState (sys : System) (hidle : sys.writer.pc = WriterPc.idle)
    (s : WorldState) (c : ContextFrame) :
    writeState ⟨true, some sys.shm.header, some sys.shm.buffer, true⟩ s c =
      ⟨true, some (sys.run (fullWrite s c)).shm.header,
        some (sys.run (fullWrite s c)).shm.buffer, true⟩ := by
  obtain ⟨shm, w, rs, calls, ret⟩ := sys
  rw [run_fullWrite shm w rs calls ret hidle, writeState_ready]

theorem fullRead_readLatestState (sys : System) (i : Nat)
    (hidle : (sys.readers i).pc = ReaderPc.idle) :
    ∃ snap : Snapshot,
      (sys.run (fullRead i)).returned = snap :: sys.returned ∧
      (true, snap.state, snap.context) =
        readLatestState ⟨true, some sys.shm.header, some sys.shm.buffer, true⟩
          (sys.readers i).state (sys.readers i).context := by
  obtain ⟨shm, w, rs, calls, ret⟩ := sys
  simp only at hidle
  rw [readLatestState_ready]
  simp [System.run, fullRead, List.replicate, System.step, System.readerStep,
    System.setReader, hidle]

theorem run_fullWrites (s : WorldState) (c : ContextFrame) (n : Nat) :
    ∀ sys : System, sys.writer.pc = WriterPc.idle → sys.shm.header.write_index < 1024 →
      (sys.run (List.replicate n (fullWrite s c)).flatten).writer.pc = WriterPc.idle ∧
      (sys.run (List.replicate n (fullWrite s c)).flatten).shm.header.write_index =
        (sys.shm.header.write_index + n) % 1024 ∧
      (sys.run (List.replicate n (fullWrite s c)).flatten).readers = sys.readers ∧
      (sys.run (List.replicate n (fullWrite s c)).flatten).returned = sys.returned ∧
      (sys.run (List.replicate n (fullWrite s c)).flatten).calls =
        List.replicate n (s, c) ++ sys.calls ∧
      (∀ j, sys.shm.payload j = (s, c) →
        (sys.run (List.replicate n (fullWrite s c)).flatten).shm.payload j = (s, c)) := by
  induction n with
  | zero =>
    intro sys hidle hw
    simp only [List.replicate_zero, List.flatten_nil, Nat.add_zero, List.nil_append]
    exact ⟨hidle, (Nat.mod_eq_of_lt hw).symm, rfl, rfl, rfl, fun j hj => hj⟩
  | succ n ih =>
    intro sys hidle hw
    rw [List.replicate_succ, List.flatten_cons, run_append]
    obtain ⟨shm, w, rs, calls, ret⟩ := sys
    simp only at hidle hw
    have h1 := run_fullWrite shm w rs calls ret hidle s c
    generalize System.run ⟨shm, w, rs, calls, ret⟩ (fullWrite s c) = sys1 at h1 ⊢
    have e1 : sys1.writer.pc = WriterPc.idle := by rw [h1]
    have e2 : sys1.shm.header.write_index =
        ((shm.header.write_index + 1) % 2 ^ 32) % RING_BUFFER_SIZE := by rw [h1]
    have e3 : sys1.readers = rs := by rw [h1]
    have e4 : sys1.returned = ret := by rw [h1]
    have e5 : sys1.calls = (s, c) :: calls := by rw [h1]
    have e6 : ∀ j, shm.payload j = (s, c) → sys1.shm.payload j = (s, c) := by
      intro j hj
      rw [h1]
      simp only [Segment.payload] at hj ⊢
      by_cases hjw : j = shm.header.write_index
      · subst hjw; simp
      · simp only [Function.update_noteq hjw]; exact hj
    have hnext : sys1.shm.header.write_index < 1024 := by
      rw [e2]; exact Nat.mod_lt _ (by decide)
    obtain ⟨i1, i2, i3, i4, i5, i6⟩ := ih sys1 e1 hnext
    refine ⟨i1, ?_, i3.trans e3, i4.trans e4, ?_, fun j hj => i6 j (e6 j hj)⟩
    · rw [i2, e2]
      simp only [RING_BUFFER_SIZE]
      omega
    · rw [i5, e5]
      simp [List.replicate_succ', List.append_assoc]

/-- C2 (counterexample): on `tornSchedule` reader 0 is overtaken by one lap of
the ring and returns the state of the `payloadB` call together with the context
of a `payloadA` call, a pair that no `writeState` call was given (and that is
not the never-written content either); and on a fresh segment a reader that
runs before any `writeState` returns true with the all-zero slot 1023 although
no call was made. -/
theorem torn_snapshot :
    (System.init.run tornSchedule).returned = [⟨0, payloadB.1, payloadA.2, 1024⟩] ∧
    (System.init.run tornSchedule).calls = payloadB :: List.replicate 1024 payloadA ∧
    (payloadB.1, payloadA.2) ∉ (System.init.run tornSchedule).calls ∧
    (payloadB.1, payloadA.2) ≠ (WorldState.zero, ContextFrame.zero) ∧
    (System.init.run (fullRead 0)).returned =
      [⟨0, WorldState.zero, ContextFrame.zero, 0⟩] ∧
    (System.init.run (fullRead 0)).calls = [] := by
  have hne1 : (payloadB.1, payloadA.2) ≠ payloadA := fun h =>
    absurd (congrArg (fun p : WorldState × ContextFrame => p.1.step_count) h) (by decide)
  have hne2 : (payloadB.1, payloadA.2) ≠ payloadB := fun h =>
    absurd (congrArg (fun p : WorldState × ContextFrame => p.2.road_name) h) (by decide)
  have hne3 : (payloadB.1, payloadA.2) ≠ (WorldState.zero, ContextFrame.zero) := fun h =>
    absurd (congrArg (fun p : WorldState × ContextFrame => p.1.step_count) h) (by decide)
  have hcalls : (System.init.run tornSchedule).returned =
        [⟨0, payloadB.1, payloadA.2, 1024⟩] ∧
      (System.init.run tornSchedule).calls = payloadB :: List.replicate 1024 payloadA := by
    unfold tornSchedule
    rw [run_append, run_append, run_append, run_append]
    generalize hs2 :
      (System.init.run (fullWrite payloadA.1 payloadA.2)).run [Action.readerStep 0] = sys2
    have f1 : sys2.writer.pc = WriterPc.idle := by rw [← hs2]; rfl
    have f2 : sys2.shm.header.write_index = 1 := by rw [← hs2]; rfl
    have f3 : sys2.shm.payload 0 = (payloadA.1, payloadA.2) := by rw [← hs2]; rfl
    have f4 : sys2.readers 0 =
        ⟨ReaderPc.copy_state, 0, WorldState.zero, ContextFrame.zero, 1⟩ := by
      rw [← hs2]; rfl
    have f5 : sys2.returned = [] := by rw [← hs2]; rfl
    have f6 : sys2.calls = [payloadA] := by rw [← hs2]; rfl
    clear hs2
    obtain ⟨i1, i2, i3, i4, i5, i6⟩ :=
      run_fullWrites payloadA.1 payloadA.2 1023 sys2 f1 (by rw [f2]; decide)
    generalize System.run sys2 (List.replicate 1023 (fullWrite payloadA.1 payloadA.2)).flatten
      = sys3 at i1 i2 i3 i4 i5 i6 ⊢
    have g3 := i6 0 f3
    rw [f2] at i2
    rw [f5] at i4
    rw [f6] at i5
    have g4 : sys3.readers 0 =
        ⟨ReaderPc.copy_state, 0, WorldState.zero, ContextFrame.zero, 1⟩ := by
      rw [i3]; exact f4
    clear f1 f2 f3 f4 f5 f6 i3 i6
    obtain ⟨shm, ⟨pc, st, ctx, widx, nw⟩, rs, calls, ret⟩ := sys3
    simp only at i1 i2 i4 i5 g3 g4
    subst i1 i4 i5
    simp only [Segment.payload, Prod.mk.injEq] at g3
    simp only [System.run, List.foldl, System.step, System.readerStep, System.setReader,
      WriterThread.step, WriterThread.enter, Segment.setSlot, i2, g4, if_true,
      Function.update_same]
    have h0 : (1 + 1023) % 1024 = 0 := rfl
    have hA : (payloadA.1, payloadA.2) = payloadA := rfl
    have hB : (payloadB.1, payloadB.2) = payloadB := rfl
    have hrep : List.replicate 1023 payloadA ++ [payloadA] = List.replicate 1024 payloadA :=
      (List.replicate_succ' (n := 1023) (a := payloadA)).symm
    rw [h0, g3.2, hA, hB, hrep]
    refine ⟨?_, rfl⟩
    rw [List.length_cons, List.length_replicate]
  refine ⟨hcalls.1, hcalls.2, ?_, hne3, rfl, rfl⟩
  · rw [hcalls.2]
    intro hmem
    rcases List.mem_cons.mp hmem with h | h
    · exact hne2 h
    · exact hne1 (List.eq_of_mem_replicate h)

/-- C2 (amended): in every interleaving of one writer executing `writeState`
and any number of readers executing `readLatestState` on a freshly initialised
segment, a pair that a reader returns is the pair given to one single
`writeState` call, or the all-zero content of a never-written slot, provided
fewer than 1023 `writeState` calls were started between that reader's load of
`write_index` and its return. -/
theorem unlapped_snapshot_is_genuine (schedule : List Action) (snap : Snapshot)
    (hmem : snap ∈ (System.init.run schedule).returned)
    (hlap : snap.callsDuring < 1023) :
    (snap.state, snap.context) ∈ (System.init.run schedule).calls ∨
      (snap.state, snap.context) = (WorldState.zero, ContextFrame.zero) :=
  (inv_run schedule System.init inv_init).returned snap hmem hlap

theorem unlapped_snapshot_is_genuine_witness :
    (⟨0, payloadA.1, payloadA.2, 0⟩ : Snapshot) ∈
      (System.init.run (fullWrite payloadA.1 payloadA.2 ++ fullRead 0)).returned ∧
    (⟨0, payloadA.1, payloadA.2, 0⟩ : Snapshot).callsDuring < 1023 ∧
    ((payloadA.1, payloadA.2) ∈
        (System.init.run (fullWrite payloadA.1 payloadA.2 ++ fullRead 0)).calls ∨
      (payloadA.1, payloadA.2) = (WorldState.zero, ContextFrame.zero)) :=
  have hmem : (⟨0, payloadA.1, payloadA.2, 0⟩ : Snapshot) ∈
      (System.init.run (fullWrite payloadA.1 payloadA.2 ++ fullRead 0)).returned :=
    List.mem_singleton.mpr rfl
  ⟨hmem, by decide,
    unlapped_snapshot_is_genuine (fullWrite payloadA.1 payloadA.2 ++ fullRead 0)
      ⟨0, payloadA.1, payloadA.2, 0⟩ hmem (by decide)⟩

/-! ### Sequence counters, liveness, sizes -/

/-- C3 (counterexample): two `writeState` calls on a freshly initialised
segment.  Slot 1 holds sequence 0 before the second call and 1 after it: the
counter of the written slot ends odd and is 1 higher, not 2 higher and even. -/
theorem writeState_sequence_not_plus_two :
    (writeState readyManager WorldState.zero ContextFrame.zero).slot 1 =
      some ⟨0, WorldState.zero, ContextFrame.zero⟩ ∧
    (writeState (writeState readyManager WorldState.zero ContextFrame.zero)
        WorldState.zero ContextFrame.zero).slot 1 =
      some ⟨1, WorldState.zero, ContextFrame.zero⟩ := by
  rw [readyManager_eq, writeState_ready, writeState_ready]
  simp [SharedMemoryManager.slot, SharedMemoryHeader.init, RING_BUFFER_SIZE,
    Function.update, RingBufferEntry.zero]

/-- C3 (amended): on a ready manager `writeState` stores the header's
`global_sequence`, as it was before the call, into the sequence counter of the
slot at `write_index`, together with the payload; it leaves every other slot
alone and raises `global_sequence` by one modulo 2^32.  The old value of the
slot's counter plays no role. -/
theorem writeState_stores_global_sequence (m : SharedMemoryManager) (hr : m.Ready)
    (s : WorldState) (c : ContextFrame) :
    ∃ h : SharedMemoryHeader, m.header_ = some h ∧
      (writeState m s c).slot h.write_index = some ⟨h.global_sequence, s, c⟩ ∧
      (∀ i, i ≠ h.write_index → (writeState m s c).slot i = m.slot i) ∧
      (writeState m s c).globalSequence = some ((h.global_sequence + 1) % 2 ^ 32) := by
  obtain ⟨seg, h, b, rfl⟩ := ready_cases hr
  refine ⟨h, rfl, ?_⟩
  rw [writeState_ready]
  refine ⟨by simp [SharedMemoryManager.slot], ?_, by simp [SharedMemoryManager.globalSequence]⟩
  intro i hi
  simp [SharedMemoryManager.slot, Function.update_noteq hi]

theorem writeState_stores_global_sequence_witness :
    readyManager.Ready ∧
    ∃ h : SharedMemoryHeader, readyManager.header_ = some h ∧
      (writeState readyManager WorldState.zero ContextFrame.zero).slot h.write_index =
        some ⟨h.global_sequence, WorldState.zero, ContextFrame.zero⟩ ∧
      (∀ i, i ≠ h.write_index →
        (writeState readyManager WorldState.zero ContextFrame.zero).slot i =
          readyManager.slot i) ∧
      (writeState readyManager WorldState.zero ContextFrame.zero).globalSequence =
        some ((h.global_sequence + 1) % 2 ^ 32) :=
  ⟨readyManager_ready,
    writeState_stores_global_sequence readyManager readyManager_ready
      WorldState.zero ContextFrame.zero⟩

/-- C4 (counterexample): after two `writeState` calls on a freshly initialised
segment the latest slot (slot 1) carries the odd sequence counter 1, and
`readLatestState` still returns true and hands out the slot's payload. -/
theorem readLatestState_returns_odd_slot :
    (writeAll readyManager
        [(WorldState.zero, ContextFrame.zero),
         ({ WorldState.zero with step_count := 42 }, ContextFrame.zero)]).slot 1 =
      some ⟨1, { WorldState.zero with step_count := 42 }, ContextFrame.zero⟩ ∧
    readLatestState
        (writeAll readyManager
          [(WorldState.zero, ContextFrame.zero),
           ({ WorldState.zero with step_count := 42 }, ContextFrame.zero)])
        WorldState.zero ContextFrame.zero =
      (true, { WorldState.zero with step_count := 42 }, ContextFrame.zero) := by
  simp only [writeAll, List.foldl]
  rw [readyManager_eq, writeState_ready, writeState_ready, readLatestState_ready]
  simp [SharedMemoryManager.slot, SharedMemoryHeader.init, RING_BUFFER_SIZE,
    Function.update, latestIndex]

/-- C4 (amended): `readLatestState` never looks at a sequence counter.  It
returns true exactly when the manager is ready with both pointers non-null,
and then hands back the state and the context of slot (write_index - 1) mod
1024, slot 1023 when `write_index` is 0, whatever the counter of that slot;
its whole result stays the same when the sequence counters of the ring are
replaced by arbitrary values.  When it returns false the two output arguments
are handed back unchanged. -/
theorem readLatestState_ignores_sequence (m : SharedMemoryManager)
    (s0 : WorldState) (c0 : ContextFrame) :
    ((readLatestState m s0 c0).1 = true ↔ m.Ready) ∧
    ((readLatestState m s0 c0).1 = false → readLatestState m s0 c0 = (false, s0, c0)) ∧
    (∀ h b, m.Ready → m.header_ = some h → m.ring_buffer_ = some b → h.write_index < 2 ^ 32 →
      readLatestState m s0 c0 =
        (true,
          (b (if h.write_index = 0 then 1023 else (h.write_index - 1) % 1024)).state,
          (b (if h.write_index = 0 then 1023 else (h.write_index - 1) % 1024)).context)) ∧
    (∀ f : Nat → Nat,
      readLatestState
          { m with ring_buffer_ :=
              m.ring_buffer_.map (fun buffer i => { buffer i with sequence := f i }) }
          s0 c0 =
        readLatestState m s0 c0) := by
  refine ⟨?_, ?_, ?_, ?_⟩
  · obtain ⟨seg, hd, rb, rdy⟩ := m
    cases hd <;> cases rb <;> cases rdy <;>
      simp [readLatestState, SharedMemoryManager.isReady, SharedMemoryManager.getHeader,
        SharedMemoryManager.getRingBuffer, SharedMemoryManager.Ready]
  · obtain ⟨seg, hd, rb, rdy⟩ := m
    cases hd <;> cases rb <;> cases rdy <;>
      simp [readLatestState, SharedMemoryManager.isReady, SharedMemoryManager.getHeader,
        SharedMemoryManager.getRingBuffer, SharedMemoryManager.Ready]
  · intro h b hr e1 e2 hw
    obtain ⟨seg, h1, b1, rfl⟩ := ready_cases hr
    cases e1
    cases e2
    rw [readLatestState_ready]
    have e : latestIndex h.write_index =
        if h.write_index = 0 then 1023 else (h.write_index - 1) % 1024 := by
      unfold latestIndex RING_BUFFER_SIZE
      split_ifs <;> omega
    rw [e]
  · obtain ⟨seg, hd, rb, rdy⟩ := m
    cases hd <;> cases rb <;> cases rdy <;>
      simp [readLatestState, SharedMemoryManager.isReady, SharedMemoryManager.getHeader,
        SharedMemoryManager.getRingBuffer, SharedMemoryManager.Ready]

theorem readLatestState_ignores_sequence_witness :
    oddSlotManager.Ready ∧
    oddSlotManager.slot 4 =
      some ⟨7, { WorldState.zero with step_count := 42 }, ContextFrame.zero⟩ ∧
    readLatestState oddSlotManager WorldState.zero ContextFrame.zero =
      (true, { WorldState.zero with step_count := 42 }, ContextFrame.zero) ∧
    readLatestState SharedMemoryManager.fresh { WorldState.zero with step_count := 7 }
        ContextFrame.zero =
      (false, { WorldState.zero with step_count := 7 }, ContextFrame.zero) :=
  ⟨by decide, rfl,
    ((readLatestState_ignores_sequence oddSlotManager WorldState.zero ContextFrame.zero).2.2.1
      _ _ (by decide) rfl rfl (by decide)).trans rfl,
    (readLatestState_ignores_sequence SharedMemoryManager.fresh
      { WorldState.zero with step_count := 7 } ContextFrame.zero).2.1 rfl⟩

/-- C5 (counterexample): with `global_sequence` = 2^32 - 2 before two
consecutive publications, the counter reads 2^32 - 1 after the first and 0
after the second, which is not greater. -/
theorem global_sequence_wraps :
    (writeState
        { readyManager with
          header_ := some { SharedMemoryHeader.init with global_sequence := 4294967294 } }
        WorldState.zero ContextFrame.zero).globalSequence = some 4294967295 ∧
    (writeState
        (writeState
          { readyManager with
            header_ := some { SharedMemoryHeader.init with global_sequence := 4294967294 } }
          WorldState.zero ContextFrame.zero)
        WorldState.zero ContextFrame.zero).globalSequence = some 0 := by
  rw [readyManager_eq, writeState_ready, writeState_ready]
  simp [SharedMemoryManager.globalSequence, SharedMemoryHeader.init]

/-- C5 (amended): for two consecutive publications on a ready manager the
counter after the second is the counter after the first plus one modulo 2^32;
it is strictly greater exactly when the counter after the first is not
2^32 - 1 (in which case the second publication wraps it to 0). -/
theorem global_sequence_consecutive (m : SharedMemoryManager) (hr : m.Ready)
    (s1 : WorldState) (c1 : ContextFrame) (s2 : WorldState) (c2 : ContextFrame) :
    ∃ g1 g2 : Nat,
      (writeState m s1 c1).globalSequence = some g1 ∧
      (writeState (writeState m s1 c1) s2 c2).globalSequence = some g2 ∧
      g2 = (g1 + 1) % 2 ^ 32 ∧
      (g1 < g2 ↔ g1 ≠ 2 ^ 32 - 1) := by
  obtain ⟨seg, h, b, rfl⟩ := ready_cases hr
  rw [writeState_ready, writeState_ready]
  refine ⟨_, _, rfl, rfl, rfl, ?_⟩
  dsimp only
  omega

theorem global_sequence_consecutive_witness :
    readyManager.Ready ∧
    ∃ g1 g2 : Nat,
      (writeState readyManager WorldState.zero ContextFrame.zero).globalSequence = some g1 ∧
      (writeState (writeState readyManager WorldState.zero ContextFrame.zero)
        WorldState.zero ContextFrame.zero).globalSequence = some g2 ∧
      g2 = (g1 + 1) % 2 ^ 32 ∧
      (g1 < g2 ↔ g1 ≠ 2 ^ 32 - 1) :=
  ⟨readyManager_ready,
    global_sequence_consecutive readyManager readyManager_ready
      WorldState.zero ContextFrame.zero WorldState.zero ContextFrame.zero⟩

theorem initializeServer_fails (m : SharedMemoryManager) :
    (m.initializeServerSized SHARED_MEMORY_SIZE).1 = false := by
  simp [SharedMemoryManager.initializeServerSized,
    sizeof_SharedMemoryHeader, sizeof_RingBufferEntry, sizeof_WorldState, sizeof_ContextFrame,
    RING_BUFFER_SIZE, SHARED_MEMORY_SIZE]

/-- C6 (the code at the failing input): by the declared field widths the
header and the ring of 1024 entries need 2,040,933 bytes, more than the
1,048,576 bytes of `SHARED_MEMORY_SIZE`; so the construction of the ring fails
and `initializeServer` returns false whatever the manager was, leaving the ring
pointer as it was. -/
theorem initializeServer_segment_too_small :
    sizeof_SharedMemoryHeader + RING_BUFFER_SIZE * sizeof_RingBufferEntry = 2040933 ∧
    SHARED_MEMORY_SIZE = 1048576 ∧
    SHARED_MEMORY_SIZE < sizeof_SharedMemoryHeader + RING_BUFFER_SIZE * sizeof_RingBufferEntry ∧
    ∀ m : SharedMemoryManager,
      m.initializeServer.1 = false ∧
      m.initializeServer.2.ring_buffer_ = m.ring_buffer_ ∧
      m.initializeServer.2.is_ready_ = m.is_ready_ := by
  refine ⟨by decide, by decide, by decide, ?_⟩
  intro m
  simp [SharedMemoryManager.initializeServer, SharedMemoryManager.initializeServerSized,
    sizeof_SharedMemoryHeader, sizeof_RingBufferEntry, sizeof_WorldState, sizeof_ContextFrame,
    RING_BUFFER_SIZE, SHARED_MEMORY_SIZE]

/-- C7 (the code at the failing input): whenever `initializeServer` succeeds
(here on a 4 MiB segment) the alive flag already reads true right after it,
before any `signalAlive`; with the segment size of the source the call fails,
the flag of the constructed header reads false, and `signalAlive` leaves it
false because the manager is not ready. -/
theorem initializeServer_alive_flag :
    (SharedMemoryManager.fresh.initializeServerSized (4 * 1024 * 1024)).1 = true ∧
    (SharedMemoryManager.fresh.initializeServerSized (4 * 1024 * 1024)).2.aliveFlag =
      some true ∧
    SharedMemoryManager.fresh.initializeServer.1 = false ∧
    SharedMemoryManager.fresh.initializeServer.2.aliveFlag = some false ∧
    (signalAlive SharedMemoryManager.fresh.initializeServer.2).aliveFlag = some false := by
  simp [SharedMemoryManager.initializeServer, SharedMemoryManager.initializeServerSized,
    SharedMemoryManager.fresh, SharedMemoryManager.aliveFlag, signalAlive,
    SharedMemoryManager.isReady, SharedMemoryHeader.init,
    sizeof_SharedMemoryHeader, sizeof_RingBufferEntry, sizeof_WorldState, sizeof_ContextFrame,
    RING_BUFFER_SIZE, SHARED_MEMORY_SIZE]

/-- C8: after `cleanup()` the manager is not ready; `readLatestState` returns
false and hands its two output arguments back untouched,
`isLocationServiceAlive` returns false, and `writeState`, `updateLocation` and
`signalAlive` return the manager unchanged.  A later `initializeServer` or
`connectClient` that fails leaves the manager not ready. -/
theorem cleanup_degrades (m : SharedMemoryManager) :
    m.cleanup.isReady = false ∧
    (∀ (s0 : WorldState) (c0 : ContextFrame),
      readLatestState m.cleanup s0 c0 = (false, s0, c0)) ∧
    isLocationServiceAlive m.cleanup = false ∧
    (∀ (s : WorldState) (c : ContextFrame), writeState m.cleanup s c = m.cleanup) ∧
    (∀ (lat lon alt : ℚ) (timestamp : Int),
      updateLocation m.cleanup lat lon alt timestamp = m.cleanup) ∧
    signalAlive m.cleanup = m.cleanup ∧
    (∀ segment_size : Nat, (m.cleanup.initializeServerSized segment_size).1 = false →
      (m.cleanup.initializeServerSized segment_size).2.isReady = false) ∧
    (∀ found, (m.cleanup.connectClient found).1 = false →
      (m.cleanup.connectClient found).2.isReady = false) := by
  refine ⟨rfl, ?_, ?_, ?_, ?_, ?_, ?_, ?_⟩
  · intro s0 c0; simp [readLatestState, SharedMemoryManager.cleanup, SharedMemoryManager.isReady]
  · simp [isLocationServiceAlive, SharedMemoryManager.cleanup, SharedMemoryManager.isReady]
  · intro s c; simp [writeState, SharedMemoryManager.cleanup, SharedMemoryManager.isReady]
  · intro lat lon alt t
    simp [updateLocation, SharedMemoryManager.cleanup, SharedMemoryManager.isReady]
  · simp [signalAlive, SharedMemoryManager.cleanup, SharedMemoryManager.isReady]
  · intro n
    simp only [SharedMemoryManager.initializeServerSized, SharedMemoryManager.cleanup,
      SharedMemoryManager.isReady]
    split_ifs <;> simp
  · intro found
    rcases found with _ | ⟨header, ring_buffer⟩
    · intro _; rfl
    · simp only [SharedMemoryManager.connectClient, SharedMemoryManager.cleanup,
        SharedMemoryManager.isReady]
      split_ifs <;> simp

theorem cleanup_degrades_witness :
    readyManager.cleanup.isReady = false ∧
    readLatestState readyManager.cleanup { WorldState.zero with step_count := 7 }
        ContextFrame.zero =
      (false, { WorldState.zero with step_count := 7 }, ContextFrame.zero) ∧
    isLocationServiceAlive readyManager.cleanup = false ∧
    writeState readyManager.cleanup payloadA.1 payloadA.2 = readyManager.cleanup ∧
    (readyManager.cleanup.initializeServerSized SHARED_MEMORY_SIZE).2.isReady = false :=
  ⟨(cleanup_degrades readyManager).1,
    (cleanup_degrades readyManager).2.1 _ _,
    (cleanup_degrades readyManager).2.2.1,
    (cleanup_degrades readyManager).2.2.2.1 _ _,
    (cleanup_degrades readyManager).2.2.2.2.2.2.1 SHARED_MEMORY_SIZE
      (initializeServer_fails readyManager.cleanup)⟩

/-! ## Fusion filter -/

theorem coeff_Vector2d_0 (v : Vector2d) : v.coeff 0 = v.c0 := rfl
theorem coeff_Vector2d_1 (v : Vector2d) : v.coeff 1 = v.c1 := rfl
theorem coeff_Vector4d_0 (v : Vector4d) : v.coeff 0 = v.c0 := rfl
theorem coeff_Vector4d_1 (v : Vector4d) : v.coeff 1 = v.c1 := rfl
theorem coeff_Vector4d_2 (v : Vector4d) : v.coeff 2 = v.c2 := rfl
theorem coeff_Vector4d_3 (v : Vector4d) : v.coeff 3 = v.c3 := rfl
theorem coeff_Matrix2d_0 (M : Matrix2d) : M.coeff 0 = M.r0.coeff := rfl
theorem coeff_Matrix2d_1 (M : Matrix2d) : M.coeff 1 = M.r1.coeff := rfl
theorem coeff_Matrix24d_0 (M : Matrix24d) : M.coeff 0 = M.r0.coeff := rfl
theorem coeff_Matrix24d_1 (M : Matrix24d) : M.coeff 1 = M.r1.coeff := rfl
theorem coeff_Matrix42d_0 (M : Matrix42d) : M.coeff 0 = M.r0.coeff := rfl
theorem coeff_Matrix42d_1 (M : Matrix42d) : M.coeff 1 = M.r1.coeff := rfl
theorem coeff_Matrix42d_2 (M : Matrix42d) : M.coeff 2 = M.r2.coeff := rfl
theorem coeff_Matrix42d_3 (M : Matrix42d) : M.coeff 3 = M.r3.coeff := rfl
theorem coeff_Matrix4d_0 (M : Matrix4d) : M.coeff 0 = M.r0.coeff := rfl
theorem coeff_Matrix4d_1 (M : Matrix4d) : M.coeff 1 = M.r1.coeff := rfl
theorem coeff_Matrix4d_2 (M : Matrix4d) : M.coeff 2 = M.r2.coeff := rfl
theorem coeff_Matrix4d_3 (M : Matrix4d) : M.coeff 3 = M.r3.coeff := rfl

theorem processNoise_eq (q : ℚ) : processNoise q =
    ⟨⟨q * (1 / 1000), 0, 0, 0⟩, ⟨0, q * (1 / 1000), 0, 0⟩, ⟨0, 0, q, 0⟩, ⟨0, 0, 0, q⟩⟩ := by
  simp [processNoise, Matrix4d.setCoeff, Matrix4d.store, Vector4d.store,
    coeff_Matrix4d_0, coeff_Matrix4d_1, coeff_Matrix4d_2, coeff_Matrix4d_3,
    coeff_Vector4d_0, coeff_Vector4d_1, coeff_Vector4d_2, coeff_Vector4d_3, Matrix.one_apply]

theorem predict_block (kf : KalmanFilter) (dt d q a b c x0 x1 v0 v1 : ℚ)
    (hA : kf.A_ = transitionA d) (hQ : kf.Q_ = processNoise q)
    (hP : kf.P_ = blockP a b c) (hx : kf.x_ = ⟨x0, x1, v0, v1⟩) :
    kf.predict dt = { kf with
      A_ := transitionA dt,
      x_ := ⟨x0 + dt * v0, x1 + dt * v1, v0, v1⟩,
      P_ := blockP (a + 2 * dt * b + dt * dt * c + q * (1 / 1000)) (b + dt * c) (c + q) } := by
  unfold KalmanFilter.predict
  rw [hA, hQ, hP, hx, processNoise_eq]
  simp [transitionA, blockP, Matrix4d.setCoeff, Matrix4d.store, Vector4d.store,
    coeff_Matrix4d_0, coeff_Matrix4d_1, coeff_Matrix4d_2, coeff_Matrix4d_3,
    coeff_Vector4d_0, coeff_Vector4d_1, coeff_Vector4d_2, coeff_Vector4d_3,
    Matrix.mul_apply, Matrix.mulVec, Matrix.dotProduct, Fin.sum_univ_four]
  constructor <;> ring

theorem correct_block (kf : KalmanFilter) (r a b c x0 x1 v0 v1 lat lon : ℚ)
    (hH : kf.H_ = measurementH) (hR : kf.R_ = ⟨⟨r, 0⟩, ⟨0, r⟩⟩)
    (hP : kf.P_ = blockP a b c) (hx : kf.x_ = ⟨x0, x1, v0, v1⟩) :
    kf.correct ⟨lat, lon⟩ = { kf with
      x_ := ⟨x0 + a * invS (a + r) * (lat - x0), x1 + a * invS (a + r) * (lon - x1),
             v0 + b * invS (a + r) * (lat - x0), v1 + b * invS (a + r) * (lon - x1)⟩,
      P_ := blockP ((1 - a * invS (a + r)) * a) ((1 - a * invS (a + r)) * b)
              (c - b * invS (a + r) * b) } := by
  unfold KalmanFilter.correct
  rw [hH, hR, hP, hx]
  simp [measurementH, blockP, invS, Matrix2d.inverse, Matrix4d.store, Vector4d.store,
    Matrix42d.store, Matrix2d.store, Vector2d.store,
    coeff_Matrix4d_0, coeff_Matrix4d_1, coeff_Matrix4d_2, coeff_Matrix4d_3,
    coeff_Matrix42d_0, coeff_Matrix42d_1, coeff_Matrix42d_2, coeff_Matrix42d_3,
    coeff_Matrix24d_0, coeff_Matrix24d_1, coeff_Matrix2d_0, coeff_Matrix2d_1,
    coeff_Vector4d_0, coeff_Vector4d_1, coeff_Vector4d_2, coeff_Vector4d_3,
    coeff_Vector2d_0, coeff_Vector2d_1,
    Matrix.mul_apply, Matrix.mulVec, Matrix.dotProduct, Fin.sum_univ_four, Fin.sum_univ_two,
    Matrix.one_apply]
  constructor <;> ring

theorem new_block :
    KalmanFilter.new.InBlockForm (1 / 10) AxisState.init AxisState.init := by
  refine ⟨⟨1 / 10, rfl⟩, rfl, rfl, ?_, rfl, rfl, rfl, rfl⟩
  simp [KalmanFilter.new, blockP, AxisState.init, Matrix4d.store, Vector4d.store,
    Matrix.one_apply]

theorem update_core_block (kf : KalmanFilter) (m : LocationFix) (q : ℚ)
    (lat lon : AxisState) (hb : kf.InBlockForm q lat lon) (k0 kp k : KalmanFilter)
    (h0 : k0 = { kf with last_update_ms_ := m.timestamp_ms,
                         R_ := ⟨⟨measurementNoise m, 0⟩, ⟨0, measurementNoise m⟩⟩ })
    (hkp : kp = k0.predict (kf.timeStep m))
    (hk : k = kp.correct ⟨m.latitude, m.longitude⟩) :
    k.InBlockForm q
        (axisStep (kf.timeStep m) q (measurementNoise m) m.latitude lat)
        (axisStep (kf.timeStep m) q (measurementNoise m) m.longitude lon) ∧
      k.last_update_ms_ = m.timestamp_ms ∧ k.use_pdr_ = kf.use_pdr_ := by
  obtain ⟨⟨d, hA⟩, hH, hQ, hP, ha, hb, hc, hx⟩ := hb
  have hp := predict_block k0 (kf.timeStep m) d q lat.a lat.b lat.c lat.x lon.x lat.v lon.v
    (by rw [h0]; exact hA) (by rw [h0]; exact hQ) (by rw [h0]; exact hP) (by rw [h0]; exact hx)
  rw [← hkp] at hp
  have hc2 := correct_block kp (measurementNoise m)
    (lat.a + 2 * kf.timeStep m * lat.b + kf.timeStep m * kf.timeStep m * lat.c + q * (1 / 1000))
    (lat.b + kf.timeStep m * lat.c) (lat.c + q)
    (lat.x + kf.timeStep m * lat.v) (lon.x + kf.timeStep m * lon.v) lat.v lon.v
    m.latitude m.longitude
    (by rw [hp, h0]; exact hH) (by rw [hp, h0]) (by rw [hp]) (by rw [hp])
  rw [← hk] at hc2
  rw [hc2]
  refine ⟨⟨⟨kf.timeStep m, by rw [hp]⟩, by rw [hp, h0]; exact hH, by rw [hp, h0]; exact hQ,
    ?_, ?_, ?_, ?_, ?_⟩, by rw [hp, h0], by rw [hp, h0]⟩
  · simp [axisStep]
  · simp [axisStep, ha, hb, hc]
  · simp [axisStep, ha, hb, hc]
  · simp [axisStep, ha, hb, hc]
  · simp [axisStep, ha, hb, hc]

theorem update_block (kf : KalmanFilter) (m : LocationFix) (q : ℚ) (lat lon : AxisState)
    (hb : kf.InBlockForm q lat lon) :
    (kf.update m).InBlockForm q
        (axisStep (kf.timeStep m) q (measurementNoise m) m.latitude lat)
        (axisStep (kf.timeStep m) q (measurementNoise m) m.longitude lon) ∧
      (kf.update m).last_update_ms_ = m.timestamp_ms := by
  have hcore := update_core_block kf m q lat lon hb _ _ _ rfl rfl rfl
  unfold KalmanFilter.update
  simp only [KalmanFilter.detectStep]
  split_ifs with h1 h2
  · exact ⟨hcore.1, hcore.2.1⟩
  · exact ⟨hcore.1, hcore.2.1⟩
  · exact ⟨hcore.1, hcore.2.1⟩

theorem timeStep_first (kf : KalmanFilter) (m : LocationFix)
    (h : kf.last_update_ms_ = 0) : kf.timeStep m = 1 / 10 := by
  simp only [KalmanFilter.timeStep, h]
  norm_num

theorem timeStep_gap (kf : KalmanFilter) (m : LocationFix) (t D : Int)
    (h : kf.last_update_ms_ = t) (ht : 0 < t) (hm : m.timestamp_ms = t + D)
    (hD : D = 1000 ∨ D = 100) :
    kf.timeStep m = 1 / 10 ∧ D = 100 ∨ kf.timeStep m = 1 ∧ D = 1000 := by
  have hgt : kf.last_update_ms_ > 0 := by rw [h]; exact ht
  have hsub : m.timestamp_ms - kf.last_update_ms_ = D := by rw [hm, h]; ring
  simp only [KalmanFilter.timeStep, hgt, hsub, if_true]
  rcases hD with rfl | rfl
  · right; norm_num
  · left; norm_num

theorem measurementNoise_mk3 (lat lon : ℚ) (ts : Int) :
    measurementNoise (LocationFix.mk3 lat lon ts) = 100 := by
  simp only [measurementNoise, LocationFix.mk3]
  norm_num

theorem axis_first (z : ℚ) :
    axisStep (1 / 10) (1 / 10) 100 z AxisState.init =
      ⟨10100000001 / 10101000001 * z, 1000000000 / 10101000001 * z,
        1010000000100 / 10101000001, 100000000000 / 10101000001,
        100010010111000001 / 101010000010⟩ := by
  simp only [axisStep, invS, AxisState.init]
  norm_num

theorem axis_noise_rejection (p δ dt : ℚ) (hp : |p| ≤ 180)
    (hδ : δ = 1 / 10 ∨ δ = -(1 / 10)) (hdt : dt = 1 / 10 ∨ dt = 1) :
    |(axisStep dt (1 / 10) 100 p (axisStep dt (1 / 10) 100 (p + δ)
        (axisStep (1 / 10) (1 / 10) 100 p AxisState.init))).x - p| < 1 / 20 := by
  rw [axis_first]
  obtain ⟨hp1, hp2⟩ := abs_le.mp hp
  rcases hdt with rfl | rfl <;> rcases hδ with rfl | rfl
  all_goals
    simp only [axisStep, invS]
    norm_num
    rw [abs_lt]
    constructor <;> linarith

theorem abs_tenth_cases (δ : ℚ) (h : |δ| = 1 / 10) : δ = 1 / 10 ∨ δ = -(1 / 10) := by
  rcases abs_cases δ with ⟨h1, _⟩ | ⟨h1, _⟩
  · left; rw [← h1]; exact h
  · right; rw [h1] at h; linarith

/-- C9 (the code at the failing input): a fresh filter updated once with the
fix (37.7749, -122.4194, t = 1000), altitude 50, accuracy 10, as in
`SingleUpdateTest`.  The smoothed longitude is -6182179700612097/50505000005000
(about -122.40728), which is more than 0.01 degrees (about 0.01212) away
from the measured -122.4194; the smoothed latitude is within 0.01. -/
theorem single_update_longitude_off (uninit : WorldState) :
    ((KalmanFilter.new.update singleUpdateFix).getSmoothedState uninit).smoothed_lon =
      -6182179700612097 / 50505000005000 ∧
    1 / 100 < |((KalmanFilter.new.update singleUpdateFix).getSmoothedState uninit).smoothed_lon
        - singleUpdateFix.longitude| ∧
    |((KalmanFilter.new.update singleUpdateFix).getSmoothedState uninit).smoothed_lat
        - singleUpdateFix.latitude| < 1 / 100 := by
  have hb := (update_block KalmanFilter.new singleUpdateFix (1 / 10)
    AxisState.init AxisState.init new_block).1
  rw [timeStep_first _ _ rfl] at hb
  have hr : measurementNoise singleUpdateFix = 100 := by
    simp only [measurementNoise, singleUpdateFix]
    norm_num
  have hlat : singleUpdateFix.latitude = 377749 / 10000 := rfl
  have hlon : singleUpdateFix.longitude = -1224194 / 10000 := rfl
  rw [hr, axis_first, axis_first, hlat, hlon] at hb
  obtain ⟨_, _, _, _, _, _, _, hx⟩ := hb
  simp only [KalmanFilter.getSmoothedState, hx, hlat, hlon]
  refine ⟨by norm_num, ?_, ?_⟩
  · rw [lt_abs]; left; norm_num
  · rw [abs_lt]; constructor <;> norm_num

/-- C10: for every point with |lat| <= 90 and |lon| <= 180, every offset of
magnitude 0.1 degrees in each coordinate, accuracy 10 m (the default of the
three-argument `LocationFix` constructor) and time stamps t, t + D, t + 2D
with t > 0 and D = 1000 ms or D = 100 ms, a fresh filter fed p, p + offset, p
ends with smoothed latitude and longitude each less than 0.05 degrees from p. -/
theorem noise_rejection (lat lon dlat dlon : ℚ) (t D : Int) (uninit : WorldState)
    (hlat : |lat| ≤ 90) (hlon : |lon| ≤ 180)
    (hdlat : |dlat| = 1 / 10) (hdlon : |dlon| = 1 / 10)
    (ht : 0 < t) (hD : D = 1000 ∨ D = 100) :
    |((((KalmanFilter.new.update (LocationFix.mk3 lat lon t)).update
          (LocationFix.mk3 (lat + dlat) (lon + dlon) (t + D))).update
          (LocationFix.mk3 lat lon (t + 2 * D))).getSmoothedState uninit).smoothed_lat
        - lat| < 1 / 20 ∧
    |((((KalmanFilter.new.update (LocationFix.mk3 lat lon t)).update
          (LocationFix.mk3 (lat + dlat) (lon + dlon) (t + D))).update
          (LocationFix.mk3 lat lon (t + 2 * D))).getSmoothedState uninit).smoothed_lon
        - lon| < 1 / 20 := by
  have hlat180 : |lat| ≤ 180 := le_trans hlat (by norm_num)
  have h1 := update_block KalmanFilter.new (LocationFix.mk3 lat lon t) (1 / 10)
    AxisState.init AxisState.init new_block
  rw [timeStep_first _ _ rfl, measurementNoise_mk3] at h1
  have h2 := update_block _ (LocationFix.mk3 (lat + dlat) (lon + dlon) (t + D)) (1 / 10)
    _ _ h1.1
  have hd2 := timeStep_gap (KalmanFilter.new.update (LocationFix.mk3 lat lon t))
    (LocationFix.mk3 (lat + dlat) (lon + dlon) (t + D)) t D h1.2 ht rfl hD
  rw [measurementNoise_mk3] at h2
  have h3 := update_block _ (LocationFix.mk3 lat lon (t + 2 * D)) (1 / 10) _ _ h2.1
  have hd3 := timeStep_gap ((KalmanFilter.new.update (LocationFix.mk3 lat lon t)).update
    (LocationFix.mk3 (lat + dlat) (lon + dlon) (t + D)))
    (LocationFix.mk3 lat lon (t + 2 * D)) (t + D) D h2.2
    (by rcases hD with rfl | rfl <;> omega)
    (by simp only [LocationFix.mk3]; ring) hD
  rw [measurementNoise_mk3] at h3
  obtain ⟨_, _, _, _, _, _, _, hx⟩ := h3.1
  simp only [KalmanFilter.getSmoothedState, hx]
  have hdt : ∃ dt : ℚ, (dt = 1 / 10 ∨ dt = 1) ∧
      (KalmanFilter.new.update (LocationFix.mk3 lat lon t)).timeStep
        (LocationFix.mk3 (lat + dlat) (lon + dlon) (t + D)) = dt ∧
      ((KalmanFilter.new.update (LocationFix.mk3 lat lon t)).update
        (LocationFix.mk3 (lat + dlat) (lon + dlon) (t + D))).timeStep
        (LocationFix.mk3 lat lon (t + 2 * D)) = dt := by
    rcases hd2 with ⟨e2, hD2⟩ | ⟨e2, hD2⟩ <;> rcases hd3 with ⟨e3, hD3⟩ | ⟨e3, hD3⟩
    · exact ⟨1 / 10, Or.inl rfl, e2, e3⟩
    · omega
    · omega
    · exact ⟨1, Or.inr rfl, e2, e3⟩
  obtain ⟨dt, hdt, e2, e3⟩ := hdt
  rw [e2, e3]
  simp only [LocationFix.mk3]
  exact ⟨axis_noise_rejection lat dlat dt hlat180 (abs_tenth_cases dlat hdlat) hdt,
    axis_noise_rejection lon dlon dt hlon (abs_tenth_cases dlon hdlon) hdt⟩

theorem noise_rejection_witness :
    |(377749 / 10000 : ℚ)| ≤ 90 ∧ |(-1224194 / 10000 : ℚ)| ≤ 180 ∧
    |((((KalmanFilter.new.update
          (LocationFix.mk3 (377749 / 10000) (-1224194 / 10000) 1000)).update
          (LocationFix.mk3 (377749 / 10000 + 1 / 10) (-1224194 / 10000 + 1 / 10)
            (1000 + 100))).update
          (LocationFix.mk3 (377749 / 10000) (-1224194 / 10000)
            (1000 + 2 * 100))).getSmoothedState WorldState.zero).smoothed_lat
        - 377749 / 10000| < 1 / 20 ∧
    |((((KalmanFilter.new.update
          (LocationFix.mk3 (377749 / 10000) (-1224194 / 10000) 1000)).update
          (LocationFix.mk3 (377749 / 10000 + 1 / 10) (-1224194 / 10000 + 1 / 10)
            (1000 + 100))).update
          (LocationFix.mk3 (377749 / 10000) (-1224194 / 10000)
            (1000 + 2 * 100))).getSmoothedState WorldState.zero).smoothed_lon
        - (-1224194 / 10000)| < 1 / 20 :=
  have h1 : |(377749 / 10000 : ℚ)| ≤ 90 := by rw [abs_le]; constructor <;> norm_num
  have h2 : |(-1224194 / 10000 : ℚ)| ≤ 180 := by rw [abs_le]; constructor <;> norm_num
  have h3 : |(1 / 10 : ℚ)| = 1 / 10 := abs_of_pos (by norm_num)
  ⟨h1, h2, noise_rejection (377749 / 10000) (-1224194 / 10000) (1 / 10) (1 / 10) 1000 100
    WorldState.zero h1 h2 h3 h3 (by decide) (Or.inr rfl)⟩

/-! ### Repeated measurements -/

theorem axisStep_split (dt q r z : ℚ) (st : AxisState) :
    axisStep dt q r z st = axisCorrect r z (axisPredict dt q st) := rfl

theorem invS_eq (s : ℚ) (hs : s ≠ 0) : invS s = 1 / s := by
  unfold invS
  field_simp

theorem trusted_c_pos (st : AxisState) (z V : ℚ) (h : st.Trusted z V) : 0 < st.c := by
  obtain ⟨ha, hd, _⟩ := h
  by_contra hc
  push_neg at hc
  nlinarith [mul_nonneg (le_of_lt ha) (neg_nonneg.mpr hc), sq_nonneg st.b]

theorem axisPredict_trusted (dt q z V : ℚ) (st : AxisState) (hq : 0 ≤ q)
    (h : st.Trusted z V) : (axisPredict dt q st).Trusted z V := by
  have hc := trusted_c_pos st z V h
  obtain ⟨ha, hd, hW⟩ := h
  obtain ⟨x, v, a, b, c⟩ := st
  simp only at ha hd hW hc
  simp only [axisPredict, AxisState.Trusted]
  have hm : 0 < a + 2 * dt * b + dt * dt * c := by
    have h1 : c * (a + 2 * dt * b + dt * dt * c) = (b + dt * c) ^ 2 + (a * c - b * b) := by ring
    have h2 : 0 < c * (a + 2 * dt * b + dt * dt * c) := by
      rw [h1]; positivity
    exact (mul_pos_iff_of_pos_left hc).mp h2
  have hq1 : 0 ≤ q * (1 / 1000) := by positivity
  have hT : 0 ≤ q * (1 / 1000) * c + q * (a + 2 * dt * b + dt * dt * c) +
      q * (1 / 1000) * q := by positivity
  have hdet : (a + 2 * dt * b + dt * dt * c + q * (1 / 1000)) * (c + q) -
      (b + dt * c) * (b + dt * c) =
      (a * c - b * b) + (q * (1 / 1000) * c + q * (a + 2 * dt * b + dt * dt * c) +
        q * (1 / 1000) * q) := by ring
  have hWnonneg : 0 ≤ c * (x - z) ^ 2 - 2 * b * (x - z) * v + a * v ^ 2 := by
    have h1 : a * (c * (x - z) ^ 2 - 2 * b * (x - z) * v + a * v ^ 2) =
        (a * v - b * (x - z)) ^ 2 + (a * c - b * b) * (x - z) ^ 2 := by ring
    have h2 : 0 ≤ a * (c * (x - z) ^ 2 - 2 * b * (x - z) * v + a * v ^ 2) := by
      rw [h1]; positivity
    exact nonneg_of_mul_nonneg_right h2 ha
  have key : (q * (1 / 1000) * c + q * (a + 2 * dt * b + dt * dt * c) + q * (1 / 1000) * q) *
      (c * (x - z) ^ 2 - 2 * b * (x - z) * v + a * v ^ 2) -
      (a * c - b * b) * (q * (x + dt * v - z) ^ 2 + q * (1 / 1000) * v ^ 2) =
      q * (1 / 1000) * (c * (x + dt * v - z) - (b + dt * c) * v) ^ 2 +
      q * ((a + 2 * dt * b + dt * dt * c) * v - (b + dt * c) * (x + dt * v - z)) ^ 2 +
      q * (1 / 1000) * q * (c * (x - z) ^ 2 - 2 * b * (x - z) * v + a * v ^ 2) := by ring
  have hQ : (a * c - b * b) * (q * (x + dt * v - z) ^ 2 + q * (1 / 1000) * v ^ 2) ≤
      (a * c - b * b) * ((q * (1 / 1000) * c + q * (a + 2 * dt * b + dt * dt * c) +
        q * (1 / 1000) * q) * V) := by
    have h1 : 0 ≤ q * (1 / 1000) * (c * (x + dt * v - z) - (b + dt * c) * v) ^ 2 +
      q * ((a + 2 * dt * b + dt * dt * c) * v - (b + dt * c) * (x + dt * v - z)) ^ 2 +
      q * (1 / 1000) * q * (c * (x - z) ^ 2 - 2 * b * (x - z) * v + a * v ^ 2) := by positivity
    have h2 := mul_le_mul_of_nonneg_left hW hT
    linarith
  have hQ2 := le_of_mul_le_mul_left hQ hd
  refine ⟨by linarith, by rw [hdet]; linarith, ?_⟩
  rw [hdet]
  have hWeq : (c + q) * (x + dt * v - z) ^ 2 - 2 * (b + dt * c) * (x + dt * v - z) * v +
      (a + 2 * dt * b + dt * dt * c + q * (1 / 1000)) * v ^ 2 =
      (c * (x - z) ^ 2 - 2 * b * (x - z) * v + a * v ^ 2) +
      (q * (x + dt * v - z) ^ 2 + q * (1 / 1000) * v ^ 2) := by ring
  rw [hWeq]
  linarith

theorem axisCorrect_trusted (r z V : ℚ) (st : AxisState) (hr : 0 < r)
    (h : st.Trusted z V) :
    (axisCorrect r z st).Trusted z V ∧ (axisCorrect r z st).a < r := by
  obtain ⟨ha, hd, hW⟩ := h
  obtain ⟨x, v, a, b, c⟩ := st
  simp only at ha hd hW
  have hS : 0 < a + r := by linarith
  have hS0 : a + r ≠ 0 := ne_of_gt hS
  simp only [axisCorrect, AxisState.Trusted, invS_eq _ hS0]
  have e1 : (1 - a * (1 / (a + r))) * a = a * r / (a + r) := by field_simp; ring
  have e2 : (1 - a * (1 / (a + r))) * b = b * r / (a + r) := by field_simp; ring
  have e3 : x + a * (1 / (a + r)) * (z - x) - z = (x - z) * r / (a + r) := by
    field_simp; ring
  have edet : a * r / (a + r) * (c - b * (1 / (a + r)) * b) -
      b * r / (a + r) * (b * r / (a + r)) = r / (a + r) * (a * c - b * b) := by
    field_simp; ring
  have eW : (c - b * (1 / (a + r)) * b) * ((x - z) * r / (a + r)) ^ 2 -
      2 * (b * r / (a + r)) * ((x - z) * r / (a + r)) * (v + b * (1 / (a + r)) * (z - x)) +
      a * r / (a + r) * (v + b * (1 / (a + r)) * (z - x)) ^ 2 =
      r / (a + r) * ((c * (x - z) ^ 2 - 2 * b * (x - z) * v + a * v ^ 2) -
        (x - z) ^ 2 * (a * c - b * b) / (a + r)) := by
    field_simp; ring
  rw [e1, e2, e3, edet, eW]
  have hrS : 0 < r / (a + r) := div_pos hr hS
  refine ⟨⟨by positivity, by positivity, ?_⟩, ?_⟩
  · have h1 : 0 ≤ (x - z) ^ 2 * (a * c - b * b) / (a + r) := by positivity
    have h2 : V * (r / (a + r) * (a * c - b * b)) = r / (a + r) * (V * (a * c - b * b)) := by
      ring
    rw [h2]
    exact mul_le_mul_of_nonneg_left (by linarith) (le_of_lt hrS)
  · rw [div_lt_iff₀ hS]
    nlinarith

theorem axisStep_trusted (dt q r z V : ℚ) (st : AxisState) (hq : 0 ≤ q) (hr : 0 < r)
    (h : st.Trusted z V) :
    (axisStep dt q r z st).Trusted z V ∧ (axisStep dt q r z st).a < r := by
  rw [axisStep_split]
  exact axisCorrect_trusted r z V _ hr (axisPredict_trusted dt q z V st hq h)

theorem trusted_error_sq (st : AxisState) (z V : ℚ) (h : st.Trusted z V) :
    (st.x - z) ^ 2 ≤ V * st.a := by
  obtain ⟨ha, hd, hW⟩ := h
  have h1 : st.a * (st.c * (st.x - z) ^ 2 - 2 * st.b * (st.x - z) * st.v + st.a * st.v ^ 2) =
      (st.a * st.v - st.b * (st.x - z)) ^ 2 + (st.a * st.c - st.b * st.b) * (st.x - z) ^ 2 := by
    ring
  have h2 : (st.a * st.c - st.b * st.b) * (st.x - z) ^ 2 ≤
      (st.a * st.c - st.b * st.b) * (V * st.a) := by
    have h3 := mul_le_mul_of_nonneg_left hW (le_of_lt ha)
    nlinarith [sq_nonneg (st.a * st.v - st.b * (st.x - z))]
  exact le_of_mul_le_mul_left h2 hd

theorem timeStep_eq_from (kf : KalmanFilter) (m : LocationFix) :
    kf.timeStep m = timeStepFrom kf.last_update_ms_ m.timestamp_ms := rfl

theorem updateAll_block (q : ℚ) (fixes : List LocationFix) :
    ∀ (kf : KalmanFilter) (lat lon : AxisState), kf.InBlockForm q lat lon →
      (kf.updateAll fixes).InBlockForm q
        (axisRun q (fun m => m.latitude) kf.last_update_ms_ fixes lat)
        (axisRun q (fun m => m.longitude) kf.last_update_ms_ fixes lon) := by
  induction fixes with
  | nil => intro kf lat lon h; exact h
  | cons m ms ih =>
    intro kf lat lon h
    have h1 := update_block kf m q lat lon h
    have h2 := ih (kf.update m) _ _ h1.1
    rw [h1.2, timeStep_eq_from] at h2
    exact h2

theorem axisRun_trusted (q z V : ℚ) (coord : LocationFix → ℚ) (hq : 0 ≤ q)
    (fixes : List LocationFix) :
    ∀ (last : Int) (st : AxisState), st.Trusted z V → st.a < 100 →
      (∀ m ∈ fixes, coord m = z ∧ measurementNoise m = 100) →
      (axisRun q coord last fixes st).Trusted z V ∧ (axisRun q coord last fixes st).a < 100 := by
  induction fixes with
  | nil => intro last st h ha _; exact ⟨h, ha⟩
  | cons m ms ih =>
    intro last st h ha hall
    obtain ⟨hz, hr⟩ := hall m (List.mem_cons_self _ _)
    simp only [axisRun]
    rw [hz, hr]
    have hstep := axisStep_trusted (timeStepFrom last m.timestamp_ms) q 100 z V st hq
      (by norm_num) h
    exact ih _ _ hstep.1 hstep.2 (fun m' hm' => hall m' (List.mem_cons_of_mem _ hm'))

theorem axis_first_trusted (z : ℚ) :
    (axisStep (1 / 10) (1 / 10) 100 z AxisState.init).Trusted z
        (10100000010000000000 / 1010100102221110020211000001 * z ^ 2) ∧
      (axisStep (1 / 10) (1 / 10) 100 z AxisState.init).a < 100 := by
  rw [axis_first]
  refine ⟨⟨by norm_num, by norm_num, ?_⟩, by norm_num⟩
  apply le_of_eq
  ring

theorem timeStepFrom_zero (t : Int) : timeStepFrom 0 t = 1 / 10 := by
  simp only [timeStepFrom]
  norm_num

theorem measurementNoise_small (m : LocationFix) (h : |m.accuracy| ≤ 10) :
    measurementNoise m = 100 := by
  unfold measurementNoise
  apply max_eq_left
  have h1 := abs_le.mp h
  nlinarith

theorem repeated_axis_bound (coord : LocationFix → ℚ) (z : LocationFix) (t : Int)
    (rest : List Int) (hacc : |z.accuracy| ≤ 10)
    (hcoord : ∀ t', coord { z with timestamp_ms := t' } = coord z) :
    |(axisRun (1 / 10) coord 0 (copiesAt z (t :: rest)) AxisState.init).x - coord z| ≤
      |coord z| / 1000 := by
  have hnoise : ∀ t', measurementNoise { z with timestamp_ms := t' } = 100 :=
    fun t' => measurementNoise_small _ hacc
  simp only [copiesAt, List.map_cons, axisRun]
  rw [timeStepFrom_zero, hnoise, hcoord]
  obtain ⟨h1, h2⟩ := axis_first_trusted (coord z)
  have hall : ∀ m ∈ List.map (fun t' => { z with timestamp_ms := t' }) rest,
      coord m = coord z ∧ measurementNoise m = 100 := by
    intro m hm
    obtain ⟨t', _, rfl⟩ := List.mem_map.mp hm
    exact ⟨hcoord t', hnoise t'⟩
  obtain ⟨h3, h4⟩ := axisRun_trusted (1 / 10) (coord z) _ coord (by norm_num) _ t _ h1 h2 hall
  have h5 := trusted_error_sq _ _ _ h3
  generalize axisRun (1 / 10) coord t
    (List.map (fun t' => { z with timestamp_ms := t' }) rest)
    (axisStep (1 / 10) (1 / 10) 100 (coord z) AxisState.init) = st at h3 h4 h5 ⊢
  have h6 : (st.x - coord z) ^ 2 ≤ (|coord z| / 1000) ^ 2 := by
    have hz : 0 ≤ coord z ^ 2 := sq_nonneg _
    have h7 : 10100000010000000000 / 1010100102221110020211000001 * coord z ^ 2 * st.a ≤
        10100000010000000000 / 1010100102221110020211000001 * coord z ^ 2 * 100 :=
      mul_le_mul_of_nonneg_left (le_of_lt h4) (by positivity)
    have h8 : (|coord z| / 1000) ^ 2 = coord z ^ 2 / 1000000 := by
      rw [div_pow, sq_abs]; norm_num
    rw [h8]
    linarith
  have h9 := sq_le_sq.mp h6
  rwa [abs_of_nonneg (by positivity : (0 : ℚ) ≤ |coord z| / 1000)] at h9

theorem repeatedFix_lon_run :
    (axisRun (1 / 10) (fun m => m.longitude) 0
      (copiesAt repeatedFix [1000, 1100, 1200, 1300, 1400]) AxisState.init).x =
      -1224194 / 10000 * (50058330865673965669912146087829018601 /
        50056331871423966899912036087829018601) := by
  simp only [copiesAt, List.map, axisRun, timeStepFrom, measurementNoise, repeatedFix,
    LocationFix.mk3, axisStep, invS, AxisState.init]
  norm_num

/-- C11 (counterexample): five identical copies of the fix (37.7749, -122.4194),
accuracy 10, at 1000, 1100, 1200, 1300 and 1400 ms, fed to a fresh filter.
The smoothed longitude ends about 0.0049 degrees from the measured one, more
than 10^-4. -/
theorem five_identical_fixes_off :
    1 / 10000 < |((KalmanFilter.new.updateAll
        (copiesAt repeatedFix [1000, 1100, 1200, 1300, 1400])).getSmoothedState
          WorldState.zero).smoothed_lon - repeatedFix.longitude| := by
  have hb := updateAll_block (1 / 10) (copiesAt repeatedFix [1000, 1100, 1200, 1300, 1400])
    KalmanFilter.new AxisState.init AxisState.init new_block
  obtain ⟨_, _, _, _, _, _, _, hx⟩ := hb
  have h0 : KalmanFilter.new.last_update_ms_ = 0 := rfl
  rw [h0, repeatedFix_lon_run] at hx
  have hlon : repeatedFix.longitude = -1224194 / 10000 := rfl
  simp only [KalmanFilter.getSmoothedState, hx, hlon]
  rw [lt_abs]
  right
  norm_num

/-- C11 (amended): for every measurement z whose accuracy is at most 10 m in
magnitude and every n >= 1 (so every n >= 5), after feeding a fresh filter n
copies of z at any time stamps whatever, the smoothed latitude is within
|z.latitude| / 1000 of z.latitude and the smoothed longitude within
|z.longitude| / 1000 of z.longitude (0.09 and 0.18 degrees at the ends of the
coordinate ranges). -/
theorem repeated_fix_relative_error (z : LocationFix) (t : Int) (rest : List Int)
    (uninit : WorldState) (hacc : |z.accuracy| ≤ 10) :
    |((KalmanFilter.new.updateAll (copiesAt z (t :: rest))).getSmoothedState
        uninit).smoothed_lat - z.latitude| ≤ |z.latitude| / 1000 ∧
    |((KalmanFilter.new.updateAll (copiesAt z (t :: rest))).getSmoothedState
        uninit).smoothed_lon - z.longitude| ≤ |z.longitude| / 1000 := by
  have hb := updateAll_block (1 / 10) (copiesAt z (t :: rest))
    KalmanFilter.new AxisState.init AxisState.init new_block
  obtain ⟨_, _, _, _, _, _, _, hx⟩ := hb
  have h0 : KalmanFilter.new.last_update_ms_ = 0 := rfl
  rw [h0] at hx
  simp only [KalmanFilter.getSmoothedState, hx]
  exact ⟨repeated_axis_bound (fun m => m.latitude) z t rest hacc (fun _ => rfl),
    repeated_axis_bound (fun m => m.longitude) z t rest hacc (fun _ => rfl)⟩

theorem repeated_fix_relative_error_witness :
    |repeatedFix.accuracy| ≤ 10 ∧
    |((KalmanFilter.new.updateAll
        (copiesAt repeatedFix (1000 :: [1100, 1200, 1300, 1400]))).getSmoothedState
          WorldState.zero).smoothed_lon - repeatedFix.longitude| ≤
      |repeatedFix.longitude| / 1000 :=
  have h : |repeatedFix.accuracy| ≤ 10 := by
    have h10 : repeatedFix.accuracy = 10 := rfl
    rw [h10]; norm_num
  ⟨h, (repeated_fix_relative_error repeatedFix 1000 [1100, 1200, 1300, 1400]
    WorldState.zero h).2⟩

/-! ### Reset, step counting, altitude -/

theorem coeff_store_Matrix4d (F : Matrix (Fin 4) (Fin 4) ℚ) :
    (Matrix4d.store F).coeff = F := by
  ext i j
  fin_cases i <;> fin_cases j <;> rfl

/-- C12: a freshly constructed filter, and any filter right after `reset()`,
has state vector 0, covariance 10^6 * I, step count 0 and last-update time
stamp 0, and `getSmoothedState` reports latitude 0 and longitude 0. -/
theorem reset_restores_initial (kf : KalmanFilter) (uninit : WorldState) :
    (KalmanFilter.new.x_ = ⟨0, 0, 0, 0⟩ ∧
      KalmanFilter.new.P_.coeff = (1000000 : ℚ) • (1 : Matrix (Fin 4) (Fin 4) ℚ) ∧
      KalmanFilter.new.step_count_ = 0 ∧ KalmanFilter.new.last_update_ms_ = 0 ∧
      (KalmanFilter.new.getSmoothedState uninit).smoothed_lat = 0 ∧
      (KalmanFilter.new.getSmoothedState uninit).smoothed_lon = 0 ∧
      (KalmanFilter.new.getSmoothedState uninit).step_count = 0) ∧
    (kf.reset.x_ = ⟨0, 0, 0, 0⟩ ∧
      kf.reset.P_.coeff = (1000000 : ℚ) • (1 : Matrix (Fin 4) (Fin 4) ℚ) ∧
      kf.reset.step_count_ = 0 ∧ kf.reset.last_update_ms_ = 0 ∧
      (kf.reset.getSmoothedState uninit).smoothed_lat = 0 ∧
      (kf.reset.getSmoothedState uninit).smoothed_lon = 0 ∧
      (kf.reset.getSmoothedState uninit).step_count = 0) :=
  ⟨⟨rfl, coeff_store_Matrix4d _, rfl, rfl, rfl, rfl, rfl⟩,
    ⟨rfl, coeff_store_Matrix4d _, rfl, rfl, rfl, rfl, rfl⟩⟩

theorem update_step_count (kf : KalmanFilter) (m : LocationFix) :
    (kf.update m).step_count_ = kf.step_count_ ∨
      (kf.update m).step_count_ = kf.step_count_ + 1 := by
  unfold KalmanFilter.update
  simp only [KalmanFilter.detectStep, KalmanFilter.predict, KalmanFilter.correct]
  split_ifs
  · right; rfl
  · left; rfl
  · left; rfl

theorem updateAll_step_count (fixes : List LocationFix) :
    ∀ kf : KalmanFilter, kf.step_count_ ≤ (kf.updateAll fixes).step_count_ ∧
      (kf.updateAll fixes).step_count_ ≤ kf.step_count_ + fixes.length := by
  induction fixes with
  | nil => intro kf; simp [KalmanFilter.updateAll]
  | cons m ms ih =>
    intro kf
    have h1 := update_step_count kf m
    have h2 := ih (kf.update m)
    simp only [KalmanFilter.updateAll, List.foldl_cons, List.length_cons] at h2 ⊢
    push_cast
    rcases h1 with h1 | h1 <;> rw [h1] at h2 <;> constructor <;> linarith [h2.1, h2.2]

theorem reportedSteps_eq (kf : KalmanFilter) (h0 : 0 ≤ kf.step_count_)
    (h1 : kf.step_count_ < 2 ^ 31) : (kf.reportedSteps : Int) = kf.step_count_ := by
  simp only [KalmanFilter.reportedSteps, KalmanFilter.getSmoothedState]
  rw [Int.toNat_of_nonneg (Int.emod_nonneg _ (by norm_num))]
  exact Int.emod_eq_of_lt h0 (by omega)

theorem updateAll_append (kf : KalmanFilter) (l1 l2 : List LocationFix) :
    kf.updateAll (l1 ++ l2) = (kf.updateAll l1).updateAll l2 := by
  simp [KalmanFilter.updateAll, List.foldl_append]

/-- C13: along any sequence of `update` calls that keeps the `int32_t` counter
inside its range (it starts non-negative and the number of calls does not take
it to 2^31), whatever the PDR setting, the step count `getSmoothedState`
reports after a longer prefix of the sequence is at least the one after a
shorter prefix, and it grows by at most one per call. -/
theorem step_count_never_decreases (kf : KalmanFilter) (pre post : List LocationFix)
    (h0 : 0 ≤ kf.step_count_)
    (hmax : kf.step_count_ + pre.length + post.length < 2 ^ 31) :
    (kf.updateAll pre).reportedSteps ≤ (kf.updateAll (pre ++ post)).reportedSteps ∧
    (kf.updateAll (pre ++ post)).reportedSteps ≤
      (kf.updateAll pre).reportedSteps + post.length := by
  have hpre := updateAll_step_count pre kf
  have hpost := updateAll_step_count post (kf.updateAll pre)
  rw [← updateAll_append] at hpost
  have e1 := reportedSteps_eq (kf.updateAll pre) (by linarith [hpre.1]) (by linarith [hpre.2])
  have e2 := reportedSteps_eq (kf.updateAll (pre ++ post)) (by linarith [hpre.1, hpost.1])
    (by linarith [hpre.2, hpost.2])
  constructor
  · have : ((kf.updateAll pre).reportedSteps : Int) ≤
        ((kf.updateAll (pre ++ post)).reportedSteps : Int) := by rw [e1, e2]; exact hpost.1
    exact_mod_cast this
  · have : ((kf.updateAll (pre ++ post)).reportedSteps : Int) ≤
        ((kf.updateAll pre).reportedSteps : Int) + (post.length : Int) := by
      rw [e1, e2]; exact hpost.2
    exact_mod_cast this

theorem step_count_never_decreases_witness :
    (0 : Int) ≤ (KalmanFilter.new.enablePDR true).step_count_ ∧
    ((KalmanFilter.new.enablePDR true).updateAll
        [LocationFix.mk3 0 0 100]).reportedSteps ≤
      ((KalmanFilter.new.enablePDR true).updateAll
        ([LocationFix.mk3 0 0 100] ++
          [(LocationFix.mk3 0 0 200).withImu 0 0 20 0 0 0])).reportedSteps ∧
    ((KalmanFilter.new.enablePDR true).updateAll
        ([LocationFix.mk3 0 0 100] ++
          [(LocationFix.mk3 0 0 200).withImu 0 0 20 0 0 0])).reportedSteps ≤
      ((KalmanFilter.new.enablePDR true).updateAll
        [LocationFix.mk3 0 0 100]).reportedSteps +
        [(LocationFix.mk3 0 0 200).withImu 0 0 20 0 0 0].length :=
  ⟨by decide,
    step_count_never_decreases (KalmanFilter.new.enablePDR true) [LocationFix.mk3 0 0 100]
      [(LocationFix.mk3 0 0 200).withImu 0 0 20 0 0 0] (by decide) (by decide)⟩

/-- C14: for every filter state and every sample, `update` leaves the same
state vector and covariance (and the same matrices, time stamp and step
length) whether PDR is enabled or not and whatever the six inertial readings of
the sample are; only `step_count_`, `last_accel_z_` and the PDR flag itself can
differ. -/
theorem pdr_is_side_channel (kf : KalmanFilter) (m : LocationFix) (pdr pdr2 : Bool)
    (ax ay az gx gy gz : ℚ) :
    ((kf.enablePDR pdr).update m).x_ =
      ((kf.enablePDR pdr2).update (m.withImu ax ay az gx gy gz)).x_ ∧
    ((kf.enablePDR pdr).update m).P_ =
      ((kf.enablePDR pdr2).update (m.withImu ax ay az gx gy gz)).P_ ∧
    ((kf.enablePDR pdr).update m).A_ =
      ((kf.enablePDR pdr2).update (m.withImu ax ay az gx gy gz)).A_ ∧
    ((kf.enablePDR pdr).update m).H_ =
      ((kf.enablePDR pdr2).update (m.withImu ax ay az gx gy gz)).H_ ∧
    ((kf.enablePDR pdr).update m).Q_ =
      ((kf.enablePDR pdr2).update (m.withImu ax ay az gx gy gz)).Q_ ∧
    ((kf.enablePDR pdr).update m).R_ =
      ((kf.enablePDR pdr2).update (m.withImu ax ay az gx gy gz)).R_ ∧
    ((kf.enablePDR pdr).update m).step_length_m_ =
      ((kf.enablePDR pdr2).update (m.withImu ax ay az gx gy gz)).step_length_m_ ∧
    ((kf.enablePDR pdr).update m).last_update_ms_ =
      ((kf.enablePDR pdr2).update (m.withImu ax ay az gx gy gz)).last_update_ms_ := by
  unfold KalmanFilter.update
  simp only [KalmanFilter.detectStep, KalmanFilter.predict, KalmanFilter.correct,
    KalmanFilter.enablePDR, KalmanFilter.timeStep, LocationFix.withImu]
  cases pdr <;> cases pdr2 <;> simp <;> split_ifs <;> simp

/-! ## Service loop and context providers -/

theorem strncpy_head (dst src : List Nat) (n c : Nat)
    (hs : src.head? = some c) (hn : 0 < n) : (strncpy dst src n).head? = some c := by
  cases src with
  | nil => cases hs
  | cons a rest =>
    obtain ⟨k, rfl⟩ := Nat.exists_eq_succ_of_ne_zero (Nat.pos_iff_ne_zero.mp hn)
    simpa [strncpy] using hs

theorem zero_road_name_head : ContextFrame.zero.road_name.head? = some 0 := by
  rfl

theorem fetchFresh_road_name (uninit : ContextFrame) (t : Int) (lat lon : ℚ) :
    (CyclingContextProvider.fetchFresh uninit t lat lon).road_name.head? = some 77 :=
  strncpy_head _ _ 255 77 (by decide) (by decide)

theorem fetchFresh_ne_zero (uninit : ContextFrame) (t : Int) (lat lon : ℚ) :
    CyclingContextProvider.fetchFresh uninit t lat lon ≠ ContextFrame.zero := by
  intro h
  have h1 := fetchFresh_road_name uninit t lat lon
  rw [h, zero_road_name_head] at h1
  exact absurd h1 (by decide)

theorem dating_ne_zero (uninit : ContextFrame) (lat lon : ℚ) :
    DatingContextProvider.getContext uninit lat lon ≠ ContextFrame.zero := by
  intro h
  have h1 : (DatingContextProvider.getContext uninit lat lon).road_name.head? = some 67 :=
    strncpy_head _ _ 255 67 (by decide) (by decide)
  rw [h, zero_road_name_head] at h1
  exact absurd h1 (by decide)

theorem getContext_cacheFilled (provider : ContextProvider) (now : Int)
    (uninit : ContextFrame) (lat lon : ℚ) (h : provider.CacheFilled) :
    (provider.getContext now uninit lat lon).2.CacheFilled := by
  cases provider with
  | dating => trivial
  | cycling p =>
    simp only [ContextProvider.getContext, CyclingContextProvider.getContext]
    split_ifs with hit
    · exact h
    · exact Or.inr (fetchFresh_ne_zero uninit now lat lon)

theorem getContext_ne_zero (provider : ContextProvider) (now : Int)
    (uninit : ContextFrame) (lat lon : ℚ) (h : provider.CacheFilled) (hnow : 5000 ≤ now) :
    (provider.getContext now uninit lat lon).1 ≠ ContextFrame.zero := by
  cases provider with
  | dating => exact dating_ne_zero uninit lat lon
  | cycling p =>
    simp only [ContextProvider.getContext, CyclingContextProvider.getContext]
    split_ifs with hit
    · rcases h with h0 | h1
      · exfalso
        simp only [CyclingContextProvider.cacheHit, Bool.and_eq_true, decide_eq_true_eq,
          CACHE_TTL_MS, h0] at hit
        omega
      · exact h1
    · exact fetchFresh_ne_zero uninit now lat lon

theorem tickPayload_state (s : LocationService) (now : Int) (uninitState : WorldState)
    (uninitContext : ContextFrame) :
    (s.tickPayload now uninitState uninitContext).state =
      { s.kalman_filter_.getSmoothedState uninitState with
        s2_cell_id := s.geometry_index_.cell_of
          (s.kalman_filter_.getSmoothedState uninitState).smoothed_lat
          (s.kalman_filter_.getSmoothedState uninitState).smoothed_lon 16,
        s2_cell_level := 16 } := by
  unfold LocationService.tickPayload
  cases hp : s.context_provider_ with
  | none => rfl
  | some provider =>
    simp only [S2GeometryIndex.latLonToCell]
    split_ifs <;> rfl

/-- C15 (the code at the failing input): `update` never reads the altitude of
the sample and `getSmoothedState` assigns the constant 0.0.  After `update`
with the fix of `SingleUpdateTest`, whose altitude is 50, the reported altitude
is 0, and so it is for every filter and every sample; the state the daemon
publishes after `injectLocation(lat, lon, alt, ts)` carries altitude 0 whatever
`alt` was.  The sibling `WorldStateImpl::updatePosition` stores the altitude
it is given. -/
theorem altitude_dropped (kf : KalmanFilter) (m : LocationFix) (uninit : WorldState)
    (s : LocationService) (now : Int) (uninitContext : ContextFrame)
    (w : WorldStateImpl) (lat lon altitude : ℚ) (timestamp : Int) :
    singleUpdateFix.altitude = 50 ∧
    ((KalmanFilter.new.update singleUpdateFix).getSmoothedState
      { WorldState.zero with smoothed_altitude := 50 }).smoothed_altitude = 0 ∧
    ((kf.update m).getSmoothedState uninit).smoothed_altitude = 0 ∧
    ((s.injectLocation lat lon altitude timestamp).tickPayload now uninit
      uninitContext).state.smoothed_altitude = 0 ∧
    (w.updatePosition lat lon altitude timestamp).current_state_.smoothed_altitude =
      altitude := by
  refine ⟨rfl, rfl, rfl, ?_, rfl⟩
  rw [tickPayload_state]
  rfl

theorem tickPayload_call (s : LocationService) (now : Int) (uninitState : WorldState)
    (uninitContext : ContextFrame) (provider : ContextProvider)
    (hp : s.context_provider_ = some provider)
    (hc : s.geometry_index_.cell_of (s.kalman_filter_.getSmoothedState uninitState).smoothed_lat
      (s.kalman_filter_.getSmoothedState uninitState).smoothed_lon 16 ≠ s.last_s2_cell_) :
    (s.tickPayload now uninitState uninitContext).context =
        (provider.getContext now uninitContext
          (s.kalman_filter_.getSmoothedState uninitState).smoothed_lat
          (s.kalman_filter_.getSmoothedState uninitState).smoothed_lon).1 ∧
      (s.tickPayload now uninitState uninitContext).service =
        { s with
          last_s2_cell_ := s.geometry_index_.cell_of
            (s.kalman_filter_.getSmoothedState uninitState).smoothed_lat
            (s.kalman_filter_.getSmoothedState uninitState).smoothed_lon 16,
          context_provider_ := some (provider.getContext now uninitContext
            (s.kalman_filter_.getSmoothedState uninitState).smoothed_lat
            (s.kalman_filter_.getSmoothedState uninitState).smoothed_lon).2 } := by
  unfold LocationService.tickPayload
  simp only [hp, S2GeometryIndex.latLonToCell]
  rw [if_pos hc]
  exact ⟨rfl, rfl⟩

theorem tickPayload_no_call (s : LocationService) (now : Int) (uninitState : WorldState)
    (uninitContext : ContextFrame)
    (h : s.context_provider_ = none ∨
      s.geometry_index_.cell_of (s.kalman_filter_.getSmoothedState uninitState).smoothed_lat
        (s.kalman_filter_.getSmoothedState uninitState).smoothed_lon 16 = s.last_s2_cell_) :
    (s.tickPayload now uninitState uninitContext).context = ContextFrame.zero ∧
      (s.tickPayload now uninitState uninitContext).service = s := by
  unfold LocationService.tickPayload
  cases hp : s.context_provider_ with
  | none => exact ⟨rfl, rfl⟩
  | some provider =>
    rcases h with h | h
    · rw [hp] at h; cases h
    · simp only [S2GeometryIndex.latLonToCell]
      rw [if_neg (not_not.mpr h)]
      exact ⟨rfl, rfl⟩

theorem signalAlive_ready (seg : Bool) (h : SharedMemoryHeader) (b : Nat → RingBufferEntry) :
    signalAlive ⟨seg, some h, some b, true⟩ =
      ⟨seg, some { h with location_service_alive := true }, some b, true⟩ := by
  simp [signalAlive, SharedMemoryManager.isReady, SharedMemoryManager.getHeader]

theorem tick_round_trip (m : SharedMemoryManager) (hr : m.Ready) (hi : m.IndexInRange)
    (s : WorldState) (c : ContextFrame) (s0 : WorldState) (c0 : ContextFrame) :
    readLatestState (signalAlive (writeState m s c)) s0 c0 = (true, s, c) := by
  obtain ⟨seg, h, b, rfl⟩ := ready_cases hr
  have hw : h.write_index < RING_BUFFER_SIZE := hi h rfl
  rw [writeState_ready, signalAlive_ready, readLatestState_ready]
  dsimp only
  rw [latestIndex_next _ hw]
  simp

theorem quadGrid_cell (lat lon : ℚ) (i j : ℕ)
    (hi : (i : ℚ) ≤ (lat + 90) * 65536 / 180 ∧ (lat + 90) * 65536 / 180 < i + 1)
    (hj : (j : ℚ) ≤ (lon + 180) * 65536 / 180 ∧ (lon + 180) * 65536 / 180 < j + 1) :
    quadGrid.cell_of lat lon 16 = 2 * (i * 131072 + j) + 1 := by
  have h1 : ⌊(lat + 90) * 65536 / 180⌋ = (i : ℤ) := by
    rw [Int.floor_eq_iff]; exact_mod_cast hi
  have h2 : ⌊(lon + 180) * 65536 / 180⌋ = (j : ℤ) := by
    rw [Int.floor_eq_iff]; exact_mod_cast hj
  have ht : (16 : ℤ).toNat = 16 := rfl
  have e1 : (2 : ℚ) ^ 16 = 65536 := by norm_num
  have e2 : 2 ^ (16 + 1) = 131072 := by norm_num
  simp only [quadGrid, ht, e1, e2, h1, h2, Int.toNat_ofNat]

theorem service_new_block :
    (KalmanFilter.new.enablePDR true).InBlockForm (1 / 10) AxisState.init AxisState.init :=
  new_block

theorem injectLocation_fresh (s : LocationService) (lat lon alt : ℚ) (ts : Int)
    (uninit : WorldState) (h : s.kalman_filter_ = KalmanFilter.new.enablePDR true) :
    ((s.injectLocation lat lon alt ts).kalman_filter_.getSmoothedState uninit).smoothed_lat =
      10100000001 / 10101000001 * lat ∧
    ((s.injectLocation lat lon alt ts).kalman_filter_.getSmoothedState uninit).smoothed_lon =
      10100000001 / 10101000001 * lon := by
  have hb := (update_block (KalmanFilter.new.enablePDR true)
    { LocationFix.mk3 lat lon ts with altitude := alt } (1 / 10)
    AxisState.init AxisState.init service_new_block).1
  rw [timeStep_first _ _ rfl] at hb
  have hr : measurementNoise { LocationFix.mk3 lat lon ts with altitude := alt } = 100 := by
    simp only [measurementNoise, LocationFix.mk3]
    norm_num
  rw [hr, axis_first, axis_first] at hb
  obtain ⟨_, _, _, _, _, _, _, hx⟩ := hb
  simp only [LocationService.injectLocation, KalmanFilter.getSmoothedState, h, hx]
  exact ⟨rfl, rfl⟩

theorem injectLocation_eta (s : LocationService) (lat lon alt : ℚ) (ts : Int) :
    { s with kalman_filter_ := (s.injectLocation lat lon alt ts).kalman_filter_ } =
      s.injectLocation lat lon alt ts := rfl

theorem injectLocation_keeps (s : LocationService) (lat lon alt : ℚ) (ts : Int) :
    (s.injectLocation lat lon alt ts).geometry_index_ = s.geometry_index_ ∧
    (s.injectLocation lat lon alt ts).context_provider_ = s.context_provider_ ∧
    (s.injectLocation lat lon alt ts).last_s2_cell_ = s.last_s2_cell_ := ⟨rfl, rfl, rfl⟩

theorem firstTick_cell :
    cyclingService.geometry_index_.cell_of
      (cyclingService.kalman_filter_.getSmoothedState WorldState.zero).smoothed_lat
      (cyclingService.kalman_filter_.getSmoothedState WorldState.zero).smoothed_lon 16 =
        8590065665 := by
  have e1 : (cyclingService.kalman_filter_.getSmoothedState WorldState.zero).smoothed_lat = 0 := rfl
  have e2 : (cyclingService.kalman_filter_.getSmoothedState WorldState.zero).smoothed_lon = 0 := rfl
  rw [e1, e2]
  exact quadGrid_cell 0 0 32768 65536 (by norm_num) (by norm_num)

theorem firstTick_fetches :
    firstTick.context =
        CyclingContextProvider.fetchFresh ContextFrame.zero 1700000000000 0 0 ∧
      firstTick.state.s2_cell_id = 8590065665 ∧
      firstTick.service =
        { cyclingService with
          last_s2_cell_ := 8590065665,
          context_provider_ := some (ContextProvider.cycling
            { CyclingContextProvider.new ContextFrame.zero with
              cached_context_ :=
                CyclingContextProvider.fetchFresh ContextFrame.zero 1700000000000 0 0,
              cached_lat_ := 0,
              cached_lon_ := 0,
              cached_timestamp_ms_ := 1700000000000 }) } := by
  have hc := tickPayload_call cyclingService 1700000000000 WorldState.zero ContextFrame.zero
    _ rfl (by rw [firstTick_cell]; decide)
  have hs := tickPayload_state cyclingService 1700000000000 WorldState.zero ContextFrame.zero
  rw [firstTick_cell] at hc hs
  have e1 : (cyclingService.kalman_filter_.getSmoothedState WorldState.zero).smoothed_lat = 0 := rfl
  have e2 : (cyclingService.kalman_filter_.getSmoothedState WorldState.zero).smoothed_lon = 0 := rfl
  rw [e1, e2] at hc
  have hmiss : (CyclingContextProvider.new ContextFrame.zero).cacheHit 1700000000000 0 0
      = false := by
    have t0 : (CyclingContextProvider.new ContextFrame.zero).cached_timestamp_ms_ = 0 := rfl
    simp only [CyclingContextProvider.cacheHit, t0, CACHE_TTL_MS]
    norm_num
  have hg : (ContextProvider.cycling (CyclingContextProvider.new ContextFrame.zero)).getContext
      1700000000000 ContextFrame.zero 0 0 =
      (CyclingContextProvider.fetchFresh ContextFrame.zero 1700000000000 0 0,
        ContextProvider.cycling
          { CyclingContextProvider.new ContextFrame.zero with
            cached_context_ :=
              CyclingContextProvider.fetchFresh ContextFrame.zero 1700000000000 0 0,
            cached_lat_ := 0,
            cached_lon_ := 0,
            cached_timestamp_ms_ := 1700000000000 }) := by
    simp only [ContextProvider.getContext, CyclingContextProvider.getContext, hmiss,
      Bool.false_eq_true, if_false]
  rw [hg] at hc
  refine ⟨hc.1, ?_, hc.2⟩
  unfold firstTick
  rw [hs]

theorem firstTick_def :
    firstTick = cyclingService.tickPayload 1700000000000 WorldState.zero ContextFrame.zero := rfl

theorem secondTick_def (lat lon : ℚ) :
    secondTick lat lon = (firstTick.service.injectLocation lat lon 0 1700000000050).tickPayload
      1700000000100 WorldState.zero ContextFrame.zero := rfl

theorem firstTick_filter :
    firstTick.service.kalman_filter_ = KalmanFilter.new.enablePDR true := by
  rw [firstTick_fetches.2.2]
  rfl

theorem firstTick_geometry : firstTick.service.geometry_index_ = quadGrid := by
  rw [firstTick_fetches.2.2]
  rfl

theorem secondTick_state (lat lon : ℚ) :
    (secondTick lat lon).state.smoothed_lat = 10100000001 / 10101000001 * lat ∧
    (secondTick lat lon).state.smoothed_lon = 10100000001 / 10101000001 * lon ∧
    (secondTick lat lon).state.s2_cell_id =
      quadGrid.cell_of (10100000001 / 10101000001 * lat) (10100000001 / 10101000001 * lon) 16 := by
  have hp := injectLocation_fresh firstTick.service lat lon 0 1700000000050 WorldState.zero
    firstTick_filter
  have hs := tickPayload_state (firstTick.service.injectLocation lat lon 0 1700000000050)
    1700000000100 WorldState.zero ContextFrame.zero
  rw [(injectLocation_keeps _ _ _ _ _).1, firstTick_geometry, hp.1, hp.2] at hs
  rw [secondTick_def, hs]
  dsimp only
  exact ⟨hp.1, hp.2, rfl⟩

theorem secondTick_cell (lat lon : ℚ) (i j : ℕ)
    (hi : (i : ℚ) ≤ (10100000001 / 10101000001 * lat + 90) * 65536 / 180 ∧
      (10100000001 / 10101000001 * lat + 90) * 65536 / 180 < i + 1)
    (hj : (j : ℚ) ≤ (10100000001 / 10101000001 * lon + 180) * 65536 / 180 ∧
      (10100000001 / 10101000001 * lon + 180) * 65536 / 180 < j + 1) :
    (secondTick lat lon).state.s2_cell_id = 2 * (i * 131072 + j) + 1 :=
  (secondTick_state lat lon).2.2.trans (quadGrid_cell _ _ i j hi hj)

/-- C16: on a ready segment, one iteration of the service loop publishes (the
reader gets back) the smoothed state with `s2_cell_id` set to the level-16
cell of the smoothed point and `s2_cell_level` = 16, for whatever cell function
the geometry index has.  The frame published with it is the provider's
`getContext(smoothed_lat, smoothed_lon)` result when a provider is set and the
cell differs from `last_s2_cell_` (initially 0), and the all-zero frame when no
provider is set or the cell is unchanged.  After a tick with a provider set,
the next tick whose point lies in a different cell publishes a frame that is
not empty, given that the clock is at least 5000 ms past the epoch and that the
provider's cache is unused or holds a non-empty frame. -/
theorem tick_publishes_cell_and_context (s : LocationService) (m : SharedMemoryManager)
    (now : Int) (uninitState : WorldState) (uninitContext : ContextFrame)
    (hr : m.Ready) (hi : m.IndexInRange) :
    (∀ s0 c0, readLatestState (s.tick m now uninitState uninitContext).2 s0 c0 =
      (true, (s.tickPayload now uninitState uninitContext).state,
        (s.tickPayload now uninitState uninitContext).context)) ∧
    (s.tickPayload now uninitState uninitContext).state =
      { s.kalman_filter_.getSmoothedState uninitState with
        s2_cell_id := s.geometry_index_.cell_of
          (s.kalman_filter_.getSmoothedState uninitState).smoothed_lat
          (s.kalman_filter_.getSmoothedState uninitState).smoothed_lon 16,
        s2_cell_level := 16 } ∧
    (∀ provider, s.context_provider_ = some provider →
      s.geometry_index_.cell_of (s.kalman_filter_.getSmoothedState uninitState).smoothed_lat
        (s.kalman_filter_.getSmoothedState uninitState).smoothed_lon 16 ≠ s.last_s2_cell_ →
      (s.tickPayload now uninitState uninitContext).context =
        (provider.getContext now uninitContext
          (s.kalman_filter_.getSmoothedState uninitState).smoothed_lat
          (s.kalman_filter_.getSmoothedState uninitState).smoothed_lon).1) ∧
    (s.context_provider_ = none ∨
      s.geometry_index_.cell_of (s.kalman_filter_.getSmoothedState uninitState).smoothed_lat
        (s.kalman_filter_.getSmoothedState uninitState).smoothed_lon 16 = s.last_s2_cell_ →
      (s.tickPayload now uninitState uninitContext).context = ContextFrame.zero) ∧
    (∀ (provider : ContextProvider) (kf2 : KalmanFilter) (now2 : Int) (uninitState2 : WorldState)
        (uninitContext2 : ContextFrame),
      s.context_provider_ = some provider → provider.CacheFilled → 5000 ≤ now2 →
      (LocationService.tickPayload
          { (s.tickPayload now uninitState uninitContext).service with kalman_filter_ := kf2 }
          now2 uninitState2 uninitContext2).state.s2_cell_id ≠
        (s.tickPayload now uninitState uninitContext).state.s2_cell_id →
      (LocationService.tickPayload
          { (s.tickPayload now uninitState uninitContext).service with kalman_filter_ := kf2 }
          now2 uninitState2 uninitContext2).context ≠ ContextFrame.zero) := by
  refine ⟨fun s0 c0 => tick_round_trip m hr hi _ _ s0 c0, tickPayload_state s now _ _,
    fun provider hp hc => (tickPayload_call s now _ _ provider hp hc).1,
    fun h => (tickPayload_no_call s now _ _ h).1, ?_⟩
  intro provider kf2 now2 uS2 uC2 hp hfilled hnow hcell
  rw [tickPayload_state, tickPayload_state] at hcell
  by_cases hc : s.geometry_index_.cell_of
      (s.kalman_filter_.getSmoothedState uninitState).smoothed_lat
      (s.kalman_filter_.getSmoothedState uninitState).smoothed_lon 16 = s.last_s2_cell_
  · have h1 := (tickPayload_no_call s now uninitState uninitContext (Or.inr hc)).2
    rw [h1] at hcell ⊢
    have h2 := tickPayload_call { s with kalman_filter_ := kf2 } now2 uS2 uC2 provider hp
      (by rw [← hc]; exact hcell)
    rw [h2.1]
    exact getContext_ne_zero provider now2 uC2 _ _ hfilled hnow
  · have h1 := (tickPayload_call s now uninitState uninitContext provider hp hc).2
    rw [h1] at hcell ⊢
    have h2 := tickPayload_call
      { ({ s with
          last_s2_cell_ := s.geometry_index_.cell_of
            (s.kalman_filter_.getSmoothedState uninitState).smoothed_lat
            (s.kalman_filter_.getSmoothedState uninitState).smoothed_lon 16,
          context_provider_ := some (provider.getContext now uninitContext
            (s.kalman_filter_.getSmoothedState uninitState).smoothed_lat
            (s.kalman_filter_.getSmoothedState uninitState).smoothed_lon).2 } : LocationService)
        with kalman_filter_ := kf2 } now2 uS2 uC2 _ rfl hcell
    rw [h2.1]
    exact getContext_ne_zero _ now2 uC2 _ _
      (getContext_cacheFilled provider now uninitContext _ _ hfilled) hnow

theorem tick_publishes_cell_and_context_witness :
    readyManager.Ready ∧ readyManager.IndexInRange ∧
    (secondTick (377749 / 10000) (-1224194 / 10000)).state.s2_cell_id = 12194980817 ∧
    firstTick.state.s2_cell_id = 8590065665 ∧
    (secondTick (377749 / 10000) (-1224194 / 10000)).context ≠ ContextFrame.zero := by
  have h1 : (secondTick (377749 / 10000) (-1224194 / 10000)).state.s2_cell_id = 12194980817 :=
    secondTick_cell _ _ 46520 20968 (by norm_num) (by norm_num)
  have h2 : firstTick.state.s2_cell_id = 8590065665 := firstTick_fetches.2.1
  refine ⟨readyManager_ready, readyManager_indexInRange, h1, h2, ?_⟩
  have h := (tick_publishes_cell_and_context cyclingService readyManager 1700000000000
    WorldState.zero ContextFrame.zero readyManager_ready readyManager_indexInRange).2.2.2.2
    (ContextProvider.cycling (CyclingContextProvider.new ContextFrame.zero))
    (firstTick.service.injectLocation (377749 / 10000) (-1224194 / 10000) 0
      1700000000050).kalman_filter_
    1700000000100 WorldState.zero ContextFrame.zero rfl (Or.inl rfl) (by decide)
  rw [← firstTick_def] at h
  have e := injectLocation_eta firstTick.service (377749 / 10000) (-1224194 / 10000)
    0 1700000000050
  dsimp only at e h
  rw [e, ← secondTick_def] at h
  exact h (by rw [h1, h2]; decide)

theorem firstTick_provider :
    firstTick.service.context_provider_ = some (ContextProvider.cycling
      { CyclingContextProvider.new ContextFrame.zero with
        cached_context_ :=
          CyclingContextProvider.fetchFresh ContextFrame.zero 1700000000000 0 0,
        cached_lat_ := 0,
        cached_lon_ := 0,
        cached_timestamp_ms_ := 1700000000000 }) ∧
    firstTick.service.last_s2_cell_ = 8590065665 := by
  rw [firstTick_fetches.2.2]
  exact ⟨rfl, rfl⟩

theorem nearby_cache_hit (lat : ℚ) (h : |lat| ≤ 999 / 1000000) :
    CyclingContextProvider.cacheHit
      { CyclingContextProvider.new ContextFrame.zero with
        cached_context_ :=
          CyclingContextProvider.fetchFresh ContextFrame.zero 1700000000000 0 0,
        cached_lat_ := 0,
        cached_lon_ := 0,
        cached_timestamp_ms_ := 1700000000000 } 1700000000100 lat 0 = true := by
  simp only [CyclingContextProvider.cacheHit, CACHE_TTL_MS, sub_zero,
    Bool.and_eq_true, decide_eq_true_eq]
  exact ⟨⟨by norm_num, rounded_lt_milli _ (le_trans h (by norm_num))⟩, rounded_zero_lt_milli⟩

/-- C17 (counterexample): the daemon's set-up on the grid `quadGrid` with a
fresh cycling provider.  The first tick, at clock 1700000000000 ms, finds the
smoothed point (0, 0) in cell 8590065665 and fetches a frame for (0, 0).  After
`injectLocation(-0.0005, 0, 0, ..)` the tick 100 ms later finds the smoothed
point (-10100000001/20202000002000, 0) in the different cell 8589803521, asks
the provider, and publishes the frame of the first tick: a non-empty frame
that the provider fetched for (0, 0), a point of cell 8590065665. -/
theorem cached_frame_from_other_cell :
    (secondTick (-1 / 2000) 0).state.smoothed_lat = -10100000001 / 20202000002000 ∧
    (secondTick (-1 / 2000) 0).state.smoothed_lon = 0 ∧
    (secondTick (-1 / 2000) 0).state.s2_cell_id = 8589803521 ∧
    (secondTick (-1 / 2000) 0).context ≠ ContextFrame.zero ∧
    (secondTick (-1 / 2000) 0).context = firstTick.context ∧
    firstTick.service.context_provider_.map
      (fun provider => provider.computedFor 1700000000100
        (secondTick (-1 / 2000) 0).state.smoothed_lat
        (secondTick (-1 / 2000) 0).state.smoothed_lon) = some (0, 0) ∧
    quadGrid.cell_of 0 0 16 = 8590065665 := by
  have hst := secondTick_state (-1 / 2000) 0
  have hlat : (10100000001 / 10101000001 * (-1 / 2000) : ℚ) = -10100000001 / 20202000002000 := by
    norm_num
  have hlon : (10100000001 / 10101000001 * 0 : ℚ) = 0 := by norm_num
  rw [hlat, hlon] at hst
  have hcell : (secondTick (-1 / 2000) 0).state.s2_cell_id = 8589803521 :=
    hst.2.2.trans (quadGrid_cell _ _ 32767 65536 (by norm_num) (by norm_num))
  have hpt := injectLocation_fresh firstTick.service (-1 / 2000) 0 0 1700000000050
    WorldState.zero firstTick_filter
  rw [hlat, hlon] at hpt
  have hk := injectLocation_keeps firstTick.service (-1 / 2000) 0 0 1700000000050
  have hcall := tickPayload_call
    (firstTick.service.injectLocation (-1 / 2000) 0 0 1700000000050) 1700000000100
    WorldState.zero ContextFrame.zero _ (hk.2.1.trans firstTick_provider.1)
    (by
      rw [hk.1, firstTick_geometry, hk.2.2, firstTick_provider.2, hpt.1, hpt.2,
        quadGrid_cell _ _ 32767 65536 (by norm_num) (by norm_num)]
      decide)
  rw [hpt.1, hpt.2] at hcall
  have hhit := nearby_cache_hit (-10100000001 / 20202000002000)
    (by rw [abs_le]; constructor <;> norm_num)
  have hctx : (secondTick (-1 / 2000) 0).context =
      CyclingContextProvider.fetchFresh ContextFrame.zero 1700000000000 0 0 := by
    rw [secondTick_def, hcall.1]
    simp only [ContextProvider.getContext, CyclingContextProvider.getContext, hhit, if_true]
  refine ⟨hst.1, hst.2.1, hcell, ?_, ?_, ?_, quadGrid_cell 0 0 32768 65536 (by norm_num)
    (by norm_num)⟩
  · rw [hctx]
    exact fetchFresh_ne_zero _ _ _ _
  · rw [hctx, firstTick_fetches.1]
  · rw [firstTick_provider.1, hst.1, hst.2.1]
    simp only [Option.map_some', ContextProvider.computedFor, hhit, if_true]

/-- C17 (amended): a frame the daemon publishes that is not empty is the
provider's `getContext` result for the smoothed point of the state it is
published with.  The point that frame was fetched for is less than 0.001
degrees away from the smoothed point in latitude and in longitude: it is the
smoothed point itself or, when the cycling provider answers from its cache, the
cached point, whose frame was stored less than 5000 ms before.  Nothing places
the cached point in the cell of the published state. -/
theorem published_frame_point (s : LocationService) (now : Int) (uninitState : WorldState)
    (uninitContext : ContextFrame)
    (hne : (s.tickPayload now uninitState uninitContext).context ≠ ContextFrame.zero) :
    ∃ provider, s.context_provider_ = some provider ∧
      (s.tickPayload now uninitState uninitContext).context =
        (provider.getContext now uninitContext
          (s.tickPayload now uninitState uninitContext).state.smoothed_lat
          (s.tickPayload now uninitState uninitContext).state.smoothed_lon).1 ∧
      |(s.tickPayload now uninitState uninitContext).state.smoothed_lat -
        (provider.computedFor now
          (s.tickPayload now uninitState uninitContext).state.smoothed_lat
          (s.tickPayload now uninitState uninitContext).state.smoothed_lon).1| < 1 / 1000 ∧
      |(s.tickPayload now uninitState uninitContext).state.smoothed_lon -
        (provider.computedFor now
          (s.tickPayload now uninitState uninitContext).state.smoothed_lat
          (s.tickPayload now uninitState uninitContext).state.smoothed_lon).2| < 1 / 1000 ∧
      (provider.computedFor now
          (s.tickPayload now uninitState uninitContext).state.smoothed_lat
          (s.tickPayload now uninitState uninitContext).state.smoothed_lon =
        ((s.tickPayload now uninitState uninitContext).state.smoothed_lat,
          (s.tickPayload now uninitState uninitContext).state.smoothed_lon) ∨
       ∃ p, provider = ContextProvider.cycling p ∧
        (s.tickPayload now uninitState uninitContext).context = p.cached_context_ ∧
        provider.computedFor now
          (s.tickPayload now uninitState uninitContext).state.smoothed_lat
          (s.tickPayload now uninitState uninitContext).state.smoothed_lon =
            (p.cached_lat_, p.cached_lon_) ∧
        now - p.cached_timestamp_ms_ < 5000) := by
  have hlat : (s.tickPayload now uninitState uninitContext).state.smoothed_lat =
      (s.kalman_filter_.getSmoothedState uninitState).smoothed_lat := by
    rw [tickPayload_state]
  have hlon : (s.tickPayload now uninitState uninitContext).state.smoothed_lon =
      (s.kalman_filter_.getSmoothedState uninitState).smoothed_lon := by
    rw [tickPayload_state]
  rw [hlat, hlon]
  cases hp : s.context_provider_ with
  | none => exact absurd (tickPayload_no_call s now _ _ (Or.inl hp)).1 hne
  | some provider =>
    by_cases hc : s.geometry_index_.cell_of
        (s.kalman_filter_.getSmoothedState uninitState).smoothed_lat
        (s.kalman_filter_.getSmoothedState uninitState).smoothed_lon 16 = s.last_s2_cell_
    · exact absurd (tickPayload_no_call s now _ _ (Or.inr hc)).1 hne
    · have hcall := (tickPayload_call s now uninitState uninitContext provider hp hc).1
      refine ⟨provider, rfl, hcall, ?_⟩
      rw [hcall]
      cases provider with
      | dating =>
        simp only [ContextProvider.computedFor, sub_self, abs_zero]
        exact ⟨by norm_num, by norm_num, Or.inl trivial⟩
      | cycling p =>
        simp only [ContextProvider.computedFor, ContextProvider.getContext,
          CyclingContextProvider.getContext]
        by_cases hit : p.cacheHit now
            (s.kalman_filter_.getSmoothedState uninitState).smoothed_lat
            (s.kalman_filter_.getSmoothedState uninitState).smoothed_lon = true
        · simp only [hit, if_true]
          have hit2 := hit
          simp only [CyclingContextProvider.cacheHit, CACHE_TTL_MS, Bool.and_eq_true,
            decide_eq_true_eq] at hit2
          exact ⟨lt_milli_of_rounded _ hit2.1.2, lt_milli_of_rounded _ hit2.2,
            Or.inr ⟨p, rfl, rfl, rfl, hit2.1.1⟩⟩
        · have hf := Bool.eq_false_iff.mpr hit
          simp only [hf, Bool.false_eq_true, if_false, sub_self, abs_zero]
          exact ⟨by norm_num, by norm_num, Or.inl trivial⟩

theorem published_frame_point_witness :
    firstTick.context ≠ ContextFrame.zero ∧
    ∃ provider, cyclingService.context_provider_ = some provider ∧
      firstTick.context =
        (provider.getContext 1700000000000 ContextFrame.zero
          firstTick.state.smoothed_lat firstTick.state.smoothed_lon).1 ∧
      |firstTick.state.smoothed_lat -
        (provider.computedFor 1700000000000
          firstTick.state.smoothed_lat firstTick.state.smoothed_lon).1| < 1 / 1000 ∧
      |firstTick.state.smoothed_lon -
        (provider.computedFor 1700000000000
          firstTick.state.smoothed_lat firstTick.state.smoothed_lon).2| < 1 / 1000 := by
  have hne : firstTick.context ≠ ContextFrame.zero := by
    rw [firstTick_fetches.1]
    exact fetchFresh_ne_zero _ _ _ _
  refine ⟨hne, ?_⟩
  rw [firstTick_def] at hne ⊢
  exact (published_frame_point cyclingService 1700000000000 WorldState.zero ContextFrame.zero
    hne).imp (fun _ h => ⟨h.1, h.2.1, h.2.2.1, h.2.2.2.1⟩)

/-- C18 (the code at the failing input): `getSmoothedState` never assigns
`update_sequence`, and neither does the service loop, so every state the
daemon publishes carries whatever the default-initialised local held.  Two
consecutive ticks that find the same storage content publish the same
`update_sequence`, whatever the filter did in between; the second is not
greater than the first.  The sibling `WorldStateImpl::updatePosition`, which
the daemon does not use, stores the incremented counter. -/
theorem tick_update_sequence_uninitialised (s : LocationService) (now now2 : Int)
    (kf2 : KalmanFilter) (uninitState : WorldState) (uninitContext uninitContext2 : ContextFrame)
    (w : WorldStateImpl) (lat lon altitude : ℚ) (timestamp : Int) :
    (s.tickPayload now uninitState uninitContext).state.update_sequence =
      uninitState.update_sequence ∧
    (LocationService.tickPayload
      { (s.tickPayload now uninitState uninitContext).service with kalman_filter_ := kf2 }
      now2 uninitState uninitContext2).state.update_sequence = uninitState.update_sequence ∧
    ¬ ((s.tickPayload now uninitState uninitContext).state.update_sequence <
      (LocationService.tickPayload
        { (s.tickPayload now uninitState uninitContext).service with kalman_filter_ := kf2 }
        now2 uninitState uninitContext2).state.update_sequence) ∧
    (w.updatePosition lat lon altitude timestamp).current_state_.update_sequence =
      (w.update_count_ + 1) % 2 ^ 32 := by
  have h1 : (s.tickPayload now uninitState uninitContext).state.update_sequence =
      uninitState.update_sequence := by
    rw [tickPayload_state]; rfl
  have h2 : (LocationService.tickPayload
      { (s.tickPayload now uninitState uninitContext).service with kalman_filter_ := kf2 }
      now2 uninitState uninitContext2).state.update_sequence = uninitState.update_sequence := by
    rw [tickPayload_state]; rfl
  refine ⟨h1, h2, ?_, rfl⟩
  rw [h1, h2]
  exact lt_irrefl _

/-! ## Plugin registry -/

theorem ensureInstance_present (r : PluginRegistry) (name : List Nat) (factory : ProviderFactory)
    (inst : Option ContextProvider) (h : r.instances_ name = some inst) :
    r.ensureInstance name factory = r := by
  simp only [PluginRegistry.ensureInstance, h]

theorem ensureInstance_absent (r : PluginRegistry) (name : List Nat) (factory : ProviderFactory)
    (h : r.instances_ name = none) :
    r.ensureInstance name factory =
      { r with
        instances_ := Function.update r.instances_ name (some (factory ())),
        factory_calls := name :: r.factory_calls } := by
  simp only [PluginRegistry.ensureInstance, h]

theorem ensureInstance_keeps (r : PluginRegistry) (name : List Nat) (factory : ProviderFactory) :
    (r.ensureInstance name factory).factories_ = r.factories_ ∧
    (r.ensureInstance name factory).active_provider_ = r.active_provider_ ∧
    (r.ensureInstance name factory).active_provider_name_ = r.active_provider_name_ ∧
    (∀ other, other ≠ name → (r.ensureInstance name factory).instances_ other =
      r.instances_ other) := by
  cases h : r.instances_ name with
  | some inst =>
    rw [ensureInstance_present r name factory inst h]
    exact ⟨rfl, rfl, rfl, fun _ _ => rfl⟩
  | none =>
    rw [ensureInstance_absent r name factory h]
    exact ⟨rfl, rfl, rfl, fun other ho => Function.update_noteq ho _ _⟩

theorem ensureInstance_traced (r : PluginRegistry) (name : List Nat) (factory : ProviderFactory)
    (ht : r.Traced) : (r.ensureInstance name factory).Traced := by
  cases h : r.instances_ name with
  | some inst =>
    rw [ensureInstance_present r name factory inst h]
    exact ht
  | none =>
    rw [ensureInstance_absent r name factory h]
    refine ⟨List.nodup_cons.mpr ⟨fun hmem => ?_, ht.1⟩, fun other ho => ?_⟩
    · have := ht.2 name hmem
      rw [h] at this
      cases this
    · show (Function.update r.instances_ name (some (factory ())) other).isSome = true
      by_cases e : other = name
      · subst e
        rw [Function.update_same]
        rfl
      · rw [Function.update_noteq e]
        rcases List.mem_cons.mp ho with h1 | h1
        · exact absurd h1 e
        · exact ht.2 other h1

theorem call_traced (r : PluginRegistry) (c : RegistryCall) (ht : r.Traced) :
    (r.call c).Traced := by
  cases c with
  | registerProvider name factory => exact ht
  | activateProvider name =>
    simp only [PluginRegistry.call, PluginRegistry.activateProvider]
    cases hf : r.factories_ name with
    | none => exact ht
    | some factory => exact ensureInstance_traced r name factory ht
  | getProvider name =>
    simp only [PluginRegistry.call, PluginRegistry.getProvider]
    cases hf : r.factories_ name with
    | none => exact ht
    | some factory => exact ensureInstance_traced r name factory ht

theorem run_traced (calls : List RegistryCall) :
    ∀ r : PluginRegistry, r.Traced → (r.run calls).Traced := by
  induction calls with
  | nil => intro r ht; exact ht
  | cons c calls ih => intro r ht; exact ih (r.call c) (call_traced r c ht)

theorem daemonRegistry_traced (uninit : ContextFrame) : (daemonRegistry uninit).Traced :=
  ⟨List.nodup_nil, fun _ h => absurd h (List.not_mem_nil _)⟩

/-- C19: `activateProvider(name)` returns true exactly when a factory is
registered under `name`.  On success the active name is `name` and the active
provider is the instance the map holds for `name`: the instance that was
there before the call (no factory invocation, the map unchanged), or, when
there was none, the result of one invocation of the factory; entries under
other names are untouched.  On failure the registry is unchanged.  Over any
sequence of `registerProvider`, `activateProvider` and `getProvider` calls on a
registry whose record of factory invocations is consistent, the factory is
invoked at most once for each name. -/
theorem activateProvider_semantics (r : PluginRegistry) (name : List Nat)
    (calls : List RegistryCall) (ht : r.Traced) :
    ((r.activateProvider name).1 = true ↔ (r.factories_ name).isSome = true) ∧
    ((r.activateProvider name).1 = true →
      (r.activateProvider name).2.active_provider_name_ = name ∧
      (r.activateProvider name).2.getActiveProvider =
        (r.activateProvider name).2.instancePointer name ∧
      (r.activateProvider name).2.deref (r.activateProvider name).2.getActiveProvider =
        ((r.activateProvider name).2.instances_ name).join ∧
      (∀ inst, r.instances_ name = some inst →
        (r.activateProvider name).2.instances_ = r.instances_ ∧
        (r.activateProvider name).2.factory_calls = r.factory_calls) ∧
      (r.instances_ name = none →
        (∃ factory, r.factories_ name = some factory ∧
          (r.activateProvider name).2.instances_ name = some (factory ())) ∧
        (r.activateProvider name).2.factory_calls = name :: r.factory_calls) ∧
      (∀ other, other ≠ name →
        (r.activateProvider name).2.instances_ other = r.instances_ other)) ∧
    ((r.activateProvider name).1 = false → (r.activateProvider name).2 = r) ∧
    (r.run calls).factory_calls.Nodup := by
  refine ⟨?_, ?_, ?_, (run_traced calls r ht).1⟩
  · cases hf : r.factories_ name <;> simp [PluginRegistry.activateProvider, hf]
  · intro hs
    cases hf : r.factories_ name with
    | none => simp [PluginRegistry.activateProvider, hf] at hs
    | some factory =>
      have e : r.activateProvider name =
          (true, { r.ensureInstance name factory with
            active_provider_ := (r.ensureInstance name factory).instancePointer name,
            active_provider_name_ := name }) := by
        simp only [PluginRegistry.activateProvider, hf]
      rw [e]
      refine ⟨rfl, rfl, ?_, ?_, ?_, ?_⟩
      · show PluginRegistry.deref _ ((r.ensureInstance name factory).instancePointer name) =
          ((r.ensureInstance name factory).instances_ name).join
        simp only [PluginRegistry.deref, PluginRegistry.instancePointer]
        cases h : (r.ensureInstance name factory).instances_ name with
        | none => rfl
        | some inst =>
          cases inst with
          | none => rfl
          | some provider => simp [h]
      · intro inst hi
        rw [ensureInstance_present r name factory inst hi]
        exact ⟨rfl, rfl⟩
      · intro hn
        rw [ensureInstance_absent r name factory hn]
        exact ⟨⟨factory, rfl, Function.update_same _ _ _⟩, rfl⟩
      · intro other ho
        exact (ensureInstance_keeps r name factory).2.2.2 other ho
  · intro hfail
    cases hf : r.factories_ name with
    | none => simp only [PluginRegistry.activateProvider, hf]
    | some factory => simp [PluginRegistry.activateProvider, hf] at hfail

theorem activateProvider_semantics_witness :
    (daemonRegistry ContextFrame.zero).Traced ∧
    ((daemonRegistry ContextFrame.zero).activateProvider (str "cycling")).1 = true ∧
    ((daemonRegistry ContextFrame.zero).activateProvider (str "delivery")).1 = false ∧
    ((daemonRegistry ContextFrame.zero).run
      [RegistryCall.activateProvider (str "cycling"), RegistryCall.getProvider (str "cycling"),
        RegistryCall.activateProvider (str "dating"),
        RegistryCall.activateProvider (str "cycling")]).factory_calls.Nodup ∧
    ((daemonRegistry ContextFrame.zero).run
      [RegistryCall.activateProvider (str "cycling"), RegistryCall.getProvider (str "cycling"),
        RegistryCall.activateProvider (str "dating"),
        RegistryCall.activateProvider (str "cycling")]).factory_calls =
          [str "dating", str "cycling"] :=
  ⟨daemonRegistry_traced _,
    (activateProvider_semantics (daemonRegistry ContextFrame.zero) (str "cycling") []
      (daemonRegistry_traced _)).1.mpr (by decide),
    by decide,
    (activateProvider_semantics (daemonRegistry ContextFrame.zero) (str "cycling") _
      (daemonRegistry_traced _)).2.2.2,
    by decide⟩

/-! ## Command dispatcher -/

theorem found_iff (haystack needle : List Nat) :
    found haystack needle = true ↔ needle <:+: haystack := by
  simp only [found, List.any_eq_true, List.mem_tails, List.isPrefixOf_iff_prefix]
  constructor
  · rintro ⟨t, ht, hn⟩
    exact List.infix_iff_prefix_suffix.mpr ⟨t, hn, ht⟩
  · intro hi
    obtain ⟨t, hn, ht⟩ := List.infix_iff_prefix_suffix.mp hi
    exact ⟨t, ht, hn⟩

theorem found_or_iff (l a b : List Nat) :
    (found l a || found l b) = true ↔ (a <:+: l ∨ b <:+: l) := by
  rw [Bool.or_eq_true, found_iff, found_iff]

theorem setAccuracyLevel_ready (seg : Bool) (h : SharedMemoryHeader)
    (b : Nat → RingBufferEntry) (level : ℚ) (h0 : 0 ≤ level) (h1 : level ≤ 1) :
    setAccuracyLevel ⟨seg, some h, some b, true⟩ level =
      ⟨seg, some { h with accuracy_level := level }, some b, true⟩ := by
  simp [setAccuracyLevel, SharedMemoryManager.isReady, SharedMemoryManager.getHeader, h0, h1]

theorem daemonRegistry_cycling (uninit : ContextFrame) :
    ((daemonRegistry uninit).activateProvider (str "cycling")).1 = true ∧
    getActivePlugin ((daemonRegistry uninit).activateProvider (str "cycling")).2 =
      str "cycling" := by
  have hne : str "cycling" ≠ str "dating" := by decide
  have hf : (daemonRegistry uninit).factories_ (str "cycling") =
      some (fun _ => some (ContextProvider.cycling (CyclingContextProvider.new uninit))) := by
    simp only [daemonRegistry, PluginRegistry.registerProvider]
    rw [Function.update_noteq hne, Function.update_same]
  have hi : (daemonRegistry uninit).instances_ (str "cycling") = none := rfl
  have e : (daemonRegistry uninit).activateProvider (str "cycling") =
      (true, { (daemonRegistry uninit).ensureInstance (str "cycling")
          (fun _ => some (ContextProvider.cycling (CyclingContextProvider.new uninit))) with
        active_provider_ := ((daemonRegistry uninit).ensureInstance (str "cycling")
          (fun _ => some (ContextProvider.cycling
            (CyclingContextProvider.new uninit)))).instancePointer (str "cycling"),
        active_provider_name_ := str "cycling" }) := by
    simp only [PluginRegistry.activateProvider, hf]
  rw [e, ensureInstance_absent _ _ _ hi]
  refine ⟨rfl, ?_⟩
  simp only [getActivePlugin, PluginRegistry.getActiveProvider, PluginRegistry.instancePointer,
    PluginRegistry.deref, Function.update_same, Option.join]
  rfl

theorem processCommand_eq (r : PluginRegistry) (m : SharedMemoryManager) (command : List Nat) :
    processCommand r m command =
      if mentions command "cycling" ∨ mentions command "bike" then
        ((r.activateProvider (str "cycling")).1, (r.activateProvider (str "cycling")).2, m)
      else if mentions command "dating" ∨ mentions command "tinder" then
        ((r.activateProvider (str "dating")).1, (r.activateProvider (str "dating")).2, m)
      else if mentions command "delivery" then
        ((r.activateProvider (str "delivery")).1, (r.activateProvider (str "delivery")).2, m)
      else if mentions command "running" ∨ mentions command "walking" then
        ((r.activateProvider (str "cycling")).1, (r.activateProvider (str "cycling")).2,
          setAccuracyLevel m 1)
      else if mentions command "driving" ∨ mentions command "car" then
        ((r.activateProvider (str "cycling")).1, (r.activateProvider (str "cycling")).2,
          setAccuracyLevel m (1 / 2))
      else (false, r, m) := by
  simp only [processCommand, mentions, found_or_iff, found_iff]

theorem processCommand_start_cycling (r : PluginRegistry) (m : SharedMemoryManager) :
    processCommand r m (str "Start cycling") =
      ((r.activateProvider (str "cycling")).1, (r.activateProvider (str "cycling")).2, m) := by
  have h : found (toLower (str "Start cycling")) (str "cycling") = true := by decide
  simp only [processCommand, h, Bool.true_or, if_true]

theorem processCommand_driving_to_work (r : PluginRegistry) (m : SharedMemoryManager) :
    processCommand r m (str "driving to work") =
      ((r.activateProvider (str "cycling")).1, (r.activateProvider (str "cycling")).2,
        setAccuracyLevel m (1 / 2)) := by
  have h1 : (found (toLower (str "driving to work")) (str "cycling") ||
    found (toLower (str "driving to work")) (str "bike")) = false := by decide
  have h2 : (found (toLower (str "driving to work")) (str "dating") ||
    found (toLower (str "driving to work")) (str "tinder")) = false := by decide
  have h3 : found (toLower (str "driving to work")) (str "delivery") = false := by decide
  have h4 : (found (toLower (str "driving to work")) (str "running") ||
    found (toLower (str "driving to work")) (str "walking")) = false := by decide
  have h5 : (found (toLower (str "driving to work")) (str "driving") ||
    found (toLower (str "driving to work")) (str "car")) = true := by decide
  simp only [processCommand, h1, h2, h3, h4, h5, Bool.false_eq_true, if_false, if_true]

/-- C20: `processCommand` decides on the lower-cased command by substring
search, first matching row first: "cycling" or "bike" gives the result of
`activateProvider("cycling")`; else "dating" or "tinder" that of
`activateProvider("dating")`; else "delivery" that of
`activateProvider("delivery")`; else "running" or "walking" calls
`setAccuracyLevel(1.0)` and gives `activateProvider("cycling")`; else "driving"
or "car" calls `setAccuracyLevel(0.5)` and gives `activateProvider("cycling")`;
a command with none of the keywords returns false and leaves registry and
shared memory as they were.  Commands with the same lower-casing have the same
outcome.  On a ready segment `setAccuracyLevel(level)` with 0 <= level <= 1
stores `level` in the header.  With the daemon's registrations, "Start
cycling" activates the cycling provider, and "driving to work" activates it
after `setAccuracyLevel(0.5)`. -/
theorem processCommand_rows (r : PluginRegistry) (m : SharedMemoryManager)
    (command : List Nat) (uninit : ContextFrame) :
    (mentions command "cycling" ∨ mentions command "bike" →
      processCommand r m command =
        ((r.activateProvider (str "cycling")).1, (r.activateProvider (str "cycling")).2, m)) ∧
    (¬ (mentions command "cycling" ∨ mentions command "bike") →
      mentions command "dating" ∨ mentions command "tinder" →
      processCommand r m command =
        ((r.activateProvider (str "dating")).1, (r.activateProvider (str "dating")).2, m)) ∧
    (¬ (mentions command "cycling" ∨ mentions command "bike") →
      ¬ (mentions command "dating" ∨ mentions command "tinder") →
      mentions command "delivery" →
      processCommand r m command =
        ((r.activateProvider (str "delivery")).1, (r.activateProvider (str "delivery")).2, m)) ∧
    (¬ (mentions command "cycling" ∨ mentions command "bike") →
      ¬ (mentions command "dating" ∨ mentions command "tinder") →
      ¬ mentions command "delivery" →
      mentions command "running" ∨ mentions command "walking" →
      processCommand r m command =
        ((r.activateProvider (str "cycling")).1, (r.activateProvider (str "cycling")).2,
          setAccuracyLevel m 1)) ∧
    (¬ (mentions command "cycling" ∨ mentions command "bike") →
      ¬ (mentions command "dating" ∨ mentions command "tinder") →
      ¬ mentions command "delivery" →
      ¬ (mentions command "running" ∨ mentions command "walking") →
      mentions command "driving" ∨ mentions command "car" →
      processCommand r m command =
        ((r.activateProvider (str "cycling")).1, (r.activateProvider (str "cycling")).2,
          setAccuracyLevel m (1 / 2))) ∧
    (¬ (mentions command "cycling" ∨ mentions command "bike") →
      ¬ (mentions command "dating" ∨ mentions command "tinder") →
      ¬ mentions command "delivery" →
      ¬ (mentions command "running" ∨ mentions command "walking") →
      ¬ (mentions command "driving" ∨ mentions command "car") →
      processCommand r m command = (false, r, m)) ∧
    (∀ other, toLower other = toLower command →
      processCommand r m other = processCommand r m command) ∧
    (∀ (seg : Bool) (h : SharedMemoryHeader) (b : Nat → RingBufferEntry) (level : ℚ),
      0 ≤ level → level ≤ 1 →
      setAccuracyLevel ⟨seg, some h, some b, true⟩ level =
        ⟨seg, some { h with accuracy_level := level }, some b, true⟩) ∧
    ((processCommand (daemonRegistry uninit) m (str "Start cycling")).1 = true ∧
      getActivePlugin (processCommand (daemonRegistry uninit) m (str "Start cycling")).2.1 =
        str "cycling" ∧
      (processCommand (daemonRegistry uninit) m (str "Start cycling")).2.2 = m) ∧
    ((processCommand (daemonRegistry uninit) m (str "driving to work")).1 = true ∧
      getActivePlugin (processCommand (daemonRegistry uninit) m (str "driving to work")).2.1 =
        str "cycling" ∧
      (processCommand (daemonRegistry uninit) m (str "driving to work")).2.2 =
        setAccuracyLevel m (1 / 2)) := by
  refine ⟨?_, ?_, ?_, ?_, ?_, ?_, ?_, ?_, ?_, ?_⟩
  · intro h1
    rw [processCommand_eq, if_pos h1]
  · intro h1 h2
    rw [processCommand_eq, if_neg h1, if_pos h2]
  · intro h1 h2 h3
    rw [processCommand_eq, if_neg h1, if_neg h2, if_pos h3]
  · intro h1 h2 h3 h4
    rw [processCommand_eq, if_neg h1, if_neg h2, if_neg h3, if_pos h4]
  · intro h1 h2 h3 h4 h5
    rw [processCommand_eq, if_neg h1, if_neg h2, if_neg h3, if_neg h4, if_pos h5]
  · intro h1 h2 h3 h4 h5
    rw [processCommand_eq, if_neg h1, if_neg h2, if_neg h3, if_neg h4, if_neg h5]
  · intro other h
    simp only [processCommand, h]
  · intro seg h b level h0 h1
    exact setAccuracyLevel_ready seg h b level h0 h1
  · rw [processCommand_start_cycling]
    exact ⟨(daemonRegistry_cycling uninit).1, (daemonRegistry_cycling uninit).2, rfl⟩
  · rw [processCommand_driving_to_work]
    exact ⟨(daemonRegistry_cycling uninit).1, (daemonRegistry_cycling uninit).2, rfl⟩

theorem processCommand_rows_witness :
    (processCommand (daemonRegistry ContextFrame.zero) readyManager
      (str "what time is it")) = (false, daemonRegistry ContextFrame.zero, readyManager) ∧
    processCommand (daemonRegistry ContextFrame.zero) readyManager (str "START CYCLING") =
      processCommand (daemonRegistry ContextFrame.zero) readyManager (str "Start cycling") ∧
    (processCommand (daemonRegistry ContextFrame.zero) readyManager
      (str "driving to work")).2.2 =
      ⟨true, some { SharedMemoryHeader.init with
          location_service_alive := true, accuracy_level := 1 / 2 },
        some (fun _ => RingBufferEntry.zero), true⟩ := by
  have h := processCommand_rows (daemonRegistry ContextFrame.zero) readyManager
    (str "what time is it") ContextFrame.zero
  have h2 := processCommand_rows (daemonRegistry ContextFrame.zero) readyManager
    (str "Start cycling") ContextFrame.zero
  refine ⟨h.2.2.2.2.2.1 ?_ ?_ ?_ ?_ ?_, h2.2.2.2.2.2.2.1 (str "START CYCLING") (by decide), ?_⟩
  · simp only [mentions, ← found_iff]; decide
  · simp only [mentions, ← found_iff]; decide
  · simp only [mentions, ← found_iff]; decide
  · simp only [mentions, ← found_iff]; decide
  · simp only [mentions, ← found_iff]; decide
  · rw [h.2.2.2.2.2.2.2.2.2.2.2, readyManager_eq]
    exact h.2.2.2.2.2.2.2.1 _ _ _ _ (by norm_num) (by norm_num)

/-! ## Header metadata -/

theorem getAccuracyLevel_ready (seg : Bool) (h : SharedMemoryHeader)
    (b : Nat → RingBufferEntry) :
    IPCReader.getAccuracyLevel ⟨seg, some h, some b, true⟩ = h.accuracy_level := by
  simp [IPCReader.getAccuracyLevel, SharedMemoryManager.isReady, SharedMemoryManager.getHeader]

theorem setAccuracyLevel_ready_clamped (seg : Bool) (h : SharedMemoryHeader)
    (b : Nat → RingBufferEntry) (level : ℚ) :
    setAccuracyLevel ⟨seg, some h, some b, true⟩ level =
      ⟨seg, some { h with accuracy_level := max 0 (min 1 level) }, some b, true⟩ := by
  simp [setAccuracyLevel, SharedMemoryManager.isReady, SharedMemoryManager.getHeader]

theorem setAccuracyLevel_active_plugin (m : SharedMemoryManager) (level : ℚ) :
    IPCReader.getActivePlugin (setAccuracyLevel m level) = IPCReader.getActivePlugin m := by
  obtain ⟨seg, hd, rb, rdy⟩ := m
  cases rdy <;> cases hd <;>
    simp [setAccuracyLevel, IPCReader.getActivePlugin, SharedMemoryManager.isReady,
      SharedMemoryManager.getHeader]

/-- C21: on a ready segment `setAccuracyLevel(level)` stores
max(0, min(1, level)) in the header and changes nothing else; the stored
value lies in [0, 1], `IPCReader::getAccuracyLevel` returns it, and a level
already in [0, 1] is read back unchanged. -/
theorem setAccuracyLevel_clamps (m : SharedMemoryManager) (level : ℚ) (hr : m.Ready) :
    (setAccuracyLevel m level).header_ =
      m.header_.map (fun h => { h with accuracy_level := max 0 (min 1 level) }) ∧
    (setAccuracyLevel m level).ring_buffer_ = m.ring_buffer_ ∧
    (setAccuracyLevel m level).Ready ∧
    IPCReader.getAccuracyLevel (setAccuracyLevel m level) = max 0 (min 1 level) ∧
    0 ≤ IPCReader.getAccuracyLevel (setAccuracyLevel m level) ∧
    IPCReader.getAccuracyLevel (setAccuracyLevel m level) ≤ 1 ∧
    (0 ≤ level → level ≤ 1 →
      IPCReader.getAccuracyLevel (setAccuracyLevel m level) = level) := by
  obtain ⟨seg, h, b, rfl⟩ := ready_cases hr
  rw [setAccuracyLevel_ready_clamped, getAccuracyLevel_ready]
  refine ⟨rfl, rfl, by simp [SharedMemoryManager.Ready], rfl, le_max_left _ _,
    max_le (by norm_num) (min_le_left _ _), ?_⟩
  intro h0 h1
  show max 0 (min 1 level) = level
  rw [min_eq_right h1, max_eq_right h0]

theorem setAccuracyLevel_clamps_witness :
    readyManager.Ready ∧
    IPCReader.getAccuracyLevel (setAccuracyLevel readyManager (3 / 4)) = 3 / 4 ∧
    IPCReader.getAccuracyLevel (setAccuracyLevel readyManager 7) = 1 ∧
    IPCReader.getAccuracyLevel (setAccuracyLevel readyManager (-2)) = 0 :=
  ⟨readyManager_ready,
    (setAccuracyLevel_clamps readyManager (3 / 4) readyManager_ready).2.2.2.2.2.2
      (by norm_num) (by norm_num),
    ((setAccuracyLevel_clamps readyManager 7 readyManager_ready).2.2.2.1).trans (by norm_num),
    ((setAccuracyLevel_clamps readyManager (-2) readyManager_ready).2.2.2.1).trans
      (by norm_num)⟩

theorem readyManager_active_plugin : IPCReader.getActivePlugin readyManager = [] := by
  rw [readyManager_eq]
  rfl

/-- C22 (the code at the failing input): no path of `processCommand` writes
the header's `active_plugin`: what `IPCReader::getActivePlugin` returns after
the call is what it returned before, whatever the registry, the segment and
the command.  With the daemon's registrations on a freshly initialised ready
segment, "Start cycling" returns true and the dispatcher's own
`getActivePlugin` names "cycling", while the consumer still reads the empty
string. -/
theorem active_plugin_not_mirrored (r : PluginRegistry) (m : SharedMemoryManager)
    (command : List Nat) (uninit : ContextFrame) :
    IPCReader.getActivePlugin (processCommand r m command).2.2 =
      IPCReader.getActivePlugin m ∧
    (processCommand (daemonRegistry uninit) readyManager (str "Start cycling")).1 = true ∧
    getActivePlugin (processCommand (daemonRegistry uninit) readyManager
      (str "Start cycling")).2.1 = str "cycling" ∧
    IPCReader.getActivePlugin (processCommand (daemonRegistry uninit) readyManager
      (str "Start cycling")).2.2 = [] := by
  refine ⟨?_, ?_, ?_, ?_⟩
  · rw [processCommand_eq]
    split_ifs <;> first | rfl | exact setAccuracyLevel_active_plugin m _
  · rw [processCommand_start_cycling]
    exact (daemonRegistry_cycling uninit).1
  · rw [processCommand_start_cycling]
    exact (daemonRegistry_cycling uninit).2
  · rw [processCommand_start_cycling]
    exact readyManager_active_plugin

/-! ## Context cache -/

theorem cacheHit_iff (p : CyclingContextProvider) (t : Int) (lat lon : ℚ) :
    p.cacheHit t lat lon = true ↔
      t - p.cached_timestamp_ms_ < 5000 ∧
        |roundToDouble (lat - p.cached_lat_)| < roundToDouble (1 / 1000) ∧
        |roundToDouble (lon - p.cached_lon_)| < roundToDouble (1 / 1000) := by
  simp only [CyclingContextProvider.cacheHit, CACHE_TTL_MS, Bool.and_eq_true,
    decide_eq_true_eq, and_assoc]

theorem cacheHit_of_close (p : CyclingContextProvider) (t : Int) (lat lon : ℚ)
    (ht : t - p.cached_timestamp_ms_ < 5000)
    (hlat : |lat - p.cached_lat_| ≤ 1 / 1000 - 2 / 10 ^ 19)
    (hlon : |lon - p.cached_lon_| ≤ 1 / 1000 - 2 / 10 ^ 19) :
    p.cacheHit t lat lon = true :=
  (cacheHit_iff p t lat lon).mpr ⟨ht, rounded_lt_milli _ hlat, rounded_lt_milli _ hlon⟩

theorem getContext_hit (p : CyclingContextProvider) (t : Int) (uninit : ContextFrame)
    (lat lon : ℚ) (h : p.cacheHit t lat lon = true) :
    p.getContext t uninit lat lon = (p.cached_context_, p) ∧ p.fetches t lat lon = [] := by
  simp only [CyclingContextProvider.getContext, CyclingContextProvider.fetches, h, if_true]
  exact ⟨trivial, trivial⟩

theorem getContext_miss (p : CyclingContextProvider) (t : Int) (uninit : ContextFrame)
    (lat lon : ℚ) (h : p.cacheHit t lat lon = false) :
    p.getContext t uninit lat lon =
      (CyclingContextProvider.fetchFresh uninit t lat lon,
        { p with
          cached_context_ := CyclingContextProvider.fetchFresh uninit t lat lon,
          cached_lat_ := lat,
          cached_lon_ := lon,
          cached_timestamp_ms_ := t }) ∧
    p.fetches t lat lon =
      [FetchCall.fetchElevation lat lon, FetchCall.fetchTraffic lat lon,
        FetchCall.fetchSurface lat lon] := by
  simp only [CyclingContextProvider.getContext, CyclingContextProvider.fetches, h,
    Bool.false_eq_true, if_false]
  exact ⟨trivial, trivial⟩

theorem fetchFresh_timestamp (uninit : ContextFrame) (t : Int) (lat lon : ℚ) :
    (CyclingContextProvider.fetchFresh uninit t lat lon).timestamp_ms = t := rfl

/-- C23: with the clock an explicit input `t`, `getContext(lat, lon)` takes the
cache branch exactly when t - cached_timestamp < 5000 and |lat - cached_lat| <
0.001 and |lon - cached_lon| < 0.001, the differences being the double
differences the source computes and 0.001 the double of that literal.  A
request on the cache branch is less than 0.001 away from the cached point in
exact terms as well, and a request whose exact distances are at most
0.001 - 2e-19, with an entry younger than 5000 ms, is on the cache branch.  On
the cache branch `getContext` returns the cached frame, leaves the provider as
it was and performs no fetch.  Otherwise it performs the three fetches, stamps
the frame with `t`, stores (frame, lat, lon, t) in the cache, leaves the other
members alone and returns the frame. -/
theorem getContext_cache_semantics (p : CyclingContextProvider) (t : Int)
    (uninit : ContextFrame) (lat lon : ℚ) :
    (p.cacheHit t lat lon = true ↔
      t - p.cached_timestamp_ms_ < 5000 ∧
        |roundToDouble (lat - p.cached_lat_)| < roundToDouble (1 / 1000) ∧
        |roundToDouble (lon - p.cached_lon_)| < roundToDouble (1 / 1000)) ∧
    (p.cacheHit t lat lon = true →
      |lat - p.cached_lat_| < 1 / 1000 ∧ |lon - p.cached_lon_| < 1 / 1000) ∧
    (t - p.cached_timestamp_ms_ < 5000 → |lat - p.cached_lat_| ≤ 1 / 1000 - 2 / 10 ^ 19 →
      |lon - p.cached_lon_| ≤ 1 / 1000 - 2 / 10 ^ 19 → p.cacheHit t lat lon = true) ∧
    (p.cacheHit t lat lon = true →
      (p.getContext t uninit lat lon).1 = p.cached_context_ ∧
      (p.getContext t uninit lat lon).2 = p ∧
      p.fetches t lat lon = []) ∧
    (p.cacheHit t lat lon = false →
      (p.getContext t uninit lat lon).1 = CyclingContextProvider.fetchFresh uninit t lat lon ∧
      (p.getContext t uninit lat lon).1.timestamp_ms = t ∧
      (p.getContext t uninit lat lon).2 =
        { p with
          cached_context_ := (p.getContext t uninit lat lon).1,
          cached_lat_ := lat,
          cached_lon_ := lon,
          cached_timestamp_ms_ := t } ∧
      p.fetches t lat lon =
        [FetchCall.fetchElevation lat lon, FetchCall.fetchTraffic lat lon,
          FetchCall.fetchSurface lat lon]) := by
  refine ⟨cacheHit_iff p t lat lon, fun h => ?_, cacheHit_of_close p t lat lon,
    fun h => ?_, fun h => ?_⟩
  · have h2 := (cacheHit_iff p t lat lon).mp h
    exact ⟨lt_milli_of_rounded _ h2.2.1, lt_milli_of_rounded _ h2.2.2⟩
  · have e := getContext_hit p t uninit lat lon h
    rw [e.1]
    exact ⟨rfl, rfl, e.2⟩
  · have e := getContext_miss p t uninit lat lon h
    rw [e.1]
    exact ⟨rfl, rfl, rfl, e.2⟩

theorem new_provider_miss (uninit : ContextFrame) (lat lon : ℚ) :
    (CyclingContextProvider.new uninit).cacheHit 1700000000000 lat lon = false := by
  rw [Bool.eq_false_iff, Ne, cacheHit_iff]
  have t0 : (CyclingContextProvider.new uninit).cached_timestamp_ms_ = 0 := rfl
  rw [t0]
  intro h
  exact absurd h.1 (by norm_num)

theorem warmProvider_cache :
    warmProvider.cached_timestamp_ms_ = 1700000000000 ∧
    warmProvider.cached_lat_ = 377749 / 10000 ∧
    warmProvider.cached_lon_ = -1224194 / 10000 ∧
    warmProvider.cached_context_ =
      CyclingContextProvider.fetchFresh ContextFrame.zero 1700000000000
        (377749 / 10000) (-1224194 / 10000) := by
  have e := (getContext_miss (CyclingContextProvider.new ContextFrame.zero) 1700000000000
    ContextFrame.zero (377749 / 10000) (-1224194 / 10000) (new_provider_miss _ _ _)).1
  unfold warmProvider
  rw [e]
  exact ⟨rfl, rfl, rfl, rfl⟩

theorem warmProvider_hit (t : Int) (h : t < 1700000005000) :
    warmProvider.cacheHit t (377749 / 10000) (-1224194 / 10000) = true := by
  refine cacheHit_of_close _ _ _ _ ?_ ?_ ?_
  · rw [warmProvider_cache.1]
    omega
  · rw [warmProvider_cache.2.1]
    norm_num
  · rw [warmProvider_cache.2.2.1]
    norm_num

theorem warmProvider_miss (t : Int) (h : 1700000005000 ≤ t) :
    warmProvider.cacheHit t (377749 / 10000) (-1224194 / 10000) = false := by
  rw [Bool.eq_false_iff, Ne, cacheHit_iff, warmProvider_cache.1]
  intro hh
  omega

theorem edgeProvider_cache :
    edgeProvider.cached_timestamp_ms_ = 1700000000000 ∧
    edgeProvider.cached_lat_ = -5534023222112865 / 2 ^ 64 ∧
    edgeProvider.cached_lon_ = 0 := by
  have e := (getContext_miss (CyclingContextProvider.new ContextFrame.zero) 1700000000000
    ContextFrame.zero (-5534023222112865 / 2 ^ 64) 0 (new_provider_miss _ _ _)).1
  unfold edgeProvider
  rw [e]
  exact ⟨rfl, rfl, rfl⟩

/-- The doubles of the literals -0.0003 and 0.0007: their exact distance is
below 1/1000, their double difference is the double of the literal 0.001. -/
theorem edge_difference :
    roundToDouble (-5534023222112865 / 2 ^ 64) = -5534023222112865 / 2 ^ 64 ∧
    roundToDouble (6456360425798343 / 2 ^ 63) = 6456360425798343 / 2 ^ 63 ∧
    |(6456360425798343 / 2 ^ 63 : ℚ) - -5534023222112865 / 2 ^ 64| < 1 / 1000 ∧
    roundToDouble (6456360425798343 / 2 ^ 63 - -5534023222112865 / 2 ^ 64) =
      roundToDouble (1 / 1000) := by
  refine ⟨?_, ?_, ?_, ?_⟩
  · have := roundToDouble_grid (-5534023222112865) (-64) (by decide) (by norm_num)
    rw [zpow_neg, zpow_ofNat] at this
    have e : ((-5534023222112865 : Int) : ℚ) * ((2 : ℚ) ^ 64)⁻¹ =
        -5534023222112865 / 2 ^ 64 := by push_cast; ring
    rwa [e] at this
  · have := roundToDouble_grid 6456360425798343 (-63) (by decide) (by norm_num)
    rw [zpow_neg, zpow_ofNat, Int.cast_ofNat] at this
    exact this
  · rw [abs_lt]
    constructor <;> norm_num
  · rw [roundToDouble_milli]
    have h := roundToDouble_eval (6456360425798343 / 2 ^ 63 - -5534023222112865 / 2 ^ 64)
      (-10) 4611686018427388 (by norm_num) (by norm_num) (by norm_num) (by norm_num)
      (by norm_num)
    rw [h]
    norm_num

theorem edgeProvider_miss :
    edgeProvider.cacheHit 1700000000100 (6456360425798343 / 2 ^ 63) 0 = false := by
  rw [Bool.eq_false_iff, Ne, cacheHit_iff, edgeProvider_cache.2.1, edge_difference.2.2.2]
  intro h
  have := h.2.1
  rw [abs_of_nonneg (roundToDouble_nonneg _ (by norm_num))] at this
  exact lt_irrefl _ this

theorem getContext_cache_semantics_witness :
    warmProvider.cacheHit 1700000004999 (377749 / 10000) (-1224194 / 10000) = true ∧
    warmProvider.fetches 1700000004999 (377749 / 10000) (-1224194 / 10000) = [] ∧
    (warmProvider.getContext 1700000004999 ContextFrame.zero (377749 / 10000)
      (-1224194 / 10000)).2 = warmProvider ∧
    warmProvider.cacheHit 1700000005000 (377749 / 10000) (-1224194 / 10000) = false ∧
    (warmProvider.getContext 1700000005000 ContextFrame.zero (377749 / 10000)
      (-1224194 / 10000)).1.timestamp_ms = 1700000005000 ∧
    edgeProvider.cacheHit 1700000000100 (6456360425798343 / 2 ^ 63) 0 = false ∧
    edgeProvider.fetches 1700000000100 (6456360425798343 / 2 ^ 63) 0 =
      [FetchCall.fetchElevation (6456360425798343 / 2 ^ 63) 0,
        FetchCall.fetchTraffic (6456360425798343 / 2 ^ 63) 0,
        FetchCall.fetchSurface (6456360425798343 / 2 ^ 63) 0] :=
  ⟨warmProvider_hit _ (by norm_num),
    ((getContext_cache_semantics warmProvider 1700000004999 ContextFrame.zero _ _).2.2.2.1
      (warmProvider_hit _ (by norm_num))).2.2,
    ((getContext_cache_semantics warmProvider 1700000004999 ContextFrame.zero _ _).2.2.2.1
      (warmProvider_hit _ (by norm_num))).2.1,
    warmProvider_miss _ (by norm_num),
    ((getContext_cache_semantics warmProvider 1700000005000 ContextFrame.zero _ _).2.2.2.2
      (warmProvider_miss _ (by norm_num))).2.1,
    edgeProvider_miss,
    ((getContext_cache_semantics edgeProvider 1700000000100 ContextFrame.zero _ _).2.2.2.2
      edgeProvider_miss).2.2.2⟩

/-- C24 (counterexample): a cycling provider whose cache was filled at clock
1700000000000 ms for the point (37.7749, -122.4194).  The call for the same
point at +4000 ms is answered from the cache and leaves the cache time stamp
at 1700000000000; the next call for the same point at +6000 ms, 2000 ms after
the previous call, finds the entry 6000 ms old and performs the three
fetches. -/
theorem stationary_repeat_fetches :
    warmProvider.fetches 1700000004000 (377749 / 10000) (-1224194 / 10000) = [] ∧
    (1700000004000 : Int) ≤ 1700000006000 ∧ (1700000006000 : Int) < 1700000004000 + 5000 ∧
    (warmProvider.getContext 1700000004000 ContextFrame.zero (377749 / 10000)
      (-1224194 / 10000)).2.fetches 1700000006000 (377749 / 10000) (-1224194 / 10000) =
        [FetchCall.fetchElevation (377749 / 10000) (-1224194 / 10000),
          FetchCall.fetchTraffic (377749 / 10000) (-1224194 / 10000),
          FetchCall.fetchSurface (377749 / 10000) (-1224194 / 10000)] := by
  have h1 := getContext_hit warmProvider 1700000004000 ContextFrame.zero (377749 / 10000)
    (-1224194 / 10000) (warmProvider_hit _ (by norm_num))
  refine ⟨h1.2, by norm_num, by norm_num, ?_⟩
  rw [h1.1]
  exact (getContext_miss warmProvider 1700000006000 ContextFrame.zero _ _
    (warmProvider_miss _ (by norm_num))).2

/-- C24 (amended): a call at time t' for (lat', lon') that follows a call at
time t for (lat, lon), with t' < t + 5000 ms and both coordinate differences,
computed in double arithmetic, below the double 0.001 in magnitude (which
exact distances of at most 0.001 - 2e-19 guarantee, the same point in
particular), performs no fetch and returns the frame of the first call,
provided the first call fetched.  When the first call was itself answered from
the cache, the cache keeps its older entry, and the second call performs no
fetch exactly when t' and (lat', lon') pass the cache test against that
entry. -/
theorem repeat_within_ttl (p : CyclingContextProvider) (t t' : Int)
    (uninit uninit' : ContextFrame) (lat lon lat' lon' : ℚ)
    (ht : t' < t + 5000)
    (hlat : |roundToDouble (lat' - lat)| < roundToDouble (1 / 1000))
    (hlon : |roundToDouble (lon' - lon)| < roundToDouble (1 / 1000)) :
    (p.cacheHit t lat lon = false →
      (p.getContext t uninit lat lon).2.fetches t' lat' lon' = [] ∧
      ((p.getContext t uninit lat lon).2.getContext t' uninit' lat' lon').1 =
        (p.getContext t uninit lat lon).1) ∧
    (p.cacheHit t lat lon = true →
      ((p.getContext t uninit lat lon).2.fetches t' lat' lon' = [] ↔
        t' - p.cached_timestamp_ms_ < 5000 ∧
          |roundToDouble (lat' - p.cached_lat_)| < roundToDouble (1 / 1000) ∧
          |roundToDouble (lon' - p.cached_lon_)| < roundToDouble (1 / 1000))) ∧
    (∀ a b : ℚ, |a - b| ≤ 1 / 1000 - 2 / 10 ^ 19 →
      |roundToDouble (a - b)| < roundToDouble (1 / 1000)) := by
  refine ⟨?_, ?_, fun a b h => rounded_lt_milli _ h⟩
  · intro h
    rw [(getContext_miss p t uninit lat lon h).1]
    have hit : CyclingContextProvider.cacheHit
        { p with
          cached_context_ := CyclingContextProvider.fetchFresh uninit t lat lon,
          cached_lat_ := lat,
          cached_lon_ := lon,
          cached_timestamp_ms_ := t } t' lat' lon' = true := by
      rw [cacheHit_iff]
      exact ⟨by dsimp only; omega, hlat, hlon⟩
    have e := getContext_hit _ t' uninit' lat' lon' hit
    dsimp only at e ⊢
    exact ⟨e.2, by rw [e.1]⟩
  · intro h
    rw [(getContext_hit p t uninit lat lon h).1]
    dsimp only
    rw [← cacheHit_iff]
    simp only [CyclingContextProvider.fetches]
    cases p.cacheHit t' lat' lon' <;> simp

theorem repeat_within_ttl_witness :
    (1700000000100 : Int) < 1700000000000 + 5000 ∧
    |roundToDouble ((377750 / 10000 : ℚ) - 377749 / 10000)| < roundToDouble (1 / 1000) ∧
    |roundToDouble ((-1224194 / 10000 : ℚ) - -1224194 / 10000)| < roundToDouble (1 / 1000) ∧
    warmProvider.fetches 1700000000100 (377750 / 10000) (-1224194 / 10000) = [] := by
  have h1 : |roundToDouble ((377750 / 10000 : ℚ) - 377749 / 10000)| <
      roundToDouble (1 / 1000) := rounded_lt_milli _ (by rw [abs_le]; constructor <;> norm_num)
  have h2 : |roundToDouble ((-1224194 / 10000 : ℚ) - -1224194 / 10000)| <
      roundToDouble (1 / 1000) := rounded_lt_milli _ (by rw [abs_le]; constructor <;> norm_num)
  have h := (repeat_within_ttl (CyclingContextProvider.new ContextFrame.zero) 1700000000000
    1700000000100 ContextFrame.zero ContextFrame.zero (377749 / 10000) (-1224194 / 10000)
    (377750 / 10000) (-1224194 / 10000) (by norm_num) h1 h2).1
    (new_provider_miss _ _ _)
  exact ⟨by norm_num, h1, h2, h.1⟩

/-! ## Context hash -/

theorem hashContext_eq (ctx : ContextFrame) :
    GeminiIntegration.hashContext ctx =
      ((((((ctx.road_type.take 64).takeWhile (fun c => c ≠ 0)).foldl
        (fun (hash : Nat) c => (((hash : Int) * 31 + charValue c) % 2 ^ 64).toNat) 0 : Nat)
          : Int) * 31 + truncToInt (roundToDouble (ctx.gradient_percent * 10))) % 2 ^ 64).toNat :=
  rfl

theorem hashContext_congr (c1 c2 : ContextFrame) (h1 : c1.road_type = c2.road_type)
    (h2 : truncToInt (roundToDouble (c1.gradient_percent * 10)) =
      truncToInt (roundToDouble (c2.gradient_percent * 10))) :
    GeminiIntegration.hashContext c1 = GeminiIntegration.hashContext c2 := by
  rw [hashContext_eq, hashContext_eq, h1, h2]

theorem truncToInt_range (x : ℚ) : -(2 ^ 31) ≤ truncToInt x ∧ truncToInt x < 2 ^ 31 := by
  unfold truncToInt
  split_ifs with h
  · exact h
  · exact ⟨le_rfl, by norm_num⟩

theorem towardZero_fits (x : ℚ) (h : |x| < 2 ^ 31) :
    -(2 ^ 31) < towardZero x ∧ towardZero x < 2 ^ 31 := by
  rw [abs_lt] at h
  unfold towardZero
  split_ifs with h0
  · have h1 := Int.floor_le x
    have h2 : (0 : Int) ≤ ⌊x⌋ := Int.floor_nonneg.mpr h0
    constructor
    · omega
    · have : ((⌊x⌋ : Int) : ℚ) < ((2 ^ 31 : Int) : ℚ) := by push_cast; linarith [h.2]
      exact_mod_cast this
  · have h1 := Int.le_ceil x
    have h2 : ⌈x⌉ ≤ (0 : Int) := Int.ceil_le.mpr (by push_cast; linarith [not_le.mp h0])
    constructor
    · have : ((-(2 ^ 31) : Int) : ℚ) < ((⌈x⌉ : Int) : ℚ) := by push_cast; linarith [h.1]
      exact_mod_cast this
    · omega

theorem truncToInt_of_fits (x : ℚ) (h : |x| < 2 ^ 31) : truncToInt x = towardZero x := by
  have r := towardZero_fits x h
  unfold truncToInt
  rw [if_pos ⟨by omega, r.2⟩]

theorem hashContext_injective (c1 c2 : ContextFrame) (h1 : c1.road_type = c2.road_type)
    (h : GeminiIntegration.hashContext c1 = GeminiIntegration.hashContext c2) :
    truncToInt (roundToDouble (c1.gradient_percent * 10)) =
      truncToInt (roundToDouble (c2.gradient_percent * 10)) := by
  have r1 := truncToInt_range (roundToDouble (c1.gradient_percent * 10))
  have r2 := truncToInt_range (roundToDouble (c2.gradient_percent * 10))
  rw [hashContext_eq, hashContext_eq, h1] at h
  generalize ((((c2.road_type.take 64).takeWhile (fun c => c ≠ 0)).foldl
    (fun (hash : Nat) c => (((hash : Int) * 31 + charValue c) % 2 ^ 64).toNat) 0 : Nat) : Int)
    = H at h
  generalize truncToInt (roundToDouble (c1.gradient_percent * 10)) = g1 at h r1 ⊢
  generalize truncToInt (roundToDouble (c2.gradient_percent * 10)) = g2 at h r2 ⊢
  have e : (H * 31 + g1) % 2 ^ 64 = (H * 31 + g2) % 2 ^ 64 := by
    have n1 : 0 ≤ (H * 31 + g1) % 2 ^ 64 := Int.emod_nonneg _ (by norm_num)
    have n2 : 0 ≤ (H * 31 + g2) % 2 ^ 64 := Int.emod_nonneg _ (by norm_num)
    rw [← Int.toNat_of_nonneg n1, ← Int.toNat_of_nonneg n2, h]
  norm_num at e r1 r2
  omega

theorem towardZero_bucket (x : ℚ) (k : ℕ) (h1 : (k : ℚ) ≤ x) (h2 : x < k + 1) :
    towardZero x = k := by
  have h0 : (0 : ℚ) ≤ x := le_trans (Nat.cast_nonneg k) h1
  simp only [towardZero, h0, if_true]
  rw [Int.floor_eq_iff]
  exact ⟨by exact_mod_cast h1, by exact_mod_cast h2⟩

theorem towardZero_neg_bucket (x : ℚ) (k : ℕ) (h1 : -((k : ℚ) + 1) < x) (h2 : x ≤ -(k : ℚ))
    (h3 : x < 0) : towardZero x = -(k : Int) := by
  simp only [towardZero, not_le.mpr h3, if_false]
  rw [Int.ceil_eq_iff]
  push_cast
  constructor <;> linarith

theorem truncToInt_bucket (x : ℚ) (k : ℕ) (hk : k < 2 ^ 31) (h1 : (k : ℚ) ≤ x)
    (h2 : x < k + 1) : truncToInt x = k := by
  have hx : |x| < 2 ^ 31 := by
    rw [abs_of_nonneg (le_trans (Nat.cast_nonneg k) h1)]
    have : (k : ℚ) + 1 ≤ ((2 ^ 31 : Nat) : ℚ) := by exact_mod_cast hk
    push_cast at this
    linarith
  rw [truncToInt_of_fits x hx, towardZero_bucket x k h1 h2]

theorem truncToInt_neg_bucket (x : ℚ) (k : ℕ) (hk : k < 2 ^ 31) (h1 : -((k : ℚ) + 1) < x)
    (h2 : x ≤ -(k : ℚ)) (h3 : x < 0) : truncToInt x = -(k : Int) := by
  have hx : |x| < 2 ^ 31 := by
    rw [abs_of_neg h3]
    have : (k : ℚ) + 1 ≤ ((2 ^ 31 : Nat) : ℚ) := by exact_mod_cast hk
    push_cast at this
    linarith
  rw [truncToInt_of_fits x hx, towardZero_neg_bucket x k h1 h2 h3]

theorem roundToDouble_dyadic (n : Int) (k : Nat) (hn : n.natAbs < 2 ^ 53) (hk : k ≤ 1074) :
    roundToDouble ((n : ℚ) / 2 ^ k) = n / 2 ^ k := by
  have := roundToDouble_grid n (-(k : Int)) hn (by omega)
  rw [zpow_neg, zpow_natCast, ← div_eq_mul_inv] at this
  exact this

/-- The doubles of the literals 0.65 and 0.7, multiplied by 10 in double
arithmetic: the double of 0.7 lies below 7/10, and its tenfold value, exactly
halfway between two doubles, is rounded up to 7.0. -/
theorem tenfold_near_seven :
    (3152519739159347 / 2 ^ 52 : ℚ) < 7 / 10 ∧
    roundToDouble (3152519739159347 / 2 ^ 52 * 10) = 7 ∧
    roundToDouble (5854679515581645 / 2 ^ 53 * 10) = 13 / 2 := by
  refine ⟨by norm_num, ?_, ?_⟩
  · have hx : (0 : ℚ) ≤ 3152519739159347 / 2 ^ 52 * 10 := by norm_num
    rw [roundToDouble_of_nonneg _ hx]
    have ht : (3152519739159347 / 2 ^ 52 * 10 : ℚ) / 2 ^ ((2 : Int) - 52) =
        ((7881299347898368 : Int) : ℚ) - 1 / 2 := by norm_num
    have h := roundMagnitude_eval (3152519739159347 / 2 ^ 52 * 10) 2 7881299347898368
      (by norm_num) (by norm_num) (by norm_num)
      (by rw [ht]; exact (roundHalfEven_tie 7881299347898368 (by decide)).2)
    rw [h]
    norm_num
  · have h := roundToDouble_eval (5854679515581645 / 2 ^ 53 * 10) 2 7318349394477056
      (by norm_num) (by norm_num) (by norm_num) (by norm_num) (by norm_num)
    rw [h]
    norm_num

theorem hash_of_empty_road (g : ℚ) (k : ℕ) (hk : k < 2 ^ 31)
    (h1 : (k : ℚ) ≤ roundToDouble (g * 10)) (h2 : roundToDouble (g * 10) < k + 1) :
    GeminiIntegration.hashContext { ContextFrame.zero with gradient_percent := g } = k := by
  have ht := truncToInt_bucket _ k hk h1 h2
  have hr : ({ ContextFrame.zero with gradient_percent := g } : ContextFrame).road_type
      = List.replicate 64 0 := rfl
  rw [hashContext_eq]
  dsimp only
  rw [ht, hr]
  have e : ((List.replicate 64 0).take 64).takeWhile (fun c => decide (c ≠ 0)) = [] := by
    decide
  rw [e]
  simp only [List.foldl_nil]
  have hk2 : ((0 : Nat) : Int) * 31 + (k : Int) = ((k : Nat) : Int) := by simp
  rw [hk2]
  have hlt : k < 2 ^ 64 := lt_trans hk (by norm_num)
  omega

/-- C25 (counterexample): frames with empty `road_type` that differ only in
the gradient.  Gradients 0.9375 and 1.0 are 0.0625 apart; their tenfold values
truncate to 9 and to 10, and the hashes are 9 and 10.  The doubles of the
literals 0.65 and 0.7 are less than 0.1 apart as well, both lie in [0.6, 0.7),
and the hashes are 6 and 7, because the double product 0.7 * 10 is 7.0. -/
theorem close_gradients_hash_apart :
    |(15 / 16 : ℚ) - 1| < 1 / 10 ∧
    GeminiIntegration.hashContext { ContextFrame.zero with gradient_percent := 15 / 16 } = 9 ∧
    GeminiIntegration.hashContext { ContextFrame.zero with gradient_percent := 1 } = 10 ∧
    |(5854679515581645 / 2 ^ 53 : ℚ) - 3152519739159347 / 2 ^ 52| < 1 / 10 ∧
    (3152519739159347 / 2 ^ 52 : ℚ) < 7 / 10 ∧
    GeminiIntegration.hashContext
      { ContextFrame.zero with gradient_percent := 5854679515581645 / 2 ^ 53 } = 6 ∧
    GeminiIntegration.hashContext
      { ContextFrame.zero with gradient_percent := 3152519739159347 / 2 ^ 52 } = 7 := by
  have e1 : roundToDouble ((15 / 16 : ℚ) * 10) = 75 / 8 := by
    have := roundToDouble_dyadic 75 3 (by decide) (by norm_num)
    norm_num at this ⊢
    exact this
  have e2 : roundToDouble ((1 : ℚ) * 10) = 10 := by
    have := roundToDouble_intCast 10 (by decide)
    norm_num at this ⊢
    exact this
  refine ⟨by rw [abs_lt]; constructor <;> norm_num, ?_, ?_,
    by rw [abs_lt]; constructor <;> norm_num, tenfold_near_seven.1, ?_, ?_⟩
  · exact hash_of_empty_road _ 9 (by norm_num) (by rw [e1]; norm_num) (by rw [e1]; norm_num)
  · exact hash_of_empty_road _ 10 (by norm_num) (by rw [e2]; norm_num) (by rw [e2]; norm_num)
  · exact hash_of_empty_road _ 6 (by norm_num) (by rw [tenfold_near_seven.2.2]; norm_num)
      (by rw [tenfold_near_seven.2.2]; norm_num)
  · exact hash_of_empty_road _ 7 (by norm_num) (by rw [tenfold_near_seven.2.1]; norm_num)
      (by rw [tenfold_near_seven.2.1]; norm_num)

/-- C25 (amended): for two frames with the same `road_type` whose tenfold
gradients, computed as double products, fit an `int`, `hashContext` returns the
same value exactly when the two products truncate (toward zero) to the same
integer; in particular when both products lie in the same interval [k, k+1),
k >= 0, the hashes are equal, and then the adapter tick that reads the second
frame after having forwarded the first forwards nothing.  Closeness of the
gradients alone does not give equal hashes. -/
theorem gradient_bucket_hash (c1 c2 : ContextFrame) (k : ℕ)
    (hroad : c1.road_type = c2.road_type)
    (r1 : |roundToDouble (c1.gradient_percent * 10)| < 2 ^ 31)
    (r2 : |roundToDouble (c2.gradient_percent * 10)| < 2 ^ 31) :
    (GeminiIntegration.hashContext c1 = GeminiIntegration.hashContext c2 ↔
      towardZero (roundToDouble (c1.gradient_percent * 10)) =
        towardZero (roundToDouble (c2.gradient_percent * 10))) ∧
    ((k : ℚ) ≤ roundToDouble (c1.gradient_percent * 10) →
      roundToDouble (c1.gradient_percent * 10) < k + 1 →
      (k : ℚ) ≤ roundToDouble (c2.gradient_percent * 10) →
      roundToDouble (c2.gradient_percent * 10) < k + 1 →
      GeminiIntegration.hashContext c1 = GeminiIntegration.hashContext c2 ∧
      ∀ (m : SharedMemoryManager) (s : WorldState) (uninitState : WorldState)
          (uninitContext : ContextFrame), m.Ready → m.IndexInRange →
        (GeminiIntegration.contextUpdateStep
          { last_context_hash_ := GeminiIntegration.hashContext c1 }
          (writeState m s c2) uninitState uninitContext).2 = none) := by
  have f1 := truncToInt_of_fits _ r1
  have f2 := truncToInt_of_fits _ r2
  refine ⟨⟨fun h => ?_, fun h => ?_⟩, ?_⟩
  · rw [← f1, ← f2]
    exact hashContext_injective c1 c2 hroad h
  · exact hashContext_congr c1 c2 hroad (by rw [f1, f2, h])
  intro a1 a2 b1 b2
  have t1 := towardZero_bucket _ k a1 a2
  have t2 := towardZero_bucket _ k b1 b2
  have e := hashContext_congr c1 c2 hroad (by rw [f1, f2, t1, t2])
  refine ⟨e, ?_⟩
  intro m s uS uC hr hi
  simp only [GeminiIntegration.contextUpdateStep, round_trip m hr hi s c2 uS uC, e, ne_eq,
    not_true_eq_false, if_true, if_false]

theorem gradient_bucket_hash_witness :
    (({ ContextFrame.zero with gradient_percent := 11 / 2 } : ContextFrame).road_type =
      ({ ContextFrame.zero with gradient_percent := 111 / 20 } : ContextFrame).road_type) ∧
    |roundToDouble ((11 / 2 : ℚ) * 10)| < 2 ^ 31 ∧
    |roundToDouble ((111 / 20 : ℚ) * 10)| < 2 ^ 31 ∧
    GeminiIntegration.hashContext { ContextFrame.zero with gradient_percent := 11 / 2 } =
      GeminiIntegration.hashContext { ContextFrame.zero with gradient_percent := 111 / 20 } := by
  have e1 : roundToDouble ((11 / 2 : ℚ) * 10) = 55 := by
    have := roundToDouble_intCast 55 (by decide)
    norm_num at this ⊢
    exact this
  have e2 : roundToDouble ((111 / 20 : ℚ) * 10) = 111 / 2 := by
    have := roundToDouble_dyadic 111 1 (by decide) (by norm_num)
    norm_num at this ⊢
    exact this
  have r1 : |roundToDouble ((11 / 2 : ℚ) * 10)| < 2 ^ 31 := by
    rw [e1, abs_of_nonneg (by norm_num)]; norm_num
  have r2 : |roundToDouble ((111 / 20 : ℚ) * 10)| < 2 ^ 31 := by
    rw [e2, abs_of_nonneg (by norm_num)]; norm_num
  exact ⟨rfl, r1, r2,
    ((gradient_bucket_hash { ContextFrame.zero with gradient_percent := 11 / 2 }
      { ContextFrame.zero with gradient_percent := 111 / 20 } 55 rfl r1 r2).2
      (by dsimp only; rw [e1]; norm_num) (by dsimp only; rw [e1]; norm_num)
      (by dsimp only; rw [e2]; norm_num) (by dsimp only; rw [e2]; norm_num)).1⟩

/-- C26: `hashContext` reads `road_type` and `gradient_percent` only: two
frames that agree on these two fields have the same hash whatever their other
seven fields are, and an adapter tick that reads the second frame after having
forwarded the first forwards nothing and keeps its stored hash. -/
theorem hashContext_reads_two_fields (c1 c2 : ContextFrame) (m : SharedMemoryManager)
    (s uninitState : WorldState) (uninitContext : ContextFrame)
    (hroad : c1.road_type = c2.road_type)
    (hgrad : c1.gradient_percent = c2.gradient_percent)
    (hr : m.Ready) (hi : m.IndexInRange) :
    GeminiIntegration.hashContext c1 = GeminiIntegration.hashContext c2 ∧
    GeminiIntegration.contextUpdateStep
        { last_context_hash_ := GeminiIntegration.hashContext c1 }
        (writeState m s c2) uninitState uninitContext =
      ({ last_context_hash_ := GeminiIntegration.hashContext c1 }, none) := by
  have e := hashContext_congr c1 c2 hroad (by rw [hgrad])
  refine ⟨e, ?_⟩
  simp only [GeminiIntegration.contextUpdateStep, round_trip m hr hi s c2 uninitState
    uninitContext, e, ne_eq, not_true_eq_false, if_true, if_false]

theorem hashContext_reads_two_fields_witness :
    readyManager.Ready ∧ readyManager.IndexInRange ∧
    GeminiIntegration.hashContext
        (CyclingContextProvider.fetchFresh ContextFrame.zero 1700000000000 0 0) =
      GeminiIntegration.hashContext
        { CyclingContextProvider.fetchFresh ContextFrame.zero 1700000000000 0 0 with
          road_name := str "Market Street", traffic_level := str "heavy",
          current_speed := 3, speed_limit := 30, elevation_gain_m := 120,
          hazards := [], timestamp_ms := 1700000009000 } :=
  ⟨readyManager_ready, readyManager_indexInRange,
    (hashContext_reads_two_fields
      (CyclingContextProvider.fetchFresh ContextFrame.zero 1700000000000 0 0)
      { CyclingContextProvider.fetchFresh ContextFrame.zero 1700000000000 0 0 with
        road_name := str "Market Street", traffic_level := str "heavy",
        current_speed := 3, speed_limit := 30, elevation_gain_m := 120,
        hazards := [], timestamp_ms := 1700000009000 }
      readyManager WorldState.zero WorldState.zero ContextFrame.zero rfl rfl
      readyManager_ready readyManager_indexInRange).1⟩

/-! ## Great-circle distance -/

theorem distanceMeters_eq_haversine {α : Type} [Field α] (libm : Libm α)
    (lat1 lon1 lat2 lon2 : α) :
    S2GeometryIndex.distanceMeters libm lat1 lon1 lat2 lon2 =
      haversine libm (radians libm lat1) (radians libm lon1) (radians libm lat2)
        (radians libm lon2) := by
  simp only [S2GeometryIndex.distanceMeters, haversine, radians]
  have e1 : (lat2 * libm.M_PI / 180 - lat1 * libm.M_PI / 180) / 2 =
      (lat2 - lat1) * libm.M_PI / 180 / 2 := by ring
  have e2 : (lon2 * libm.M_PI / 180 - lon1 * libm.M_PI / 180) / 2 =
      (lon2 - lon1) * libm.M_PI / 180 / 2 := by ring
  rw [e1, e2]
  ring_nf

theorem sin_between (x lo hi : ℝ) (h0 : 0 < lo) (h1 : lo ≤ x) (h2 : x ≤ hi) (h3 : hi ≤ 1) :
    lo - hi ^ 3 / 4 < Real.sin x ∧ Real.sin x < hi := by
  have hx : 0 < x := lt_of_lt_of_le h0 h1
  have hx1 : x ≤ 1 := le_trans h2 h3
  have a := Real.sin_gt_sub_cube hx hx1
  have b := Real.sin_lt hx
  have c : x ^ 3 ≤ hi ^ 3 := pow_le_pow_left₀ (le_of_lt hx) h2 3
  constructor <;> linarith

theorem cos_between (x lo hi : ℝ) (h0 : 0 ≤ lo) (h1 : lo ≤ x) (h2 : x ≤ hi) (h3 : hi ≤ 1) :
    1 - hi ^ 2 / 2 ≤ Real.cos x ∧ Real.cos x ≤ 1 - lo ^ 2 / 2 + hi ^ 4 * (5 / 96) := by
  have hx : 0 ≤ x := le_trans h0 h1
  have hx1 : |x| ≤ 1 := by rw [abs_of_nonneg hx]; exact le_trans h2 h3
  have a := Real.one_sub_sq_div_two_le_cos (x := x)
  have b := abs_le.mp (Real.cos_bound hx1)
  rw [abs_of_nonneg hx] at b
  have c : x ^ 2 ≤ hi ^ 2 := pow_le_pow_left₀ hx h2 2
  have d : lo ^ 2 ≤ x ^ 2 := pow_le_pow_left₀ h0 h1 2
  have e : x ^ 4 ≤ hi ^ 4 := pow_le_pow_left₀ hx h2 4
  constructor <;> linarith [b.1, b.2]

set_option maxHeartbeats 1600000 in
theorem sf_la_haversine_argument :
    (17 / 10000 : ℝ) <
      Real.sin ((340522 / 10000 - 377749 / 10000) * Real.pi / 180 / 2) *
        Real.sin ((340522 / 10000 - 377749 / 10000) * Real.pi / 180 / 2) +
      Real.cos (377749 / 10000 * Real.pi / 180) * Real.cos (340522 / 10000 * Real.pi / 180) *
        Real.sin ((-1182437 / 10000 - -1224194 / 10000) * Real.pi / 180 / 2) *
        Real.sin ((-1182437 / 10000 - -1224194 / 10000) * Real.pi / 180 / 2) ∧
    Real.sin ((340522 / 10000 - 377749 / 10000) * Real.pi / 180 / 2) *
        Real.sin ((340522 / 10000 - 377749 / 10000) * Real.pi / 180 / 2) +
      Real.cos (377749 / 10000 * Real.pi / 180) * Real.cos (340522 / 10000 * Real.pi / 180) *
        Real.sin ((-1182437 / 10000 - -1224194 / 10000) * Real.pi / 180 / 2) *
        Real.sin ((-1182437 / 10000 - -1224194 / 10000) * Real.pi / 180 / 2) <
      (20 / 10000 : ℝ) := by
  have p1 : (3141592 / 1000000 : ℝ) < Real.pi := by
    have h := Real.pi_gt_d6
    norm_num at h ⊢
    exact h
  have p2 : Real.pi < (3141593 / 1000000 : ℝ) := by
    have h := Real.pi_lt_d6
    norm_num at h ⊢
    exact h
  have e1 : (340522 / 10000 - 377749 / 10000) * Real.pi / 180 / 2 =
      -(37227 / 3600000 * Real.pi) := by ring
  have e2 : (-1182437 / 10000 - -1224194 / 10000) * Real.pi / 180 / 2 =
      41757 / 3600000 * Real.pi := by ring
  rw [e1, e2, Real.sin_neg]
  obtain ⟨s1l, s1u⟩ := sin_between (37227 / 3600000 * Real.pi) (3248 / 100000) (3249 / 100000)
    (by norm_num) (by linarith) (by linarith) (by norm_num)
  obtain ⟨s2l, s2u⟩ := sin_between (41757 / 3600000 * Real.pi) (3643 / 100000) (3645 / 100000)
    (by norm_num) (by linarith) (by linarith) (by norm_num)
  obtain ⟨c1l, c1u⟩ := cos_between (377749 / 10000 * Real.pi / 180) (659 / 1000) (660 / 1000)
    (by norm_num) (by linarith) (by linarith) (by norm_num)
  obtain ⟨c2l, c2u⟩ := cos_between (340522 / 10000 * Real.pi / 180) (594 / 1000) (595 / 1000)
    (by norm_num) (by linarith) (by linarith) (by norm_num)
  generalize Real.sin (37227 / 3600000 * Real.pi) = s1 at s1l s1u ⊢
  generalize Real.sin (41757 / 3600000 * Real.pi) = s2 at s2l s2u ⊢
  generalize Real.cos (377749 / 10000 * Real.pi / 180) = c1 at c1l c1u ⊢
  generalize Real.cos (340522 / 10000 * Real.pi / 180) = c2 at c2l c2u ⊢
  norm_num at s1l s1u s2l s2u c1l c1u c2l c2u
  have s1p : (3247 / 100000 : ℝ) < s1 := by linarith
  have s2p : (3641 / 100000 : ℝ) < s2 := by linarith
  have c1p : (78 / 100 : ℝ) ≤ c1 := by linarith
  have c2p : (82 / 100 : ℝ) ≤ c2 := by linarith
  have c1q : c1 ≤ 80 / 100 := by linarith
  have c2q : c2 ≤ 84 / 100 := by linarith
  have s1q : s1 < 3249 / 100000 := by linarith
  have s2q : s2 < 3645 / 100000 := by linarith
  have q1l : (3247 / 100000 : ℝ) ^ 2 ≤ s1 ^ 2 := pow_le_pow_left₀ (by norm_num) (le_of_lt s1p) 2
  have q1u : s1 ^ 2 ≤ (3249 / 100000 : ℝ) ^ 2 :=
    pow_le_pow_left₀ (by linarith) (le_of_lt s1q) 2
  have q2l : (3641 / 100000 : ℝ) ^ 2 ≤ s2 ^ 2 := pow_le_pow_left₀ (by norm_num) (le_of_lt s2p) 2
  have q2u : s2 ^ 2 ≤ (3645 / 100000 : ℝ) ^ 2 :=
    pow_le_pow_left₀ (by linarith) (le_of_lt s2q) 2
  have ccl : (78 / 100 : ℝ) * (82 / 100) ≤ c1 * c2 :=
    mul_le_mul c1p c2p (by norm_num) (by linarith)
  have ccu : c1 * c2 ≤ (80 / 100 : ℝ) * (84 / 100) :=
    mul_le_mul c1q c2q (by linarith) (by norm_num)
  have tl : (78 / 100 : ℝ) * (82 / 100) * (3641 / 100000) ^ 2 ≤ c1 * c2 * s2 ^ 2 :=
    mul_le_mul ccl q2l (by norm_num) (mul_nonneg (by linarith) (by linarith))
  have tu : c1 * c2 * s2 ^ 2 ≤ (80 / 100 : ℝ) * (84 / 100) * (3645 / 100000) ^ 2 :=
    mul_le_mul ccu q2u (sq_nonneg s2) (by norm_num)
  have f1 : -s1 * -s1 = s1 ^ 2 := by ring
  have f2 : c1 * c2 * s2 * s2 = c1 * c2 * s2 ^ 2 := by ring
  rw [f1, f2]
  norm_num at q1l q1u tl tu ⊢
  constructor <;> linarith

/-- C27: `distanceMeters` is the haversine formula 6371000 * 2 *
asin(sqrt(a)), a = sin^2(dphi/2) + cos(phi1) cos(phi2) sin^2(dlambda/2), over
the inputs converted to radians, for whatever functions stand behind `sin`,
`cos`, `asin`, `sqrt` and `M_PI`; with the real functions and the real pi the
distance between (37.7749, -122.4194) and (34.0522, -118.2437) lies strictly
between 500000 and 620000 metres. -/
theorem distanceMeters_haversine {α : Type} [Field α] (libm : Libm α)
    (lat1 lon1 lat2 lon2 : α) :
    S2GeometryIndex.distanceMeters libm lat1 lon1 lat2 lon2 =
      haversine libm (radians libm lat1) (radians libm lon1) (radians libm lat2)
        (radians libm lon2) ∧
    (500000 : ℝ) < S2GeometryIndex.distanceMeters
      ⟨Real.pi, Real.sin, Real.cos, Real.arcsin, Real.sqrt⟩
      (377749 / 10000) (-1224194 / 10000) (340522 / 10000) (-1182437 / 10000) ∧
    S2GeometryIndex.distanceMeters
      ⟨Real.pi, Real.sin, Real.cos, Real.arcsin, Real.sqrt⟩
      (377749 / 10000) (-1224194 / 10000) (340522 / 10000) (-1182437 / 10000) <
        (620000 : ℝ) := by
  refine ⟨distanceMeters_eq_haversine libm lat1 lon1 lat2 lon2, ?_⟩
  simp only [S2GeometryIndex.distanceMeters]
  obtain ⟨al, au⟩ := sf_la_haversine_argument
  generalize Real.sin ((340522 / 10000 - 377749 / 10000) * Real.pi / 180 / 2) *
        Real.sin ((340522 / 10000 - 377749 / 10000) * Real.pi / 180 / 2) +
      Real.cos (377749 / 10000 * Real.pi / 180) * Real.cos (340522 / 10000 * Real.pi / 180) *
        Real.sin ((-1182437 / 10000 - -1224194 / 10000) * Real.pi / 180 / 2) *
        Real.sin ((-1182437 / 10000 - -1224194 / 10000) * Real.pi / 180 / 2) = a at al au ⊢
  have p1 : (3 : ℝ) < Real.pi := Real.pi_gt_three
  have hs0 : 0 ≤ Real.sqrt a := Real.sqrt_nonneg a
  have hs1 : Real.sqrt a ≤ 1 := by
    rw [Real.sqrt_le_iff]
    exact ⟨by norm_num, by linarith⟩
  have hmem : Real.sqrt a ∈ Set.Icc (-1 : ℝ) 1 := ⟨by linarith, hs1⟩
  -- lower bound: sin (250 / 6371) < 250 / 6371 < sqrt a
  have lo : (250 / 6371 : ℝ) < Real.arcsin (Real.sqrt a) := by
    rw [Real.lt_arcsin_iff_sin_lt ⟨by linarith, by linarith⟩ hmem]
    have h1 : Real.sin (250 / 6371) < 250 / 6371 := Real.sin_lt (by norm_num)
    have h2 : (250 / 6371 : ℝ) < Real.sqrt a := by
      rw [Real.lt_sqrt (by norm_num)]
      norm_num
      linarith
    linarith
  -- upper bound: sqrt a < 310 / 6371 - (310 / 6371) ^ 3 / 4 < sin (310 / 6371)
  have hi : Real.arcsin (Real.sqrt a) < (310 / 6371 : ℝ) := by
    rw [Real.arcsin_lt_iff_lt_sin hmem ⟨by linarith, by linarith⟩]
    have h1 : (310 / 6371 : ℝ) - (310 / 6371) ^ 3 / 4 < Real.sin (310 / 6371) :=
      Real.sin_gt_sub_cube (by norm_num) (by norm_num)
    have h2 : Real.sqrt a < (310 / 6371 : ℝ) - (310 / 6371) ^ 3 / 4 := by
      rw [Real.sqrt_lt' (by norm_num)]
      norm_num
      linarith
    linarith
  constructor <;> linarith

/-! ## Time step, measurement noise, reset -/

theorem update_fields (kf : KalmanFilter) (m : LocationFix) :
    (kf.update m).A_ = (kf.A_.setCoeff 0 2 (kf.timeStep m)).setCoeff 1 3 (kf.timeStep m) ∧
    (kf.update m).R_ = ⟨⟨measurementNoise m, 0⟩, ⟨0, measurementNoise m⟩⟩ ∧
    (kf.update m).last_update_ms_ = m.timestamp_ms ∧
    (kf.update m).use_pdr_ = kf.use_pdr_ ∧
    (kf.update m).H_ = kf.H_ ∧ (kf.update m).Q_ = kf.Q_ ∧
    (kf.update m).step_length_m_ = kf.step_length_m_ ∧
    (kf.update m).x_ = ((kf.predicted m).correct ⟨m.latitude, m.longitude⟩).x_ ∧
    (kf.update m).P_ = ((kf.predicted m).correct ⟨m.latitude, m.longitude⟩).P_ := by
  unfold KalmanFilter.update
  simp only [KalmanFilter.detectStep]
  split_ifs <;> exact ⟨rfl, rfl, rfl, rfl, rfl, rfl, rfl, rfl, rfl⟩

theorem setCoeff_time_step (A : Matrix4d) (d : ℚ) :
    ((A.setCoeff 0 2 d).setCoeff 1 3 d).coeff 0 2 = d ∧
      ((A.setCoeff 0 2 d).setCoeff 1 3 d).coeff 1 3 = d := by
  simp [Matrix4d.setCoeff, coeff_store_Matrix4d]

theorem timeStep_clamped (kf : KalmanFilter) (m : LocationFix) :
    kf.timeStep m =
      if kf.last_update_ms_ > 0 then
        min 1 (max (1 / 100) (((m.timestamp_ms - kf.last_update_ms_ : Int) : ℚ) / 1000))
      else 1 / 10 := by
  unfold KalmanFilter.timeStep
  by_cases h : kf.last_update_ms_ > 0
  · simp only [h, if_true]
    generalize (((m.timestamp_ms - kf.last_update_ms_ : Int) : ℚ) / 1000) = d
    by_cases h1 : d < 1 / 100
    · rw [if_pos h1, max_eq_left (le_of_lt h1), if_neg (by norm_num), min_eq_right (by norm_num)]
    · rw [if_neg h1, max_eq_right (not_lt.mp h1)]
      by_cases h2 : d > 1
      · rw [if_pos h2, min_eq_left (le_of_lt h2)]
      · rw [if_neg h2, min_eq_right (not_lt.mp h2)]
  · simp only [h, if_false]
    norm_num

theorem timeStep_range (kf : KalmanFilter) (m : LocationFix) :
    1 / 100 ≤ kf.timeStep m ∧ kf.timeStep m ≤ 1 := by
  rw [timeStep_clamped]
  split_ifs
  · exact ⟨le_min (by norm_num) (le_max_left _ _), min_le_left _ _⟩
  · constructor <;> norm_num

/-- C28: the time step `update` hands to `predict` (and `predict` stores in the
two time-step coefficients of `A_`) is min(1, max(0.01, (t_now - t_prev) /
1000)) when the stored last-update time stamp is positive and 0.1 otherwise; it
always lies in [0.01, 1]; `update` stores the sample's time stamp, so in the
next `update` t_prev is the time stamp of this sample. -/
theorem update_time_step (kf : KalmanFilter) (m m2 : LocationFix) :
    kf.timeStep m =
      (if kf.last_update_ms_ > 0 then
        min 1 (max (1 / 100) (((m.timestamp_ms - kf.last_update_ms_ : Int) : ℚ) / 1000))
      else 1 / 10) ∧
    1 / 100 ≤ kf.timeStep m ∧ kf.timeStep m ≤ 1 ∧
    (kf.update m).x_ = ((kf.predicted m).correct ⟨m.latitude, m.longitude⟩).x_ ∧
    (kf.update m).P_ = ((kf.predicted m).correct ⟨m.latitude, m.longitude⟩).P_ ∧
    (kf.update m).A_.coeff 0 2 = kf.timeStep m ∧
    (kf.update m).A_.coeff 1 3 = kf.timeStep m ∧
    (kf.update m).last_update_ms_ = m.timestamp_ms ∧
    (kf.update m).timeStep m2 =
      (if m.timestamp_ms > 0 then
        min 1 (max (1 / 100) (((m2.timestamp_ms - m.timestamp_ms : Int) : ℚ) / 1000))
      else 1 / 10) := by
  have hf := update_fields kf m
  refine ⟨timeStep_clamped kf m, (timeStep_range kf m).1, (timeStep_range kf m).2,
    hf.2.2.2.2.2.2.2.1, hf.2.2.2.2.2.2.2.2, ?_, ?_, hf.2.2.1, ?_⟩
  · rw [hf.1]; exact (setCoeff_time_step _ _).1
  · rw [hf.1]; exact (setCoeff_time_step _ _).2
  · rw [timeStep_clamped, hf.2.2.1]

theorem setMeasurementNoise_update (kf : KalmanFilter) (r : ℚ) (m : LocationFix) :
    (kf.setMeasurementNoise r).update m = kf.update m := rfl

theorem correct_uses_gain (kf : KalmanFilter) (z : Vector2d) :
    kf.correct z =
      { kf with
        x_ := Vector4d.store (kf.x_.coeff +
          kf.gain.coeff.mulVec (Vector2d.store (z.coeff - kf.H_.coeff.mulVec kf.x_.coeff)).coeff),
        P_ := Matrix4d.store
          (((1 : Matrix (Fin 4) (Fin 4) ℚ) - kf.gain.coeff * kf.H_.coeff) * kf.P_.coeff) } :=
  rfl

theorem predicted_noise (kf : KalmanFilter) (m : LocationFix) :
    (kf.predicted m).R_ =
      ⟨⟨max 100 (m.accuracy * m.accuracy), 0⟩, ⟨0, max 100 (m.accuracy * m.accuracy)⟩⟩ ∧
    (kf.predicted m).H_ = kf.H_ := ⟨rfl, rfl⟩

theorem predicted_block (kf : KalmanFilter) (m : LocationFix) (q : ℚ) (lat lon : AxisState)
    (hb : kf.InBlockForm q lat lon) :
    (kf.predicted m).P_ =
      blockP (lat.a + 2 * kf.timeStep m * lat.b + kf.timeStep m * kf.timeStep m * lat.c +
        q * (1 / 1000)) (lat.b + kf.timeStep m * lat.c) (lat.c + q) := by
  obtain ⟨⟨d, hA⟩, hH, hQ, hP, ha, hb, hc, hx⟩ := hb
  unfold KalmanFilter.predicted
  have e := predict_block
    (KalmanFilter.mk kf.A_ kf.H_ kf.Q_
      ⟨⟨measurementNoise m, 0⟩, ⟨0, measurementNoise m⟩⟩ kf.x_ kf.P_ kf.use_pdr_
      kf.last_accel_z_ kf.step_count_ kf.step_length_m_ m.timestamp_ms)
    (kf.timeStep m) d q lat.a lat.b lat.c lat.x lon.x lat.v lon.v hA hQ hP hx
  rw [e]

theorem gain_block (kf : KalmanFilter) (r a b c : ℚ)
    (hH : kf.H_ = measurementH) (hR : kf.R_ = ⟨⟨r, 0⟩, ⟨0, r⟩⟩)
    (hP : kf.P_ = blockP a b c) :
    kf.gain = ⟨⟨a * invS (a + r), 0⟩, ⟨0, a * invS (a + r)⟩,
      ⟨b * invS (a + r), 0⟩, ⟨0, b * invS (a + r)⟩⟩ := by
  unfold KalmanFilter.gain
  rw [hH, hR, hP]
  simp [measurementH, blockP, invS, Matrix2d.inverse, Matrix4d.store, Vector4d.store,
    Matrix42d.store, Matrix2d.store, Vector2d.store,
    coeff_Matrix4d_0, coeff_Matrix4d_1, coeff_Matrix4d_2, coeff_Matrix4d_3,
    coeff_Matrix42d_0, coeff_Matrix42d_1, coeff_Matrix42d_2, coeff_Matrix42d_3,
    coeff_Matrix24d_0, coeff_Matrix24d_1, coeff_Matrix2d_0, coeff_Matrix2d_1,
    coeff_Vector4d_0, coeff_Vector4d_1, coeff_Vector4d_2, coeff_Vector4d_3,
    coeff_Vector2d_0, coeff_Vector2d_1,
    Matrix.mul_apply, Matrix.mulVec, Matrix.dotProduct, Fin.sum_univ_four, Fin.sum_univ_two,
    Matrix.one_apply]

theorem posDef_trusted (st : AxisState) (z : ℚ) (h : st.PosDef) :
    st.Trusted z ((st.c * (st.x - z) ^ 2 - 2 * st.b * (st.x - z) * st.v + st.a * st.v ^ 2) /
      (st.a * st.c - st.b * st.b)) := by
  refine ⟨h.1, h.2, le_of_eq ?_⟩
  rw [div_mul_cancel₀ _ (ne_of_gt h.2)]

theorem axisStep_posDef (dt q r z : ℚ) (st : AxisState) (hq : 0 ≤ q) (hr : 0 < r)
    (h : st.PosDef) : (axisStep dt q r z st).PosDef := by
  have t := (axisStep_trusted dt q r z _ st hq hr (posDef_trusted st z h)).1
  exact ⟨t.1, t.2.1⟩

theorem measurementNoise_pos (m : LocationFix) : 0 < measurementNoise m :=
  lt_of_lt_of_le (by norm_num) (le_max_left 100 _)

theorem axisRun_posDef (q : ℚ) (coord : LocationFix → ℚ) (hq : 0 ≤ q)
    (fixes : List LocationFix) :
    ∀ (last : Int) (st : AxisState), st.PosDef → (axisRun q coord last fixes st).PosDef := by
  induction fixes with
  | nil => intro last st h; exact h
  | cons m ms ih =>
    intro last st h
    exact ih _ _ (axisStep_posDef _ q _ _ st hq (measurementNoise_pos m) h)

theorem init_posDef : AxisState.init.PosDef := by
  simp only [AxisState.PosDef, AxisState.init]
  constructor <;> norm_num

theorem predicted_variance_pos (dt q : ℚ) (st : AxisState) (hq : 0 ≤ q) (hdt : 0 < dt)
    (h : st.PosDef) : 0 < st.a + 2 * dt * st.b + dt * dt * st.c + q * (1 / 1000) := by
  obtain ⟨ha, hd⟩ := h
  have e : st.a * (st.a + 2 * dt * st.b + dt * dt * st.c) =
      (st.a + dt * st.b) ^ 2 + dt * dt * (st.a * st.c - st.b * st.b) := by ring
  have p : 0 < st.a * (st.a + 2 * dt * st.b + dt * dt * st.c) := by
    rw [e]
    have := sq_nonneg (st.a + dt * st.b)
    have := mul_pos (mul_pos hdt hdt) hd
    linarith
  have p2 : 0 < st.a + 2 * dt * st.b + dt * dt * st.c := by
    by_contra hn
    have := mul_nonpos_of_nonneg_of_nonpos (le_of_lt ha) (not_lt.mp hn)
    linarith
  have : 0 ≤ q * (1 / 1000) := by positivity
  linarith

theorem gain_antitone (a r1 r2 : ℚ) (ha : 0 < a) (hr1 : 0 < r1) (h : r1 ≤ r2) :
    a * invS (a + r2) ≤ a * invS (a + r1) := by
  rw [invS_eq _ (by linarith), invS_eq _ (by linarith)]
  apply mul_le_mul_of_nonneg_left _ (le_of_lt ha)
  exact one_div_le_one_div_of_le (by linarith) (by linarith)

theorem measurementNoise_mono (m : LocationFix) (acc1 acc2 : ℚ) (h0 : 0 ≤ acc1)
    (h : acc1 ≤ acc2) :
    measurementNoise (m.withAccuracy acc1) ≤ measurementNoise (m.withAccuracy acc2) := by
  simp only [measurementNoise, LocationFix.withAccuracy]
  exact max_le_max (le_refl _) (mul_le_mul h h h0 (le_trans h0 h))

theorem updateAll_reachable (fixes : List LocationFix) :
    (KalmanFilter.new.updateAll fixes).InBlockForm (1 / 10)
        (axisRun (1 / 10) (fun m => m.latitude) 0 fixes AxisState.init)
        (axisRun (1 / 10) (fun m => m.longitude) 0 fixes AxisState.init) ∧
      (axisRun (1 / 10) (fun m => m.latitude) 0 fixes AxisState.init).PosDef :=
  ⟨updateAll_block (1 / 10) fixes KalmanFilter.new _ _ new_block,
    axisRun_posDef (1 / 10) _ (by norm_num) fixes 0 _ init_posDef⟩

/-- C29: `update` overwrites `R_` with max(100, accuracy^2) * I before it
predicts and corrects, so an earlier `setMeasurementNoise(r)` has no effect on
any `update`.  From one prior state whose covariance is positive definite (of
the block form every filter has that was constructed and then updated), the
gain of the position on its own measurement for a sample of accuracy `acc2` is
not larger than for a sample of accuracy `acc1` when 0 <= acc1 <= acc2. -/
theorem measurement_noise_per_sample (kf prior : KalmanFilter) (r : ℚ) (m : LocationFix)
    (q acc1 acc2 : ℚ) (lat lon : AxisState)
    (hb : prior.InBlockForm q lat lon) (hq : 0 ≤ q) (hpd : lat.PosDef)
    (h0 : 0 ≤ acc1) (h12 : acc1 ≤ acc2) :
    (kf.setMeasurementNoise r).update m = kf.update m ∧
    (kf.predicted m).R_ =
      ⟨⟨max 100 (m.accuracy * m.accuracy), 0⟩, ⟨0, max 100 (m.accuracy * m.accuracy)⟩⟩ ∧
    (kf.update m).x_ = ((kf.predicted m).correct ⟨m.latitude, m.longitude⟩).x_ ∧
    (kf.update m).R_ =
      ⟨⟨max 100 (m.accuracy * m.accuracy), 0⟩, ⟨0, max 100 (m.accuracy * m.accuracy)⟩⟩ ∧
    (prior.predicted (m.withAccuracy acc2)).gain.coeff 0 0 ≤
      (prior.predicted (m.withAccuracy acc1)).gain.coeff 0 0 ∧
    (prior.predicted (m.withAccuracy acc2)).gain.coeff 1 1 ≤
      (prior.predicted (m.withAccuracy acc1)).gain.coeff 1 1 := by
  have hf := update_fields kf m
  refine ⟨rfl, rfl, hf.2.2.2.2.2.2.2.1, hf.2.1, ?_⟩
  have hH : prior.H_ = measurementH := hb.2.1
  have ht : ∀ acc, prior.timeStep (m.withAccuracy acc) = prior.timeStep m := fun _ => rfl
  have g : ∀ acc, (prior.predicted (m.withAccuracy acc)).gain = _ := fun acc =>
    gain_block (prior.predicted (m.withAccuracy acc)) (measurementNoise (m.withAccuracy acc))
      _ _ _ hH rfl (predicted_block prior (m.withAccuracy acc) q lat lon hb)
  rw [g acc1, g acc2, ht, ht]
  have hv := predicted_variance_pos (prior.timeStep m) q lat hq
    (lt_of_lt_of_le (by norm_num) (timeStep_range prior m).1) hpd
  have hmono := gain_antitone _ _ _ hv (measurementNoise_pos (m.withAccuracy acc1))
    (measurementNoise_mono m acc1 acc2 h0 h12)
  exact ⟨hmono, hmono⟩

theorem measurement_noise_per_sample_witness :
    KalmanFilter.new.InBlockForm (1 / 10) AxisState.init AxisState.init ∧
    AxisState.init.PosDef ∧
    (KalmanFilter.new.predicted (singleUpdateFix.withAccuracy 30)).gain.coeff 0 0 ≤
      (KalmanFilter.new.predicted (singleUpdateFix.withAccuracy 5)).gain.coeff 0 0 :=
  ⟨new_block, init_posDef,
    (measurement_noise_per_sample KalmanFilter.new KalmanFilter.new 1 singleUpdateFix
      (1 / 10) 5 30 AxisState.init AxisState.init new_block (by norm_num) init_posDef
      (by norm_num) (by norm_num)).2.2.2.2.1⟩

theorem transitionA_setCoeff (d dt : ℚ) :
    ((transitionA d).setCoeff 0 2 dt).setCoeff 1 3 dt = transitionA dt := by
  simp [transitionA, Matrix4d.setCoeff, Matrix4d.store, Vector4d.store,
    coeff_Matrix4d_0, coeff_Matrix4d_1, coeff_Matrix4d_2, coeff_Matrix4d_3,
    coeff_Vector4d_0, coeff_Vector4d_1, coeff_Vector4d_2, coeff_Vector4d_3]

theorem predict_transition (kf : KalmanFilter) (d dt : ℚ) (hA : kf.A_ = transitionA d) :
    kf.predict dt =
      { kf with
        A_ := transitionA dt,
        x_ := Vector4d.store ((transitionA dt).coeff.mulVec kf.x_.coeff),
        P_ := Matrix4d.store ((transitionA dt).coeff * kf.P_.coeff *
          (transitionA dt).coeff.transpose + kf.Q_.coeff) } := by
  unfold KalmanFilter.predict
  simp only [hA, transitionA_setCoeff]

theorem update_congr (k1 k2 : KalmanFilter) (m : LocationFix)
    (hA1 : ∃ d, k1.A_ = transitionA d) (hA2 : ∃ d, k2.A_ = transitionA d)
    (hH : k1.H_ = k2.H_) (hQ : k1.Q_ = k2.Q_) (hx : k1.x_ = k2.x_) (hP : k1.P_ = k2.P_)
    (hpdr : k1.use_pdr_ = k2.use_pdr_) (hacc : k1.last_accel_z_ = k2.last_accel_z_)
    (hsc : k1.step_count_ = k2.step_count_) (hsl : k1.step_length_m_ = k2.step_length_m_)
    (hlu : k1.last_update_ms_ = k2.last_update_ms_) :
    k1.update m = k2.update m := by
  obtain ⟨d1, hA1⟩ := hA1
  obtain ⟨d2, hA2⟩ := hA2
  obtain ⟨A1, H1, Q1, R1, x1, P1, pdr1, la1, sc1, sl1, lu1⟩ := k1
  obtain ⟨A2, H2, Q2, R2, x2, P2, pdr2, la2, sc2, sl2, lu2⟩ := k2
  simp only at hA1 hA2 hH hQ hx hP hpdr hacc hsc hsl hlu
  subst hA1 hA2 hH hQ hx hP hpdr hacc hsc hsl hlu
  unfold KalmanFilter.update
  simp only [KalmanFilter.timeStep]
  rw [predict_transition _ d1 _ rfl, predict_transition _ d2 _ rfl]

theorem wellFormed_new : KalmanFilter.new.WellFormed := ⟨⟨1 / 10, rfl⟩, rfl, rfl⟩

theorem wellFormed_update (kf : KalmanFilter) (m : LocationFix) (h : kf.WellFormed) :
    (kf.update m).WellFormed := by
  obtain ⟨⟨d, hA⟩, hH, hs⟩ := h
  have hf := update_fields kf m
  refine ⟨⟨kf.timeStep m, ?_⟩, hf.2.2.2.2.1.trans hH, hf.2.2.2.2.2.2.1.trans hs⟩
  rw [hf.1, hA, transitionA_setCoeff]

theorem wellFormed_setters (kf : KalmanFilter) (q r : ℚ) (pdr : Bool) (h : kf.WellFormed) :
    kf.reset.WellFormed ∧ (kf.setProcessNoise q).WellFormed ∧
      (kf.setMeasurementNoise r).WellFormed ∧ (kf.enablePDR pdr).WellFormed :=
  ⟨h, h, h, h⟩

theorem reset_update (kf : KalmanFilter) (m : LocationFix) (h : kf.WellFormed) :
    kf.reset.update m =
      (KalmanFilter.newWith kf.use_pdr_ kf.Q_ kf.last_accel_z_).update m :=
  update_congr _ _ m h.1 ⟨1 / 10, rfl⟩ h.2.1 rfl rfl rfl rfl rfl rfl h.2.2 rfl

theorem update_pdr_step (kf : KalmanFilter) (m : LocationFix) (h : kf.use_pdr_ = true) :
    (kf.update m).last_accel_z_ = m.accel_z ∧
    (kf.update m).step_count_ =
      if kf.last_accel_z_ < 15 ∧ m.accel_z ≥ 15 then kf.step_count_ + 1
      else kf.step_count_ := by
  unfold KalmanFilter.update
  simp only [KalmanFilter.detectStep, KalmanFilter.predict, KalmanFilter.correct, h, if_true,
    Bool.and_eq_true, decide_eq_true_eq]
  split_ifs <;> exact ⟨rfl, rfl⟩

theorem strideFix_accel (ts : Int) : (strideFix ts).accel_z = 20 := rfl

/-- C30 (counterexample): a filter with PDR enabled that has seen one sample
with vertical acceleration 20 m/s^2 and is then reset keeps 20 as its
last-observed vertical acceleration.  Fed a second such sample it detects no
upstroke and reports step count 0, where a newly constructed filter with PDR
enabled reports step count 1 for the same sample. -/
theorem reset_keeps_last_accel :
    (((KalmanFilter.new.enablePDR true).update (strideFix 1000)).reset).last_accel_z_ = 20 ∧
    (((KalmanFilter.new.enablePDR true).update (strideFix 1000)).reset).use_pdr_ = true ∧
    (((((KalmanFilter.new.enablePDR true).update (strideFix 1000)).reset).update
      (strideFix 2000)).getSmoothedState WorldState.zero).step_count = 0 ∧
    (((KalmanFilter.new.enablePDR true).update (strideFix 2000)).getSmoothedState
      WorldState.zero).step_count = 1 := by
  have h1 := update_pdr_step (KalmanFilter.new.enablePDR true) (strideFix 1000) rfl
  have hp : ((KalmanFilter.new.enablePDR true).update (strideFix 1000)).use_pdr_ = true :=
    (update_fields _ _).2.2.2.1
  have hr : (((KalmanFilter.new.enablePDR true).update (strideFix 1000)).reset).last_accel_z_
      = 20 := h1.1
  have h2 := update_pdr_step
    (((KalmanFilter.new.enablePDR true).update (strideFix 1000)).reset) (strideFix 2000) hp
  have h3 := update_pdr_step (KalmanFilter.new.enablePDR true) (strideFix 2000) rfl
  rw [hr, strideFix_accel] at h2
  rw [strideFix_accel] at h3
  refine ⟨hr, hp, ?_, ?_⟩
  · simp only [KalmanFilter.getSmoothedState, h2.2]
    norm_num [KalmanFilter.reset]
  · simp only [KalmanFilter.getSmoothedState, h3.2]
    norm_num [KalmanFilter.enablePDR, KalmanFilter.new]

theorem updateAll_cons (kf : KalmanFilter) (m : LocationFix) (ms : List LocationFix) :
    kf.updateAll (m :: ms) = (kf.update m).updateAll ms := rfl

/-- C30 (amended): `reset()` restores the state vector, the covariance, the
step count and the last-update time stamp, and leaves the process noise, the
last-observed vertical acceleration and the PDR flag as they are.  For every
sequence of `update` calls a reset filter returns the `getSmoothedState`
results of a newly constructed filter that has the same PDR flag, the same
process noise and the same last vertical acceleration; it agrees with a plain
newly constructed filter with the same PDR flag when the process noise is the
constructor's and the last vertical acceleration is 0. -/
theorem reset_keeps_tuning (kf : KalmanFilter) (fixes : List LocationFix) (uninit : WorldState)
    (hw : kf.WellFormed) :
    (kf.reset.Q_ = kf.Q_ ∧ kf.reset.last_accel_z_ = kf.last_accel_z_ ∧
      kf.reset.use_pdr_ = kf.use_pdr_) ∧
    (kf.reset.updateAll fixes).getSmoothedState uninit =
      ((KalmanFilter.newWith kf.use_pdr_ kf.Q_ kf.last_accel_z_).updateAll
        fixes).getSmoothedState uninit ∧
    (kf.Q_ = processNoise (1 / 10) → kf.last_accel_z_ = 0 →
      (kf.reset.updateAll fixes).getSmoothedState uninit =
        ((KalmanFilter.new.enablePDR kf.use_pdr_).updateAll fixes).getSmoothedState uninit) := by
  have main : (kf.reset.updateAll fixes).getSmoothedState uninit =
      ((KalmanFilter.newWith kf.use_pdr_ kf.Q_ kf.last_accel_z_).updateAll
        fixes).getSmoothedState uninit := by
    cases fixes with
    | nil => rfl
    | cons m ms => rw [updateAll_cons, updateAll_cons, reset_update kf m hw]
  refine ⟨⟨rfl, rfl, rfl⟩, main, ?_⟩
  intro hQ ha
  rw [main, hQ, ha]
  rfl

theorem reset_keeps_tuning_witness :
    ((KalmanFilter.new.enablePDR true).update (strideFix 1000)).WellFormed ∧
    ((((KalmanFilter.new.enablePDR true).update (strideFix 1000)).reset).updateAll
      [strideFix 2000]).getSmoothedState WorldState.zero =
    ((KalmanFilter.newWith true (processNoise (1 / 10)) 20).updateAll
      [strideFix 2000]).getSmoothedState WorldState.zero := by
  have hw := wellFormed_update _ (strideFix 1000) wellFormed_new
  have h := (reset_keeps_tuning ((KalmanFilter.new.enablePDR true).update (strideFix 1000))
    [strideFix 2000] WorldState.zero hw).2.1
  have hf := update_fields (KalmanFilter.new.enablePDR true) (strideFix 1000)
  have h1 := update_pdr_step (KalmanFilter.new.enablePDR true) (strideFix 1000) rfl
  rw [hf.2.2.2.1, hf.2.2.2.2.2.1, h1.1] at h
  exact ⟨hw, h⟩

/-! ## Step detection -/

theorem update_step_independent_of_time (kf : KalmanFilter) (m : LocationFix) (ts : Int)
    (h : kf.use_pdr_ = true) :
    (kf.update { m with timestamp_ms := ts }).step_count_ = (kf.update m).step_count_ := by
  rw [(update_pdr_step kf m h).2, (update_pdr_step kf { m with timestamp_ms := ts } h).2]

theorem restFix_accel (ts : Int) : (restFix ts).accel_z = 0 := rfl

/-- C31 (the code at the failing input): with PDR enabled `update` records a
step exactly when the stored last vertical acceleration is below 15 and the
sample's is at or above 15; the time stamps play no role.  A new filter with
PDR enabled fed samples at 1000, 1100 and 1200 ms with vertical accelerations
20, 0 and 20 counts two steps, from samples 200 ms apart.  The sibling
`StepDetector::detectStep`, fed the three readings at 1.0, 1.1 and 1.2 s,
reports the first only. -/
theorem steps_ignore_min_interval (kf : KalmanFilter) (m : LocationFix) (ts : Int) :
    ((kf.enablePDR true).update m).step_count_ =
      (if kf.last_accel_z_ < 15 ∧ m.accel_z ≥ 15 then kf.step_count_ + 1
      else kf.step_count_) ∧
    ((kf.enablePDR true).update m).last_accel_z_ = m.accel_z ∧
    ((kf.enablePDR true).update { m with timestamp_ms := ts }).step_count_ =
      ((kf.enablePDR true).update m).step_count_ ∧
    ((KalmanFilter.new.enablePDR true).updateAll [strideFix 1000]).step_count_ = 1 ∧
    ((KalmanFilter.new.enablePDR true).updateAll
      [strideFix 1000, restFix 1100]).step_count_ = 1 ∧
    ((KalmanFilter.new.enablePDR true).updateAll
      [strideFix 1000, restFix 1100, strideFix 1200]).step_count_ = 2 ∧
    StepDetector.new.results [(20, 1), (0, 11 / 10), (20, 12 / 10)] =
      [true, false, false] := by
  have k0 : (KalmanFilter.new.enablePDR true).use_pdr_ = true := rfl
  have a1 := update_pdr_step (KalmanFilter.new.enablePDR true) (strideFix 1000) k0
  have k1 : ((KalmanFilter.new.enablePDR true).update (strideFix 1000)).use_pdr_ = true :=
    (update_fields _ _).2.2.2.1.trans k0
  have a2 := update_pdr_step _ (restFix 1100) k1
  have k2 : (((KalmanFilter.new.enablePDR true).update (strideFix 1000)).update
      (restFix 1100)).use_pdr_ = true := (update_fields _ _).2.2.2.1.trans k1
  have a3 := update_pdr_step _ (strideFix 1200) k2
  have s1 : ((KalmanFilter.new.enablePDR true).update (strideFix 1000)).step_count_ = 1 := by
    rw [a1.2, strideFix_accel]
    norm_num [KalmanFilter.enablePDR, KalmanFilter.new]
  have s2 : (((KalmanFilter.new.enablePDR true).update (strideFix 1000)).update
      (restFix 1100)).step_count_ = 1 := by
    rw [a2.2, a1.1, s1, strideFix_accel, restFix_accel]
    norm_num
  have s3 : ((((KalmanFilter.new.enablePDR true).update (strideFix 1000)).update
      (restFix 1100)).update (strideFix 1200)).step_count_ = 2 := by
    rw [a3.2, a2.1, s2, strideFix_accel, restFix_accel]
    norm_num
  refine ⟨(update_pdr_step (kf.enablePDR true) m rfl).2,
    (update_pdr_step (kf.enablePDR true) m rfl).1,
    update_step_independent_of_time (kf.enablePDR true) m ts rfl, s1, s2, s3, ?_⟩
  simp only [StepDetector.results, StepDetector.detectStep, StepDetector.new]
  norm_num

/-! ## Cell transitions -/

theorem freshService_cell :
    (LocationService.new quadGrid).geometry_index_.cell_of
      ((LocationService.new quadGrid).kalman_filter_.getSmoothedState
        WorldState.zero).smoothed_lat
      ((LocationService.new quadGrid).kalman_filter_.getSmoothedState
        WorldState.zero).smoothed_lon 16 = 8590065665 := by
  have e1 : ((LocationService.new quadGrid).kalman_filter_.getSmoothedState
    WorldState.zero).smoothed_lat = 0 := rfl
  have e2 : ((LocationService.new quadGrid).kalman_filter_.getSmoothedState
    WorldState.zero).smoothed_lon = 0 := rfl
  rw [e1, e2]
  exact quadGrid_cell 0 0 32768 65536 (by norm_num) (by norm_num)

/-- C32 (counterexample): the daemon's service on the grid `quadGrid` before a
provider is set.  Its tick finds the smoothed point (0, 0) in cell 8590065665,
which differs from the previous id 0, and leaves the previous id at 0.  Once
the cycling provider is set, the next tick, in the same cell, asks the
provider and publishes a non-empty frame: it is treated as a transition. -/
theorem previous_id_kept_without_provider :
    ((LocationService.new quadGrid).tickPayload 1700000000000 WorldState.zero
      ContextFrame.zero).state.s2_cell_id = 8590065665 ∧
    (LocationService.new quadGrid).last_s2_cell_ = 0 ∧
    ((LocationService.new quadGrid).tickPayload 1700000000000 WorldState.zero
      ContextFrame.zero).service.last_s2_cell_ = 0 ∧
    ((((LocationService.new quadGrid).tickPayload 1700000000000 WorldState.zero
      ContextFrame.zero).service.setContextProvider
        (some (ContextProvider.cycling (CyclingContextProvider.new ContextFrame.zero)))).tickPayload
      1700000000000 WorldState.zero ContextFrame.zero).state.s2_cell_id = 8590065665 ∧
    ((((LocationService.new quadGrid).tickPayload 1700000000000 WorldState.zero
      ContextFrame.zero).service.setContextProvider
        (some (ContextProvider.cycling (CyclingContextProvider.new ContextFrame.zero)))).tickPayload
      1700000000000 WorldState.zero ContextFrame.zero).context ≠ ContextFrame.zero := by
  have h1 := tickPayload_no_call (LocationService.new quadGrid) 1700000000000 WorldState.zero
    ContextFrame.zero (Or.inl rfl)
  have hs := tickPayload_state (LocationService.new quadGrid) 1700000000000 WorldState.zero
    ContextFrame.zero
  rw [freshService_cell] at hs
  have e : (LocationService.new quadGrid).setContextProvider
      (some (ContextProvider.cycling (CyclingContextProvider.new ContextFrame.zero))) =
      cyclingService := rfl
  refine ⟨by rw [hs], rfl, by rw [h1.2]; rfl, ?_, ?_⟩
  · rw [h1.2, e, ← firstTick_def]
    exact firstTick_fetches.2.1
  · rw [h1.2, e, ← firstTick_def, firstTick_fetches.1]
    exact fetchFresh_ne_zero _ _ _ _

/-- C32 (amended): a tick sets `last_s2_cell_` to the observed cell id exactly
when a context provider is set; without a provider it leaves `last_s2_cell_`
as it was, whatever the observed id.  With a provider set, a later tick that
observes the same cell (the filter may have moved inside the cell) asks no
provider, publishes the empty frame and changes nothing in the service. -/
theorem transition_updates_previous (s : LocationService) (now now2 : Int)
    (uninitState uninitState2 : WorldState) (uninitContext uninitContext2 : ContextFrame)
    (kf2 : KalmanFilter) :
    (s.context_provider_.isSome = true →
      (s.tickPayload now uninitState uninitContext).service.last_s2_cell_ =
        (s.tickPayload now uninitState uninitContext).state.s2_cell_id) ∧
    (s.context_provider_ = none →
      (s.tickPayload now uninitState uninitContext).service = s) ∧
    (s.context_provider_.isSome = true →
      (LocationService.tickPayload
          { (s.tickPayload now uninitState uninitContext).service with kalman_filter_ := kf2 }
          now2 uninitState2 uninitContext2).state.s2_cell_id =
        (s.tickPayload now uninitState uninitContext).state.s2_cell_id →
      (LocationService.tickPayload
          { (s.tickPayload now uninitState uninitContext).service with kalman_filter_ := kf2 }
          now2 uninitState2 uninitContext2).context = ContextFrame.zero ∧
      (LocationService.tickPayload
          { (s.tickPayload now uninitState uninitContext).service with kalman_filter_ := kf2 }
          now2 uninitState2 uninitContext2).service =
        { (s.tickPayload now uninitState uninitContext).service with
          kalman_filter_ := kf2 }) := by
  have key : s.context_provider_.isSome = true →
      (s.tickPayload now uninitState uninitContext).service.last_s2_cell_ =
        (s.tickPayload now uninitState uninitContext).state.s2_cell_id := by
    intro hp
    obtain ⟨provider, hp⟩ := Option.isSome_iff_exists.mp hp
    rw [tickPayload_state]
    by_cases hc : s.geometry_index_.cell_of
        (s.kalman_filter_.getSmoothedState uninitState).smoothed_lat
        (s.kalman_filter_.getSmoothedState uninitState).smoothed_lon 16 = s.last_s2_cell_
    · rw [(tickPayload_no_call s now uninitState uninitContext (Or.inr hc)).2]
      exact hc.symm
    · rw [(tickPayload_call s now uninitState uninitContext provider hp hc).2]
  refine ⟨key, fun hn => (tickPayload_no_call s now _ _ (Or.inl hn)).2, ?_⟩
  intro hp hsame
  have hk := key hp
  rw [← hk, tickPayload_state] at hsame
  exact tickPayload_no_call _ now2 uninitState2 uninitContext2 (Or.inr hsame)

theorem transition_updates_previous_witness :
    cyclingService.context_provider_.isSome = true ∧
    firstTick.service.last_s2_cell_ = firstTick.state.s2_cell_id ∧
    firstTick.service.last_s2_cell_ = 8590065665 := by
  have h := (transition_updates_previous cyclingService 1700000000000 0 WorldState.zero
    WorldState.zero ContextFrame.zero ContextFrame.zero KalmanFilter.new).1 rfl
  rw [← firstTick_def] at h
  exact ⟨rfl, h, firstTick_provider.2⟩

/-! ## Context hash against its specification -/

theorem charValue_ascii (b : Nat) (h : b < 128) : charValue b = (b : Int) := by
  simp [charValue, h]

theorem hash_step_ascii (h b : Nat) (hb : b < 128) :
    (((h : Int) * 31 + charValue b) % 2 ^ 64).toNat = (h * 31 + b) % 2 ^ 64 := by
  rw [charValue_ascii b hb]
  have e : ((h : Int) * 31 + (b : Int)) % 2 ^ 64 = (((h * 31 + b) % 2 ^ 64 : Nat) : Int) := by
    push_cast
    rfl
  rw [e, Int.toNat_natCast]

theorem hash_fold_ascii (l : List Nat) (hl : ∀ b ∈ l, b < 128) :
    ∀ acc : Nat,
      l.foldl (fun (hash : Nat) c => (((hash : Int) * 31 + charValue c) % 2 ^ 64).toNat) acc =
        l.foldl (fun h byte => (h * 31 + byte) % 2 ^ 64) acc := by
  induction l with
  | nil => intro acc; rfl
  | cons b rest ih =>
    intro acc
    simp only [List.foldl_cons]
    rw [hash_step_ascii acc b (hl b (List.mem_cons_self _ _))]
    exact ih (fun c hc => hl c (List.mem_cons_of_mem _ hc)) _

theorem hashContext_polynomial (ctx : ContextFrame) (hascii : ∀ b ∈ ctx.road_type, b < 128) :
    GeminiIntegration.hashContext ctx =
      polynomialHash (fun x => truncToInt (roundToDouble x)) ctx := by
  have hl : ∀ b ∈ (ctx.road_type.take 64).takeWhile (fun c => c ≠ 0), b < 128 :=
    fun b hb => hascii b (List.mem_of_mem_take
      ((List.takeWhile_prefix (fun c => decide (c ≠ 0))).sublist.subset hb))
  rw [hashContext_eq]
  simp only [polynomialHash]
  rw [hash_fold_ascii _ hl 0]
  push_cast
  rfl

theorem roundHalfAway_of_near (p : ℚ) (n : Int) (h1 : (n : ℚ) - 1 / 2 < p)
    (h2 : p < n + 1 / 2) : roundHalfAway p = n := by
  unfold roundHalfAway
  split_ifs with h0
  · rw [Int.floor_eq_iff]
    constructor <;> linarith
  · rw [Int.ceil_eq_iff]
    constructor <;> linarith

theorem roundHalfAway_of_rounded (p : ℚ) (hfit : |roundToDouble p| < 2 ^ 31)
    (h : |roundToDouble p - (towardZero (roundToDouble p) : ℚ)| < 1 / 2) :
    roundHalfAway p = towardZero (roundToDouble p) := by
  have r := towardZero_fits _ hfit
  generalize towardZero (roundToDouble p) = n at h r
  rw [abs_lt] at h
  have g1 : roundToDouble ((n : ℚ) + 1 / 2) = n + 1 / 2 := roundToDouble_half n (by omega)
  have g2 : roundToDouble ((n : ℚ) - 1 / 2) = n - 1 / 2 := by
    have := roundToDouble_half (n - 1) (by omega)
    have e : (((n - 1 : Int) : ℚ)) + 1 / 2 = n - 1 / 2 := by push_cast; ring
    rwa [e] at this
  refine roundHalfAway_of_near p n ?_ ?_
  · by_contra hn
    have := roundToDouble_mono (not_lt.mp hn)
    rw [g2] at this
    linarith [h.1]
  · by_contra hn
    have := roundToDouble_mono (not_lt.mp hn)
    rw [g1] at this
    linarith [h.2]

/-- C33 (counterexample): frames with empty `road_type` and gradients 0.96875
and -0.96875, whose tenfold values 9.6875 and -9.6875 round to 10 and -10.
`hashContext` returns 9 and 2^64 - 9, the hash of the sentence 10 and
2^64 - 10. -/
theorem hash_truncates_not_rounds :
    GeminiIntegration.hashContext { ContextFrame.zero with gradient_percent := 31 / 32 } = 9 ∧
    polynomialHash roundHalfAway { ContextFrame.zero with gradient_percent := 31 / 32 } = 10 ∧
    GeminiIntegration.hashContext { ContextFrame.zero with gradient_percent := -31 / 32 } =
      2 ^ 64 - 9 ∧
    polynomialHash roundHalfAway { ContextFrame.zero with gradient_percent := -31 / 32 } =
      2 ^ 64 - 10 := by
  have hr : ∀ g : ℚ, ({ ContextFrame.zero with gradient_percent := g } : ContextFrame).road_type
      = List.replicate 64 0 := fun _ => rfl
  have e1 : roundToDouble ((31 / 32 : ℚ) * 10) = 155 / 16 := by
    have := roundToDouble_dyadic 155 4 (by decide) (by norm_num)
    norm_num at this ⊢
    exact this
  have e2 : roundToDouble ((-31 / 32 : ℚ) * 10) = -155 / 16 := by
    have := roundToDouble_dyadic (-155) 4 (by decide) (by norm_num)
    norm_num at this ⊢
    exact this
  have t2 : truncToInt (roundToDouble ((-31 / 32 : ℚ) * 10)) = -((9 : ℕ) : Int) :=
    truncToInt_neg_bucket _ 9 (by norm_num) (by rw [e2]; norm_num) (by rw [e2]; norm_num)
      (by rw [e2]; norm_num)
  have r1 : roundHalfAway ((31 / 32 : ℚ) * 10) = 10 :=
    roundHalfAway_of_near _ 10 (by norm_num) (by norm_num)
  have r2 : roundHalfAway ((-31 / 32 : ℚ) * 10) = -10 :=
    roundHalfAway_of_near _ (-10) (by norm_num) (by norm_num)
  refine ⟨?_, ?_, ?_, ?_⟩
  · exact hash_of_empty_road _ 9 (by norm_num) (by rw [e1]; norm_num) (by rw [e1]; norm_num)
  · simp only [polynomialHash]
    rw [r1, hr]
    decide
  · rw [hashContext_eq]
    dsimp only
    rw [t2, hr]
    decide
  · simp only [polynomialHash]
    rw [r2, hr]
    decide

/-- C33 (amended): for a frame whose `road_type` bytes are below 128 and whose
tenfold gradient, computed as a double product, fits an `int`, `hashContext`
is the 64-bit polynomial hash that folds h := h * 31 + byte over the bytes of
`road_type` up to the first NUL (at most 64) and then takes
h := h * 31 + trunc(gradient_percent * 10), all modulo 2^64, where the product
is the double product and trunc drops the fractional part (rounds toward
zero).  It agrees with the hash that uses round(gradient_percent * 10) when
the double product is less than one half away from its truncation. -/
theorem hashContext_truncating_polynomial (ctx : ContextFrame)
    (hascii : ∀ b ∈ ctx.road_type, b < 128)
    (hfit : |roundToDouble (ctx.gradient_percent * 10)| < 2 ^ 31) :
    GeminiIntegration.hashContext ctx =
      polynomialHash (fun x => towardZero (roundToDouble x)) ctx ∧
    (|roundToDouble (ctx.gradient_percent * 10) -
        (towardZero (roundToDouble (ctx.gradient_percent * 10)) : ℚ)| < 1 / 2 →
      GeminiIntegration.hashContext ctx = polynomialHash roundHalfAway ctx) := by
  have e : GeminiIntegration.hashContext ctx =
      polynomialHash (fun x => towardZero (roundToDouble x)) ctx := by
    rw [hashContext_polynomial ctx hascii]
    simp only [polynomialHash, truncToInt_of_fits _ hfit]
  refine ⟨e, fun h => ?_⟩
  rw [e]
  simp only [polynomialHash, roundHalfAway_of_rounded _ hfit h]

theorem hashContext_truncating_polynomial_witness :
    (∀ b ∈ (CyclingContextProvider.fetchFresh ContextFrame.zero 1700000000000 0 0).road_type,
      b < 128) ∧
    |roundToDouble ((CyclingContextProvider.fetchFresh ContextFrame.zero 1700000000000 0
      0).gradient_percent * 10)| < 2 ^ 31 ∧
    GeminiIntegration.hashContext
        (CyclingContextProvider.fetchFresh ContextFrame.zero 1700000000000 0 0) =
      polynomialHash (fun x => towardZero (roundToDouble x))
        (CyclingContextProvider.fetchFresh ContextFrame.zero 1700000000000 0 0) :=
  have h : ∀ b ∈ (CyclingContextProvider.fetchFresh ContextFrame.zero 1700000000000 0
      0).road_type, b < 128 := by decide
  have hfit : |roundToDouble ((CyclingContextProvider.fetchFresh ContextFrame.zero
      1700000000000 0 0).gradient_percent * 10)| < 2 ^ 31 := by
    have e0 : (CyclingContextProvider.fetchFresh ContextFrame.zero 1700000000000 0
      0).gradient_percent = 11 / 2 := rfl
    have e1 : roundToDouble ((11 / 2 : ℚ) * 10) = 55 := by
      have := roundToDouble_intCast 55 (by decide)
      norm_num at this ⊢
      exact this
    rw [e0, e1, abs_of_nonneg (by norm_num)]
    norm_num
  ⟨h, hfit, (hashContext_truncating_polynomial _ h hfit).1⟩

/-! ## Covariance stays positive definite -/

theorem correct_uses_innovation (kf : KalmanFilter) :
    kf.gain = Matrix42d.store
      (kf.P_.coeff * kf.H_.coeff.transpose * kf.innovationCovariance.inverse.coeff) := rfl

theorem updateLocation_ready (seg : Bool) (h : SharedMemoryHeader)
    (b : Nat → RingBufferEntry) (lat lon alt : ℚ) (timestamp : Int) :
    updateLocation ⟨seg, some h, some b, true⟩ lat lon alt timestamp =
      ⟨seg,
        some { h with
          write_index := ((h.write_index + 1) % 2 ^ 32) % RING_BUFFER_SIZE,
          global_sequence := (h.global_sequence + 1) % 2 ^ 32 },
        some (Function.update b h.write_index
          { b h.write_index with state := { (b h.write_index).state with
              smoothed_lat := lat, smoothed_lon := lon,
              smoothed_altitude := alt, last_update_ms := timestamp } }), true⟩ := by
  simp [updateLocation, SharedMemoryManager.isReady, SharedMemoryManager.getHeader,
    SharedMemoryManager.getRingBuffer]

theorem publish_counters (m : SharedMemoryManager) (call : WriterCall) (hr : m.Ready) :
    (m.publish call).Ready ∧
    ∃ h h1, m.header_ = some h ∧ (m.publish call).header_ = some h1 ∧
      h1.write_index = ((h.write_index + 1) % 2 ^ 32) % RING_BUFFER_SIZE ∧
      h1.global_sequence = (h.global_sequence + 1) % 2 ^ 32 := by
  obtain ⟨seg, h, b, rfl⟩ := ready_cases hr
  cases call with
  | writeState s c =>
    simp only [SharedMemoryManager.publish]
    rw [writeState_ready]
    exact ⟨by simp [SharedMemoryManager.Ready], h, _, rfl, rfl, rfl, rfl⟩
  | updateLocation lat lon alt ts =>
    simp only [SharedMemoryManager.publish]
    rw [updateLocation_ready]
    exact ⟨by simp [SharedMemoryManager.Ready], h, _, rfl, rfl, rfl, rfl⟩

theorem publishAll_counters (calls : List WriterCall) :
    ∀ (m : SharedMemoryManager) (n : Nat), m.Ready →
      (∃ h, m.header_ = some h ∧ h.write_index = n % 1024 ∧ h.global_sequence = n % 2 ^ 32) →
      (m.publishAll calls).Ready ∧
      ∃ h, (m.publishAll calls).header_ = some h ∧
        h.write_index = (n + calls.length) % 1024 ∧
        h.global_sequence = (n + calls.length) % 2 ^ 32 := by
  induction calls with
  | nil => intro m n hr hh; exact ⟨hr, hh⟩
  | cons call rest ih =>
    intro m n hr hh
    obtain ⟨h, hm, hw, hg⟩ := hh
    obtain ⟨hr1, h0, h1, hm0, hm1, hw1, hg1⟩ := publish_counters m call hr
    rw [hm] at hm0
    cases hm0
    have step := ih (m.publish call) (n + 1) hr1
      ⟨h1, hm1, by rw [hw1, hw]; simp only [RING_BUFFER_SIZE]; omega, by rw [hg1, hg]; omega⟩
    simp only [SharedMemoryManager.publishAll, List.foldl_cons, List.length_cons] at step ⊢
    have e : n + 1 + rest.length = n + (rest.length + 1) := by omega
    rw [e] at step
    exact step

theorem latestIndex_lt (w : Nat) : latestIndex w < 1024 := by
  unfold latestIndex RING_BUFFER_SIZE
  split_ifs <;> omega

/-- C35: on a ready segment whose header is as constructed (`write_index` 0,
`global_sequence` 0), after any sequence of n `writeState` and `updateLocation`
calls the header has `write_index` = n mod 1024 and `global_sequence` = n mod
2^32, hence `write_index` = `global_sequence` mod 1024 also after the 32-bit
counter has wrapped, `write_index` < 1024, and the slot index that
`readLatestState` computes is below 1024 as well. -/
theorem write_index_tracks_sequence (m : SharedMemoryManager) (calls : List WriterCall)
    (hr : m.Ready)
    (h0 : ∃ h, m.header_ = some h ∧ h.write_index = 0 ∧ h.global_sequence = 0) :
    (m.publishAll calls).Ready ∧
    ∃ h, (m.publishAll calls).header_ = some h ∧
      h.write_index = calls.length % 1024 ∧
      h.global_sequence = calls.length % 2 ^ 32 ∧
      h.write_index = h.global_sequence % 1024 ∧
      h.write_index < 1024 ∧
      latestIndex h.write_index < 1024 := by
  obtain ⟨h, hm, hw, hg⟩ := h0
  obtain ⟨hr1, h1, hm1, hw1, hg1⟩ := publishAll_counters calls m 0 hr
    ⟨h, hm, by rw [hw], by rw [hg]; rfl⟩
  rw [Nat.zero_add] at hw1 hg1
  have hlt : h1.write_index < 1024 := by rw [hw1]; omega
  refine ⟨hr1, h1, hm1, hw1, hg1, ?_, hlt, latestIndex_lt _⟩
  rw [hw1, hg1]
  omega

theorem write_index_tracks_sequence_witness :
    readyManager.Ready ∧
    (∃ h, readyManager.header_ = some h ∧ h.write_index = 0 ∧ h.global_sequence = 0) ∧
    ∃ h, (readyManager.publishAll
        [WriterCall.writeState WorldState.zero ContextFrame.zero,
          WriterCall.updateLocation 1 2 3 4,
          WriterCall.writeState WorldState.zero ContextFrame.zero]).header_ = some h ∧
      h.write_index = 3 ∧ h.global_sequence = 3 := by
  have h0 : ∃ h, readyManager.header_ = some h ∧ h.write_index = 0 ∧ h.global_sequence = 0 := by
    rw [readyManager_eq]
    exact ⟨_, rfl, rfl, rfl⟩
  obtain ⟨_, h, hm, hw, hg, _⟩ := write_index_tracks_sequence readyManager
    [WriterCall.writeState WorldState.zero ContextFrame.zero,
      WriterCall.updateLocation 1 2 3 4,
      WriterCall.writeState WorldState.zero ContextFrame.zero] readyManager_ready h0
  exact ⟨readyManager_ready, h0, h, hm, hw, hg⟩

theorem readLatestState_readyManager (s0 : WorldState) (c0 : ContextFrame) :
    readLatestState readyManager s0 c0 = (true, WorldState.zero, ContextFrame.zero) := by
  rw [readyManager_eq, readLatestState_ready]
  rfl

/-- C36: on a ready segment `readLatestState` returns true for every header and
every ring content and hands back slot `write_index` - 1, slot 1023 when
`write_index` is 0; on a freshly initialised segment, where nothing has been
published, it returns true with the all-zero contents of slot 1023. -/
theorem readLatestState_true_without_publication (m : SharedMemoryManager)
    (s0 : WorldState) (c0 : ContextFrame) (hr : m.Ready) :
    (readLatestState m s0 c0).1 = true ∧
    (∀ h b, m.header_ = some h → m.ring_buffer_ = some b → h.write_index = 0 →
      readLatestState m s0 c0 = (true, (b 1023).state, (b 1023).context)) ∧
    (∀ h b, m.header_ = some h → m.ring_buffer_ = some b →
      readLatestState m s0 c0 =
        (true, (b (latestIndex h.write_index)).state,
          (b (latestIndex h.write_index)).context)) ∧
    readLatestState readyManager s0 c0 = (true, WorldState.zero, ContextFrame.zero) := by
  obtain ⟨seg, h, b, rfl⟩ := ready_cases hr
  rw [readLatestState_ready]
  refine ⟨rfl, ?_, ?_, ?_⟩
  · intro h1 b1 e1 e2 hw
    cases e1
    cases e2
    rw [hw]
    rfl
  · intro h1 b1 e1 e2
    cases e1
    cases e2
    rfl
  · exact readLatestState_readyManager s0 c0

theorem readLatestState_true_without_publication_witness :
    readyManager.Ready ∧
    (readLatestState readyManager
      { WorldState.zero with smoothed_lat := 5 } ContextFrame.zero).1 = true :=
  ⟨readyManager_ready,
    (readLatestState_true_without_publication readyManager
      { WorldState.zero with smoothed_lat := 5 } ContextFrame.zero readyManager_ready).1⟩

/-- C37: on a ready segment with `write_index` inside the ring,
`updateLocation` assigns `smoothed_lat`, `smoothed_lon`, `smoothed_altitude`
and `last_update_ms` of the slot at `write_index`, leaves the slot's other
`WorldState` fields, its `ContextFrame` and its sequence counter as they were,
leaves every other slot alone, advances `write_index`, increments
`global_sequence` and does not touch `total_updates`; the reader then gets the
new position together with the old remainder of that slot. -/
theorem updateLocation_partial_publication (m : SharedMemoryManager)
    (h : SharedMemoryHeader) (b : Nat → RingBufferEntry) (lat lon alt : ℚ) (timestamp : Int)
    (s0 : WorldState) (c0 : ContextFrame)
    (hr : m.Ready) (hi : m.IndexInRange) (hh : m.header_ = some h)
    (hb : m.ring_buffer_ = some b) :
    (updateLocation m lat lon alt timestamp).header_ =
      some { h with
        write_index := ((h.write_index + 1) % 2 ^ 32) % RING_BUFFER_SIZE,
        global_sequence := (h.global_sequence + 1) % 2 ^ 32 } ∧
    (updateLocation m lat lon alt timestamp).ring_buffer_ =
      some (Function.update b h.write_index
        { sequence := (b h.write_index).sequence,
          state := { (b h.write_index).state with
            smoothed_lat := lat, smoothed_lon := lon,
            smoothed_altitude := alt, last_update_ms := timestamp },
          context := (b h.write_index).context }) ∧
    (∀ h1, (updateLocation m lat lon alt timestamp).header_ = some h1 →
      h1.total_updates = h.total_updates) ∧
    readLatestState (updateLocation m lat lon alt timestamp) s0 c0 =
      (true,
        { (b h.write_index).state with
          smoothed_lat := lat, smoothed_lon := lon,
          smoothed_altitude := alt, last_update_ms := timestamp },
        (b h.write_index).context) := by
  obtain ⟨seg, h', b', rfl⟩ := ready_cases hr
  cases hh
  cases hb
  have hw : h.write_index < RING_BUFFER_SIZE := hi h rfl
  rw [updateLocation_ready]
  refine ⟨rfl, rfl, ?_, ?_⟩
  · intro h1 e
    cases e
    rfl
  · rw [readLatestState_ready]
    dsimp only
    rw [latestIndex_next _ hw]
    simp

theorem updateLocation_partial_publication_witness :
    readyManager.Ready ∧ readyManager.IndexInRange ∧
    readLatestState (updateLocation readyManager 1 2 3 4) WorldState.zero ContextFrame.zero =
      (true,
        { WorldState.zero with
          smoothed_lat := 1, smoothed_lon := 2, smoothed_altitude := 3, last_update_ms := 4 },
        ContextFrame.zero) := by
  have h := (updateLocation_partial_publication readyManager
    { SharedMemoryHeader.init with location_service_alive := true }
    (fun _ => RingBufferEntry.zero) 1 2 3 4 WorldState.zero ContextFrame.zero
    readyManager_ready readyManager_indexInRange (by rw [readyManager_eq])
    (by rw [readyManager_eq])).2.2.2
  exact ⟨readyManager_ready, readyManager_indexInRange, h⟩

/-! ## Velocity after the first fix -/

theorem first_update_state (m : LocationFix) (hacc : |m.accuracy| ≤ 10) :
    (KalmanFilter.new.update m).x_ =
      ⟨10100000001 / 10101000001 * m.latitude, 10100000001 / 10101000001 * m.longitude,
        1000000000 / 10101000001 * m.latitude, 1000000000 / 10101000001 * m.longitude⟩ := by
  have hb := (update_block KalmanFilter.new m (1 / 10) AxisState.init AxisState.init
    new_block).1
  rw [timeStep_first _ _ rfl, measurementNoise_small m hacc, axis_first, axis_first] at hb
  exact hb.2.2.2.2.2.2.2

/-- C38: a new filter updated once with a fix of accuracy at most 10 m in
magnitude, whatever its time stamp, has velocity estimates K * latitude and
K * longitude with K = 1000000000 / 10101000001 (that is 100000 /
1010100.0001).  `getSmoothedState` then reports `is_moving` = true exactly
when |latitude| > 1 / (10 K) or |longitude| > 1 / (10 K), where 1 / (10 K) =
1.0101000001: true whenever one of them exceeds 1.0102, false when both are at
most 1.01. -/
theorem first_fix_reports_motion (m : LocationFix) (uninit : WorldState)
    (hacc : |m.accuracy| ≤ 10) :
    (KalmanFilter.new.update m).x_.c2 = 1000000000 / 10101000001 * m.latitude ∧
    (KalmanFilter.new.update m).x_.c3 = 1000000000 / 10101000001 * m.longitude ∧
    (1000000000 / 10101000001 : ℚ) = 100000 / (10101000001 / 10000) ∧
    (((KalmanFilter.new.update m).getSmoothedState uninit).is_moving = true ↔
      10101000001 / 10000000000 < |m.latitude| ∨ 10101000001 / 10000000000 < |m.longitude|) ∧
    (10102 / 10000 < |m.latitude| ∨ 10102 / 10000 < |m.longitude| →
      ((KalmanFilter.new.update m).getSmoothedState uninit).is_moving = true) ∧
    (|m.latitude| ≤ 101 / 100 → |m.longitude| ≤ 101 / 100 →
      ((KalmanFilter.new.update m).getSmoothedState uninit).is_moving = false) := by
  have hx := first_update_state m hacc
  have key : ((KalmanFilter.new.update m).getSmoothedState uninit).is_moving = true ↔
      10101000001 / 10000000000 < |m.latitude| ∨
        10101000001 / 10000000000 < |m.longitude| := by
    simp only [KalmanFilter.getSmoothedState, hx, Bool.or_eq_true, decide_eq_true_eq, gt_iff_lt]
    rw [abs_mul, abs_mul, abs_of_pos (by norm_num : (0 : ℚ) < 1000000000 / 10101000001)]
    constructor
    · rintro (h | h)
      · left; linarith
      · right; linarith
    · rintro (h | h)
      · left; linarith
      · right; linarith
  refine ⟨by rw [hx], by rw [hx], by norm_num, key, ?_, ?_⟩
  · intro h
    rw [key]
    rcases h with h | h
    · left; linarith
    · right; linarith
  · intro h1 h2
    rw [Bool.eq_false_iff, Ne, key]
    rintro (h | h) <;> linarith

theorem first_fix_reports_motion_witness :
    |singleUpdateFix.accuracy| ≤ 10 ∧
    ((KalmanFilter.new.update singleUpdateFix).getSmoothedState WorldState.zero).is_moving
      = true := by
  have hacc : |singleUpdateFix.accuracy| ≤ 10 := by
    have e : singleUpdateFix.accuracy = 10 := rfl
    rw [e]
    norm_num
  refine ⟨hacc, (first_fix_reports_motion singleUpdateFix WorldState.zero hacc).2.2.2.2.1 ?_⟩
  left
  have e : singleUpdateFix.latitude = 377749 / 10000 := rfl
  rw [e, abs_of_pos (by norm_num)]
  norm_num

/-! ## Failed commands, adapter ticks -/

theorem activateProvider_false (r : PluginRegistry) (name : List Nat)
    (h : (r.activateProvider name).1 = false) : (r.activateProvider name).2 = r := by
  cases hf : r.factories_ name with
  | none => simp only [PluginRegistry.activateProvider, hf]
  | some factory => simp [PluginRegistry.activateProvider, hf] at h

theorem empty_activate (name : List Nat) :
    (PluginRegistry.empty.activateProvider name).1 = false := rfl

theorem processCommand_driving (r : PluginRegistry) (m : SharedMemoryManager) :
    processCommand r m (str "driving") =
      ((r.activateProvider (str "cycling")).1, (r.activateProvider (str "cycling")).2,
        setAccuracyLevel m (1 / 2)) := by
  have h1 : (found (toLower (str "driving")) (str "cycling") ||
    found (toLower (str "driving")) (str "bike")) = false := by decide
  have h2 : (found (toLower (str "driving")) (str "dating") ||
    found (toLower (str "driving")) (str "tinder")) = false := by decide
  have h3 : found (toLower (str "driving")) (str "delivery") = false := by decide
  have h4 : (found (toLower (str "driving")) (str "running") ||
    found (toLower (str "driving")) (str "walking")) = false := by decide
  have h5 : (found (toLower (str "driving")) (str "driving") ||
    found (toLower (str "driving")) (str "car")) = true := by decide
  simp only [processCommand, h1, h2, h3, h4, h5, Bool.false_eq_true, if_false, if_true]

/-- C39 (counterexample): no plugin registered, a freshly initialised ready
segment (accuracy level 1.0), command "driving".  `processCommand` returns
false, and the header's accuracy level is 0.5 afterwards. -/
theorem failed_command_changes_accuracy :
    IPCReader.getAccuracyLevel readyManager = 1 ∧
    (processCommand PluginRegistry.empty readyManager (str "driving")).1 = false ∧
    IPCReader.getAccuracyLevel
      (processCommand PluginRegistry.empty readyManager (str "driving")).2.2 = 1 / 2 := by
  rw [processCommand_driving]
  refine ⟨?_, rfl, ?_⟩
  · rw [readyManager_eq, getAccuracyLevel_ready]
    rfl
  · show IPCReader.getAccuracyLevel (setAccuracyLevel readyManager (1 / 2)) = 1 / 2
    rw [readyManager_eq, setAccuracyLevel_ready_clamped, getAccuracyLevel_ready]
    show max (0 : ℚ) (min 1 (1 / 2)) = 1 / 2
    norm_num

/-- C39 (amended): whenever `processCommand` returns false the registry is
unchanged.  The shared memory is unchanged as well when the command matches
one of the first three rows or no row at all; when it matches the "running" /
"walking" row or the "driving" / "car" row, `setAccuracyLevel(1.0)` resp.
`setAccuracyLevel(0.5)` has already taken effect although the activation
failed. -/
theorem failed_command_effect (r : PluginRegistry) (m : SharedMemoryManager)
    (command : List Nat) (hfalse : (processCommand r m command).1 = false) :
    (processCommand r m command).2.1 = r ∧
    (mentions command "cycling" ∨ mentions command "bike" ∨ mentions command "dating" ∨
        mentions command "tinder" ∨ mentions command "delivery" →
      (processCommand r m command).2.2 = m) ∧
    (¬ (mentions command "running" ∨ mentions command "walking") →
      ¬ (mentions command "driving" ∨ mentions command "car") →
      (processCommand r m command).2.2 = m) ∧
    (¬ (mentions command "cycling" ∨ mentions command "bike") →
      ¬ (mentions command "dating" ∨ mentions command "tinder") →
      ¬ mentions command "delivery" →
      (mentions command "running" ∨ mentions command "walking" →
        (processCommand r m command).2.2 = setAccuracyLevel m 1) ∧
      (¬ (mentions command "running" ∨ mentions command "walking") →
        mentions command "driving" ∨ mentions command "car" →
        (processCommand r m command).2.2 = setAccuracyLevel m (1 / 2))) := by
  rw [processCommand_eq] at hfalse ⊢
  by_cases c1 : mentions command "cycling" ∨ mentions command "bike"
  · rw [if_pos c1] at hfalse ⊢
    exact ⟨activateProvider_false _ _ hfalse, fun _ => rfl, fun _ _ => rfl,
      fun n => absurd c1 n⟩
  rw [if_neg c1] at hfalse ⊢
  by_cases c2 : mentions command "dating" ∨ mentions command "tinder"
  · rw [if_pos c2] at hfalse ⊢
    exact ⟨activateProvider_false _ _ hfalse, fun _ => rfl, fun _ _ => rfl,
      fun _ n => absurd c2 n⟩
  rw [if_neg c2] at hfalse ⊢
  by_cases c3 : mentions command "delivery"
  · rw [if_pos c3] at hfalse ⊢
    exact ⟨activateProvider_false _ _ hfalse, fun _ => rfl, fun _ _ => rfl,
      fun _ _ n => absurd c3 n⟩
  rw [if_neg c3] at hfalse ⊢
  have first3 : ¬ (mentions command "cycling" ∨ mentions command "bike" ∨
      mentions command "dating" ∨ mentions command "tinder" ∨ mentions command "delivery") := by
    rintro (h | h | h | h | h)
    · exact c1 (Or.inl h)
    · exact c1 (Or.inr h)
    · exact c2 (Or.inl h)
    · exact c2 (Or.inr h)
    · exact c3 h
  by_cases c4 : mentions command "running" ∨ mentions command "walking"
  · rw [if_pos c4] at hfalse ⊢
    exact ⟨activateProvider_false _ _ hfalse, fun h => absurd h first3,
      fun n => absurd c4 n, fun _ _ _ => ⟨fun _ => rfl, fun n => absurd c4 n⟩⟩
  rw [if_neg c4] at hfalse ⊢
  by_cases c5 : mentions command "driving" ∨ mentions command "car"
  · rw [if_pos c5] at hfalse ⊢
    exact ⟨activateProvider_false _ _ hfalse, fun h => absurd h first3,
      fun _ n => absurd c5 n, fun _ _ _ => ⟨fun h => absurd h c4, fun _ _ => rfl⟩⟩
  rw [if_neg c5]
  exact ⟨rfl, fun _ => rfl, fun _ _ => rfl,
    fun _ _ _ => ⟨fun h => absurd h c4, fun _ h => absurd h c5⟩⟩

theorem failed_command_effect_witness :
    (processCommand PluginRegistry.empty readyManager (str "Start cycling")).1 = false ∧
    (processCommand PluginRegistry.empty readyManager (str "Start cycling")).2.1 =
      PluginRegistry.empty ∧
    (processCommand PluginRegistry.empty readyManager (str "Start cycling")).2.2 =
      readyManager := by
  have hf : (processCommand PluginRegistry.empty readyManager (str "Start cycling")).1
      = false := by
    rw [processCommand_start_cycling]
    rfl
  have h := failed_command_effect PluginRegistry.empty readyManager (str "Start cycling") hf
  refine ⟨hf, h.1, h.2.1 (Or.inl ?_)⟩
  simp only [mentions, ← found_iff]
  decide

theorem hashContext_zero : GeminiIntegration.hashContext ContextFrame.zero = 0 := by
  have e0 : roundToDouble ((0 : ℚ) * 10) = 0 := by rw [zero_mul, roundToDouble_zero]
  have ht : truncToInt (roundToDouble ((0 : ℚ) * 10)) = ((0 : ℕ) : Int) :=
    truncToInt_bucket _ 0 (by norm_num) (by rw [e0]; norm_num) (by rw [e0]; norm_num)
  have hr : ContextFrame.zero.road_type = List.replicate 64 0 := rfl
  have hg : ContextFrame.zero.gradient_percent = 0 := rfl
  rw [hashContext_eq, hg, ht, hr]
  decide

theorem contextUpdateStep_eq (g : GeminiIntegration) (m : SharedMemoryManager)
    (uninitState : WorldState) (uninitContext : ContextFrame) :
    g.contextUpdateStep m uninitState uninitContext =
      if (readLatestState m uninitState uninitContext).1 = true ∧
          GeminiIntegration.hashContext (readLatestState m uninitState uninitContext).2.2 ≠
            g.last_context_hash_ then
        ({ last_context_hash_ :=
            GeminiIntegration.hashContext (readLatestState m uninitState uninitContext).2.2 },
          some ((readLatestState m uninitState uninitContext).2.1,
            (readLatestState m uninitState uninitContext).2.2))
      else (g, none) := by
  unfold GeminiIntegration.contextUpdateStep
  by_cases h1 : (readLatestState m uninitState uninitContext).1 = true
  · by_cases h2 : GeminiIntegration.hashContext
        (readLatestState m uninitState uninitContext).2.2 = g.last_context_hash_
    · simp [h1, h2]
    · simp [h1, h2]
  · simp [h1]

theorem contextUpdateRun_quiet
    (ticks : List (SharedMemoryManager × WorldState × ContextFrame)) :
    ∀ g : GeminiIntegration,
      (∀ tick ∈ ticks, (readLatestState tick.1 tick.2.1 tick.2.2).1 = true →
        GeminiIntegration.hashContext (readLatestState tick.1 tick.2.1 tick.2.2).2.2 =
          g.last_context_hash_) →
      g.contextUpdateRun ticks = (g, ticks.map (fun _ => none)) := by
  induction ticks with
  | nil => intro g _; rfl
  | cons tick rest ih =>
    intro g h
    have e : g.contextUpdateStep tick.1 tick.2.1 tick.2.2 = (g, none) := by
      rw [contextUpdateStep_eq, if_neg]
      rintro ⟨h1, h2⟩
      exact h2 (h tick (List.mem_cons_self _ _) h1)
    simp only [GeminiIntegration.contextUpdateRun, e, List.map_cons]
    rw [ih g (fun t ht => h t (List.mem_cons_of_mem _ ht))]

/-- C40: an iteration of the context loop that reads a snapshot forwards it
exactly when the hash of its `ContextFrame` differs from `last_context_hash_`,
and then stores that hash; otherwise, and when nothing can be read, it forwards
nothing and keeps the stored hash.  The hash of the all-zero frame is 0, the
initial `last_context_hash_`: a new adapter forwards nothing over any run of
iterations in which every snapshot read carries a frame of hash 0, and it
forwards the first snapshot whose frame has a non-zero hash. -/
theorem tick_forwards_on_hash_change (g : GeminiIntegration) (m : SharedMemoryManager)
    (uninitState : WorldState) (uninitContext : ContextFrame)
    (ticks : List (SharedMemoryManager × WorldState × ContextFrame)) :
    ((g.contextUpdateStep m uninitState uninitContext).2.isSome = true ↔
      (readLatestState m uninitState uninitContext).1 = true ∧
        GeminiIntegration.hashContext (readLatestState m uninitState uninitContext).2.2 ≠
          g.last_context_hash_) ∧
    ((g.contextUpdateStep m uninitState uninitContext).2.isSome = true →
      (g.contextUpdateStep m uninitState uninitContext).2 =
        some ((readLatestState m uninitState uninitContext).2.1,
          (readLatestState m uninitState uninitContext).2.2) ∧
      (g.contextUpdateStep m uninitState uninitContext).1.last_context_hash_ =
        GeminiIntegration.hashContext (readLatestState m uninitState uninitContext).2.2) ∧
    ((g.contextUpdateStep m uninitState uninitContext).2 = none →
      (g.contextUpdateStep m uninitState uninitContext).1 = g) ∧
    GeminiIntegration.hashContext ContextFrame.zero = 0 ∧
    GeminiIntegration.new.last_context_hash_ = 0 ∧
    ((∀ tick ∈ ticks, (readLatestState tick.1 tick.2.1 tick.2.2).1 = true →
        GeminiIntegration.hashContext (readLatestState tick.1 tick.2.1 tick.2.2).2.2 = 0) →
      GeminiIntegration.new.contextUpdateRun ticks =
          (GeminiIntegration.new, ticks.map (fun _ => none)) ∧
      ((readLatestState m uninitState uninitContext).1 = true →
        GeminiIntegration.hashContext (readLatestState m uninitState uninitContext).2.2 ≠ 0 →
        ((GeminiIntegration.new.contextUpdateRun ticks).1.contextUpdateStep m uninitState
            uninitContext).2 =
          some ((readLatestState m uninitState uninitContext).2.1,
            (readLatestState m uninitState uninitContext).2.2))) := by
  refine ⟨?_, ?_, ?_, hashContext_zero, rfl, ?_⟩
  · rw [contextUpdateStep_eq]
    split_ifs with h
    · simp [h]
    · simp [h]
  · intro hs
    rw [contextUpdateStep_eq] at hs ⊢
    split_ifs at hs ⊢ with h
    · exact ⟨rfl, rfl⟩
    · simp at hs
  · intro hn
    rw [contextUpdateStep_eq] at hn ⊢
    split_ifs at hn ⊢ with h
    rfl
  · intro hall
    have hq := contextUpdateRun_quiet ticks GeminiIntegration.new hall
    refine ⟨hq, fun h1 h2 => ?_⟩
    rw [hq, contextUpdateStep_eq, if_pos ⟨h1, h2⟩]

theorem tick_forwards_on_hash_change_witness :
    (GeminiIntegration.new.contextUpdateRun
      [(readyManager, WorldState.zero, ContextFrame.zero),
        (writeState readyManager WorldState.zero ContextFrame.zero, WorldState.zero,
          ContextFrame.zero)]).2 = [none, none] := by
  have h := (tick_forwards_on_hash_change GeminiIntegration.new readyManager WorldState.zero
    ContextFrame.zero
    [(readyManager, WorldState.zero, ContextFrame.zero),
      (writeState readyManager WorldState.zero ContextFrame.zero, WorldState.zero,
        ContextFrame.zero)]).2.2.2.2.2 (by
      intro tick ht _
      simp only [List.mem_cons, List.mem_singleton, List.not_mem_nil, or_false] at ht
      rcases ht with rfl | rfl
      · rw [readLatestState_readyManager]
        exact hashContext_zero
      · rw [round_trip readyManager readyManager_ready readyManager_indexInRange]
        exact hashContext_zero)
  rw [h.1]
  rfl

end s2sgeo
